import Mathlib

/-!
Newtron: intent resolution and configuration compilation.

A shallow embedding of `pkg/intent/intent.go` and `pkg/device/*.go`.

Conventions of the embedding.

* A Go `map[string]V` is the list of its entries (`GoMap V`).  A Go map holds
  at most one entry per key (`GoMap.WF`); a nil map reads like the empty map.
  `for k, v := range m` over a map that is an *input* visits the entries in list
  order: the theorems quantify over every list that represents the map, hence
  over every iteration order.  Where the code ranges over a map it has built
  itself, the iteration order is an explicit parameter `ord`.
* Go strings are Lean strings; the scanning functions work on `List Char`.
* A computation that may recurse without end takes a depth bound and returns
  `none` when the bound is exceeded.
* A Go `error` is its message; a run-time panic is a separate outcome.
-/

namespace Newtron

/-! ## Go maps -/

/-- Entries of a Go `map[K]V`. -/
abbrev GoMap (κ ν : Type) := List (κ × ν)

/-- A Go map holds at most one entry per key. -/
def GoMap.WF {κ ν : Type} (m : GoMap κ ν) : Prop := (m.map Prod.fst).Nodup

instance {κ ν : Type} [DecidableEq κ] (m : GoMap κ ν) : Decidable (GoMap.WF m) :=
  inferInstanceAs (Decidable (List.Nodup _))

/-- The read `v, ok := m[k]`. -/
def mapGet {κ ν : Type} [DecidableEq κ] : GoMap κ ν → κ → Option ν
  | [], _ => none
  | (k', v) :: rest, k => if k' = k then some v else mapGet rest k

/-- The write `m[k] = v`: replaces the entry of `k` when there is one, adds one otherwise. -/
def mapSet {κ ν : Type} [DecidableEq κ] : GoMap κ ν → κ → ν → GoMap κ ν
  | [], k, v => [(k, v)]
  | (k', v') :: rest, k, v => if k' = k then (k, v) :: rest else (k', v') :: mapSet rest k v

/-- The builtin `delete(m, k)`. -/
def mapDelete {κ ν : Type} [DecidableEq κ] : GoMap κ ν → κ → GoMap κ ν
  | [], _ => []
  | (k', v') :: rest, k => if k' = k then mapDelete rest k else (k', v') :: mapDelete rest k

/-- The keys of a map, in entry order. -/
def mapKeys {κ ν : Type} (m : GoMap κ ν) : List κ := m.map Prod.fst

/-! ## Dynamically typed values

`interface{}` values as `yaml.v2` produces them: scalars, `[]interface{}` and
`map[interface{}]interface{}`. -/

/-- A Go `interface{}` value decoded from YAML. -/
inductive Value where
  | null
  | bool (b : Bool)
  | int (i : Int)
  | str (s : String)
  | list (xs : List Value)
  | map (entries : List (Value × Value))

/-- The type assertion `v.(string)` in its comma-ok form, on the result of a map read
(a missing key reads as the nil interface, on which every assertion fails). -/
def asString : Option Value → Option String
  | some (.str s) => some s
  | _ => none

/-- The type assertion `v.([]interface{})` in its comma-ok form. -/
def asList : Option Value → Option (List Value)
  | some (.list xs) => some xs
  | _ => none

/-- The type assertion `v.(map[interface{}]interface{})` in its comma-ok form. -/
def asMap : Option Value → Option (List (Value × Value))
  | some (.map entries) => some entries
  | _ => none

/-- The key is the string `name`. -/
def Value.isKey (name : String) : Value → Bool
  | .str s => s == name
  | _ => false

/-- The read `m[name]` on a `map[interface{}]interface{}` with a string constant as key. -/
def ifaceGet (m : List (Value × Value)) (name : String) : Option Value :=
  (m.find? (fun kv => kv.1.isKey name)).map Prod.snd

/-! ## Results -/

/-- How a Go call ends when it does not return normally: with an `error` value (its
message) or with a run-time panic. -/
inductive GoError where
  | error (msg : String)
  | panic (msg : String)
  deriving DecidableEq, Repr

deriving instance DecidableEq for Except

/-- The wrapping `fmt.Errorf(context + ": %w", err)`; a panic is not an error value and
passes through unchanged. -/
def wrapError (context : String) : GoError → GoError
  | .error msg => .error (context ++ ": " ++ msg)
  | .panic msg => .panic msg

/-! ## `pkg/intent/intent.go`: merging -/

/-- Source: `mergeStringMaps` (intent.go): `for k, v := range source { dest[k] = v }`.
The destination is passed by reference in Go; here the updated map is returned. -/
def mergeStringMaps (dest source : GoMap String String) : GoMap String String :=
  source.foldl (fun d kv => mapSet d kv.1 kv.2) dest

/-- Source: `mergeStringSliceMaps` (intent.go). -/
def mergeStringSliceMaps (dest source : GoMap String (List String)) :
    GoMap String (List String) :=
  source.foldl (fun d kv => mapSet d kv.1 kv.2) dest

/-! ## `pkg/intent/intent.go`: the resolver engine -/

/-- The character class `[a-zA-Z0-9_-]` of `variableRegex`. -/
def isIdent (c : Char) : Bool := c.isAlphanum || c == '_' || c == '-'

/-- The part `([a-zA-Z0-9_-]+)[>]?` of `variableRegex`, anchored at the head of `cs`:
the longest run of class characters (it must not be empty), then a `>` when one follows. -/
def variableBodyAt (cs : List Char) : Option (List Char) :=
  let run := cs.takeWhile isIdent
  if run = [] then none
  else
    match cs.dropWhile isIdent with
    | [] => some run
    | c :: _ => if c = '>' then some (run ++ ['>']) else some run

/-- The text that `[<]?([a-zA-Z0-9_-]+)[>]?` matches when anchored at the head of `cs`.
The optional `<` is greedy: it is taken when the rest then matches, and given up otherwise. -/
def variableMatchAt (cs : List Char) : Option (List Char) :=
  match cs with
  | [] => none
  | c :: rest =>
    if c = '<' then
      match variableBodyAt rest with
      | some m => some ('<' :: m)
      | none => variableBodyAt (c :: rest)
    else variableBodyAt (c :: rest)

/-- Go `(*Regexp).ReplaceAllStringFunc` for a pattern that matches no empty string:
the input is scanned from the left, at every position the pattern is tried (`matchAt`),
the leftmost match is replaced by `repl` of its text and the scan goes on behind it;
characters outside matches are copied.  `skip` counts the characters of the current
match that are still to be passed over.  `repl` returns `none` when it does not return. -/
def replaceAllStringFunc (matchAt : List Char → Option (List Char))
    (repl : List Char → Option (List Char)) : Nat → List Char → Option (List Char)
  | _, [] => some []
  | skip + 1, _ :: cs => replaceAllStringFunc matchAt repl skip cs
  | 0, c :: cs =>
    match matchAt (c :: cs) with
    | none => (replaceAllStringFunc matchAt repl 0 cs).map (fun out => c :: out)
    | some m =>
      match repl m, replaceAllStringFunc matchAt repl (m.length - 1) cs with
      | some r, some out => some (r ++ out)
      | _, _ => none

/-- Go `strings.Trim(s, cutset)`: all leading and trailing characters of the cutset removed. -/
def stringsTrim (cs : List Char) (cutset : List Char) : List Char :=
  ((cs.dropWhile cutset.contains).reverse.dropWhile cutset.contains).reverse

/-- Source: `resolver.resolveString` (intent.go), on character lists.  `depth` bounds the
depth of the recursion `r.resolveString(val)`; `none` means the bound was exceeded. -/
def resolveChars (aliases : GoMap String String) : Nat → List Char → Option (List Char)
  | 0, _ => none
  | depth + 1, input =>
    replaceAllStringFunc variableMatchAt
      (fun m =>
        let key := String.mk (stringsTrim m ['<', '>'])
        match mapGet aliases key with
        | some val => resolveChars aliases depth val.toList
        | none => some m)
      0 input

/-- Source: `resolver.resolveString` (intent.go). -/
def resolveString (aliases : GoMap String String) (depth : Nat) (input : String) : Option String :=
  (resolveChars aliases depth input.toList).map String.mk

/-- Source: `resolver` (intent.go).  The compiled `variableRegex` is the constant pattern
modelled by `variableMatchAt`. -/
structure resolver where
  aliases : GoMap String String
  reverseAliases : GoMap String String

/-- Source: `newResolver` (intent.go).  `ord` is the order in which `range aliases` visits
the entries of the merged alias map. -/
def newResolver (ord : GoMap String String → GoMap String String)
    (aliases : GoMap String String) (reverseExclude : List String) : resolver :=
  let excludeSet : GoMap String Bool :=
    reverseExclude.foldl (fun set item => mapSet set item true) []
  let reverseAliases : GoMap String String :=
    (ord aliases).foldl
      (fun rev kv => if !((mapGet excludeSet kv.1).getD false) then mapSet rev kv.2 kv.1 else rev)
      []
  { aliases := aliases, reverseAliases := reverseAliases }

/-- Source: `resolver.resolveMap` (intent.go): `resolveString` on every key and value. -/
def resolveMap (aliases : GoMap String String) (depth : Nat) (m : GoMap String String) :
    Option (GoMap String String) :=
  m.foldl
    (fun acc kv =>
      match acc, resolveString aliases depth kv.1, resolveString aliases depth kv.2 with
      | some resolved, some resolvedKey, some resolvedVal =>
        some (mapSet resolved resolvedKey resolvedVal)
      | _, _, _ => none)
    (some [])

/-! ## `pkg/intent/intent.go`: intent documents

Of each struct the fields that `Resolve` and the configuration compiler read. -/

/-- Source: `VLANInfo` (intent.go). -/
structure VLANInfo where
  Description : String
  Type_ : String
  PrefixList : List String

/-- Source: `BridgeDomain` (intent.go). -/
structure BridgeDomain where
  BaselineVLANs : List String
  VLANs : GoMap Int VLANInfo

/-- Source: `Region` (intent.go); `Bridge.Domains` is inlined as `Domains`. -/
structure Region where
  PeAsNum : Int
  PeAsName : String
  GenericAlias : GoMap String String
  PrefixLists : GoMap String (List String)
  Domains : GoMap String BridgeDomain

/-- Source: `VPN` (intent.go). -/
structure VPN where
  Description : String
  ImportTarget : String
  ExportTarget : String
  ExportPrefixList : List String
  Permission : List String
  Service : List String

/-- Source: `Service` (intent.go). -/
structure Service where
  Description : String
  ServiceType : String
  ValidIP : List String
  InterfacePolicy : GoMap String Value
  RoutingBehavior : GoMap String Value

/-- Source: `PolicyRule` (intent.go). -/
structure PolicyRule where
  Application : String
  Sequence : Int
  Match : GoMap String Value
  CoS : String
  Policer : String
  Action : String

/-- Source: `CoreBGP` (intent.go). -/
structure CoreBGP where
  PeerGroups : GoMap String (List String)

/-- Source: `DeviceProfile` (intent.go). -/
structure DeviceProfile where
  Region : String
  Site : String
  MgmtIP : String
  IsRouter : Bool
  IsBridge : Bool
  IsBorderRouter : Bool
  IsRouteReflector : Bool
  VLANPortMapping : GoMap String (List String)
  BridgeDomain : String
  GenericAlias : GoMap String String
  PrefixLists : GoMap String (List String)
  CoreBGP : Option CoreBGP

/-- Source: `NetworkIntent` (intent.go). -/
structure NetworkIntent where
  ReverseExclude : List String
  Permission : GoMap String (List String)
  Services : GoMap String Service
  PrefixServiceMapping : GoMap String (List String)
  PrefixLists : GoMap String (List String)
  PolicyRules : GoMap String PolicyRule
  Regions : GoMap String Region
  GenericAlias : GoMap String String
  Communities : GoMap String String
  VPNs : GoMap String VPN

/-- Source: `GlobalIntent` (intent.go). -/
structure GlobalIntent where
  NetworkIntent : NetworkIntent
  DeviceProfiles : GoMap String DeviceProfile

/-- Source: `ResolvedIntent` (intent.go). -/
structure ResolvedIntent where
  DeviceName : String
  Region : String
  Site : String
  MgmtIP : String
  IsRouter : Bool
  IsBridge : Bool
  IsBorderRouter : Bool
  IsRouteReflector : Bool
  GenericAlias : GoMap String String
  ReverseAlias : GoMap String String
  PrefixLists : GoMap String (List String)
  Communities : GoMap String String
  Services : GoMap String Service
  VLANPortMapping : GoMap String (List String)
  PrefixServiceMapping : GoMap String (List String)
  Permission : GoMap String (List String)
  PolicyRules : GoMap String PolicyRule
  ActiveBridgeDomain : Option BridgeDomain
  CoreBGP : Option CoreBGP
  VPNs : GoMap String VPN

/-- The three aliases that `Resolve` derives from the region (`regionAliases`);
`toUpper` is Go `strings.ToUpper`. -/
def regionAliases (toUpper : String → String) (regionData : Region) : GoMap String String :=
  [("pe-asnum", toString regionData.PeAsNum),
   ("pe-asname", regionData.PeAsName),
   ("PE-ASNAME", toUpper regionData.PeAsName)]

/-- The loop of `Resolve` that resolves the import and export targets of every VPN. -/
def resolveVPNs (aliases : GoMap String String) (depth : Nat) (vpns : GoMap String VPN) :
    Option (GoMap String VPN) :=
  vpns.foldl
    (fun acc nv =>
      match acc, resolveString aliases depth nv.2.ImportTarget,
          resolveString aliases depth nv.2.ExportTarget with
      | some resolvedVPNs, some importTarget, some exportTarget =>
        some (mapSet resolvedVPNs nv.1
          { Description := nv.2.Description,
            ImportTarget := importTarget,
            ExportTarget := exportTarget,
            ExportPrefixList := nv.2.ExportPrefixList,
            Permission := nv.2.Permission,
            Service := nv.2.Service })
      | _, _, _ => none)
    (some [])

/-- Source: `GlobalIntent.Resolve` (intent.go).  `toUpper` is Go `strings.ToUpper`, `ord` the
iteration order of `newResolver`, `depth` the bound on the recursion of `resolveString`
(`none`: the bound was exceeded).  An `error` result carries the message. -/
def Resolve (toUpper : String → String) (ord : GoMap String String → GoMap String String)
    (depth : Nat) (gi : GlobalIntent) (deviceName : String) :
    Option (Except String ResolvedIntent) :=
  match mapGet gi.DeviceProfiles deviceName with
  | none => some (.error ("no profile found for device: " ++ deviceName))
  | some deviceProfile =>
    -- 1. Hierarchically merge aliases and prefix lists
    let resolvedAliases := mergeStringMaps [] gi.NetworkIntent.GenericAlias
    let resolvedPrefixLists := mergeStringSliceMaps [] gi.NetworkIntent.PrefixLists
    let regionName := deviceProfile.Region
    match mapGet gi.NetworkIntent.Regions regionName with
    | none => some (.error ("region \x27" ++ regionName ++ "\x27 not found in network intent"))
    | some regionData =>
      let resolvedAliases := mergeStringMaps resolvedAliases (regionAliases toUpper regionData)
      let resolvedAliases := mergeStringMaps resolvedAliases regionData.GenericAlias
      let resolvedPrefixLists := mergeStringSliceMaps resolvedPrefixLists regionData.PrefixLists
      let resolvedAliases := mergeStringMaps resolvedAliases deviceProfile.GenericAlias
      let resolvedPrefixLists := mergeStringSliceMaps resolvedPrefixLists deviceProfile.PrefixLists
      -- 2. Create the resolver engine
      let resolver := newResolver ord resolvedAliases gi.NetworkIntent.ReverseExclude
      -- 3. Resolve communities and VPNs
      match resolveMap resolver.aliases depth gi.NetworkIntent.Communities,
          resolveVPNs resolver.aliases depth gi.NetworkIntent.VPNs with
      | some resolvedCommunities, some resolvedVPNs =>
        -- 4. Resolve the active bridge domain
        let activeBridgeDomain : Option BridgeDomain :=
          if deviceProfile.BridgeDomain ≠ "" then
            mapGet regionData.Domains deviceProfile.BridgeDomain
          else none
        -- 5. Assemble the final ResolvedIntent
        some (.ok
          { DeviceName := deviceName,
            Region := deviceProfile.Region,
            Site := deviceProfile.Site,
            MgmtIP := deviceProfile.MgmtIP,
            IsRouter := deviceProfile.IsRouter,
            IsBridge := deviceProfile.IsBridge,
            IsBorderRouter := deviceProfile.IsBorderRouter,
            IsRouteReflector := deviceProfile.IsRouteReflector,
            GenericAlias := resolvedAliases,
            ReverseAlias := resolver.reverseAliases,
            PrefixLists := resolvedPrefixLists,
            Communities := resolvedCommunities,
            Services := gi.NetworkIntent.Services,
            VPNs := resolvedVPNs,
            PrefixServiceMapping := gi.NetworkIntent.PrefixServiceMapping,
            Permission := gi.NetworkIntent.Permission,
            VLANPortMapping := deviceProfile.VLANPortMapping,
            PolicyRules := gi.NetworkIntent.PolicyRules,
            ActiveBridgeDomain := activeBridgeDomain,
            CoreBGP := deviceProfile.CoreBGP })
      | _, _ => none

/-- The ASCII part of Go `strings.ToUpper`, used where a concrete instance is evaluated. -/
def asciiUpper (s : String) : String := String.mk (s.toList.map Char.toUpper)

/-! ## `pkg/device/device.go`: gNMI paths -/

/-- The single quote character. -/
def quote : Char := Char.ofNat 39

/-- The character class `[a-zA-Z0-9\-:_]` of `pathElementRe`. -/
def isPathChar (c : Char) : Bool := c.isAlphanum || c == '-' || c == ':' || c == '_'

/-- The longest `v` with `w = v ++ ']' :: _`: the text before the last `]` of `w`. -/
def beforeLastBracket : List Char → Option (List Char)
  | [] => none
  | c :: cs =>
    match beforeLastBracket cs with
    | some v => some (c :: v)
    | none => if c = ']' then some [] else none

/-- The part `([^']*)'?\]` of `pathElementRe`, anchored at the head of `r`; the result is the
captured value.  `[^']*` is greedy: it first takes the whole quote-free run `w`, which
succeeds when a quote and `]` follow; otherwise it gives back characters until a `]` of
`w` comes next. -/
def pathValueAt (r : List Char) : Option (List Char) :=
  let w := r.takeWhile (fun c => c != quote)
  match r.dropWhile (fun c => c != quote) with
  | q :: b :: _ => if q = quote ∧ b = ']' then some w else beforeLastBracket w
  | _ => beforeLastBracket w

/-- The part `'?([^']*)'?\]` of `pathElementRe`: the opening quote is taken when the rest
then matches, and given up otherwise. -/
def pathSelectorValueAt (afterEq : List Char) : Option (List Char) :=
  match afterEq with
  | [] => pathValueAt []
  | c :: r =>
    if c = quote then
      match pathValueAt r with
      | some v => some v
      | none => pathValueAt (c :: r)
    else pathValueAt (c :: r)

/-- The optional group `(\[([a-zA-Z0-9\-:_]+)='?([^']*)'?\])?` of `pathElementRe`, anchored
at the head of `cs`: the captured key and value, or `none` when the group takes no part. -/
def pathSelectorAt (cs : List Char) : Option (List Char × List Char) :=
  match cs with
  | [] => none
  | c :: rest =>
    if c = '[' then
      let key := rest.takeWhile isPathChar
      if key = [] then none
      else
        match rest.dropWhile isPathChar with
        | [] => none
        | e :: afterEq =>
          if e = '=' then (pathSelectorValueAt afterEq).map (fun v => (key, v)) else none
    else none

/-- Go `pathElementRe.FindStringSubmatch(part)`: the submatches 1, 3 and 4 of the leftmost
match, or `none` when the pattern matches nowhere (no character of the name class).  The
match starts at the first character of the name class and the name is the longest run. -/
def pathElementSubmatch (part : List Char) : Option (List Char × List Char × List Char) :=
  let fromName := part.dropWhile (fun c => !isPathChar c)
  if fromName = [] then none
  else
    let name := fromName.takeWhile isPathChar
    match pathSelectorAt (fromName.dropWhile isPathChar) with
    | some (key, value) => some (name, key, value)
    | none => some (name, [], [])

/-- The gNMI `PathElem`: a name and its key map (nil when there is no key). -/
structure PathElem where
  Name : String
  Key : GoMap String String
  deriving DecidableEq, Repr

/-- The gNMI `Path`. -/
structure Path where
  Origin : String
  Elem : List PathElem
  deriving DecidableEq, Repr

/-- The loop of `StringToPath` over the parts of the split path. -/
def stringToPathElems : List (List Char) → Except GoError (List PathElem)
  | [] => .ok []
  | part :: parts =>
    if part = [] then stringToPathElems parts
    else
      match pathElementSubmatch part with
      | none => .error (.error ("invalid path element format: " ++ String.mk part))
      | some (name, key, value) =>
        let elem : PathElem :=
          { Name := String.mk name,
            Key := if key ≠ [] ∧ value ≠ [] then [(String.mk key, String.mk value)] else [] }
        match stringToPathElems parts with
        | .ok elems => .ok (elem :: elems)
        | .error e => .error e

/-- Go `strings.TrimPrefix(p, "/")`. -/
def trimLeadingSlash (p : List Char) : List Char :=
  match p with
  | [] => []
  | c :: rest => if c = '/' then rest else c :: rest

/-- Source: `StringToPath` (device.go). -/
def StringToPath (p : String) : Except GoError Path :=
  let p := trimLeadingSlash p.toList
  if p = [] then .ok { Origin := "openconfig", Elem := [] }
  else
    match stringToPathElems (p.splitOn '/') with
    | .ok elems => .ok { Origin := "openconfig", Elem := elems }
    | .error e => .error e

/-- The path string that the compiler builds for an interface (config.go, load.go):
`fmt.Sprintf("/interfaces/interface[name=%s]", ifName)`. -/
def interfacePath (ifName : String) : String := "/interfaces/interface[name=" ++ ifName ++ "]"

/-! ## Generated OpenConfig structs (`pkg/oc`)

The generated package is not among the sources; of each struct the fields that the
compiler sets are kept. -/

/-- Modelled from the spec: the generated enum `E_OpenconfigAcl_FORWARDING_ACTION`
(`pkg/oc` is not among the sources); `UNSET` is the zero value. -/
inductive ForwardingAction where
  | UNSET
  | ACCEPT
  | DROP
  deriving DecidableEq, Repr

/-- Modelled from the spec: the generated enum `E_OpenconfigPacketMatchTypes_IP_PROTOCOL`
(`pkg/oc` is not among the sources); `UNSET` is the zero value. -/
inductive IpProtocol where
  | UNSET
  | TCP
  | UDP
  | ICMP
  deriving DecidableEq, Repr

/-- Modelled from the spec: the generated struct
`OpenconfigAcl_Acl_AclSets_AclSet_AclEntries_AclEntry` (`pkg/oc` is not among the sources):
sequence id (`uint32`), IPv4 match configuration and forwarding action. -/
structure AclEntry where
  SequenceId : Nat
  Protocol : IpProtocol
  SourceAddress : Option String
  ForwardingAction : ForwardingAction
  deriving DecidableEq, Repr

/-- Modelled from the spec: the generated struct `OpenconfigAcl_Acl_AclSets_AclSet`
(`pkg/oc` is not among the sources): name, configured name, and the entries keyed by
sequence number (`map[uint32]*AclEntry`); the type is always `ACL_IPV4`. -/
structure AclSet where
  Name : String
  ConfigName : String
  AclEntry : GoMap Nat AclEntry
  deriving DecidableEq, Repr

/-- Modelled from the spec: the generated struct
`OpenconfigInterfaces_Interfaces_Interface_Subinterfaces_Subinterface_Ipv4_Acl`
(`pkg/oc` is not among the sources): the ACL sets bound to a sub-interface. -/
structure AclBinding where
  IngressAclSet : Option String
  EgressAclSet : Option String
  deriving DecidableEq, Repr

/-- Modelled from the spec: the generated enum `E_OpenconfigVlan_VlanModeType`
(`pkg/oc` is not among the sources); `UNSET` is the zero value. -/
inductive VlanModeType where
  | UNSET
  | ACCESS
  | TRUNK
  deriving DecidableEq, Repr

/-- Modelled from the spec: the generated struct
`OpenconfigInterfaces_Interfaces_Interface_Ethernet_SwitchedVlan` with its `Config`
(`pkg/oc` is not among the sources): interface mode, access VLAN (`*uint16`, nil when not
set) and trunk VLANs (`uint16` members of the VLAN union). -/
structure SwitchedVlan where
  InterfaceMode : VlanModeType
  AccessVlan : Option Nat
  TrunkVlans : List Nat
  deriving DecidableEq, Repr

/-- Modelled from the spec: the generated struct
`OpenconfigInterfaces_Interfaces_Interface_Subinterfaces_Subinterface_Ipv4_Addresses_Address`
(`pkg/oc` is not among the sources): the address, and in its `Config` the address again
and the prefix length (`uint8`). -/
structure Ipv4Address where
  Ip : String
  ConfigIp : String
  PrefixLength : Nat
  deriving DecidableEq, Repr

/-- Modelled from the spec: the generated struct
`OpenconfigInterfaces_Interfaces_Interface_Subinterfaces_Subinterface` (`pkg/oc` is not
among the sources): the index (`uint32`) and the IPv4 addresses keyed by address. -/
structure Subinterface where
  Index : Nat
  Address : GoMap String Ipv4Address
  deriving DecidableEq, Repr

/-- The conversion `uint32(i)` of a Go `int`. -/
def uint32 (i : Int) : Nat := (i % 4294967296).toNat

/-- The conversion `uint16(i)` of a Go `int`. -/
def uint16 (i : Int) : Nat := (i % 65536).toNat

/-- The conversion `uint8(i)` of a Go `int`. -/
def uint8 (i : Int) : Nat := (i % 256).toNat

/-! ## Go `strconv` -/

/-- The digit loop of `strconv.Atoi`: `n = n*10 + digit`, a syntax error on any other byte. -/
def atoiDigits : List Char → Nat → Option Nat
  | [], n => some n
  | c :: cs, n => if c.isDigit then atoiDigits cs (n * 10 + (c.toNat - '0'.toNat)) else none

/-- Go `strconv.Atoi` on a 64-bit platform, `none` for an error: an optional sign `+` or `-`,
then at least one decimal digit and nothing else; the value must fit an `int`
(`-2^63 .. 2^63-1`). -/
def strconvAtoi (s : List Char) : Option Int :=
  match s with
  | [] => none
  | c :: rest =>
    let digits := if c = '-' ∨ c = '+' then rest else c :: rest
    if digits = [] then none
    else
      match atoiDigits digits 0 with
      | none => none
      | some n =>
        if c = '-' then (if n ≤ 9223372036854775808 then some (-(n : Int)) else none)
        else (if n < 9223372036854775808 then some (n : Int) else none)

/-! ## `pkg/device/config_helpers.go`: VLANs and sub-interface addresses -/

/-- The loop of the trunk case of `buildSwitchedVlanConfig`; `trunkVlans` is the slice
appended to so far. -/
def trunkVlanLoop : List String → List Nat → Except GoError (List Nat)
  | [], trunkVlans => .ok trunkVlans
  | v :: rest, trunkVlans =>
    match strconvAtoi v.toList with
    | none => .error (.error ("invalid VLAN ID for trunk mode: " ++ v))
    | some vlanID => trunkVlanLoop rest (trunkVlans ++ [uint16 vlanID])

/-- Source: `buildSwitchedVlanConfig` (config_helpers.go). -/
def buildSwitchedVlanConfig (mode : String) (vlans : List String) :
    Except GoError SwitchedVlan :=
  if mode = "access" then
    match vlans with
    | [v] =>
      match strconvAtoi v.toList with
      | none => .error (.error ("invalid VLAN ID for access mode: " ++ v))
      | some vlanID =>
        .ok { InterfaceMode := .ACCESS, AccessVlan := some (uint16 vlanID), TrunkVlans := [] }
    | _ =>
      .error (.error ("access mode requires exactly one VLAN, got " ++ toString vlans.length))
  else if mode = "trunk" then
    match trunkVlanLoop vlans [] with
    | .error e => .error e
    | .ok trunkVlans =>
      .ok { InterfaceMode := .TRUNK, AccessVlan := none, TrunkVlans := trunkVlans }
  else .error (.error ("unsupported interface mode: " ++ mode))

/-- Source: `buildSubinterfaceIPConfig` (config_helpers.go); the interface name is not used
by the function. -/
def buildSubinterfaceIPConfig (_ifName : String) (subifIndex : Int) (ipAddressCIDR : String) :
    Except GoError Subinterface :=
  match ipAddressCIDR.toList.splitOn '/' with
  | [ip, len] =>
    match strconvAtoi len with
    | none => .error (.error ("invalid prefix length: " ++ String.mk len))
    | some prefixLen =>
      .ok
        { Index := uint32 subifIndex,
          Address :=
            [(String.mk ip,
              { Ip := String.mk ip, ConfigIp := String.mk ip, PrefixLength := uint8 prefixLen })] }
  | _ => .error (.error ("invalid CIDR format: " ++ ipAddressCIDR))

/-! ## `pkg/device/config_helpers.go`: firewall policy -/

/-- Source: `buildAclEntry` (config_helpers.go).  `toUpper` is Go `strings.ToUpper`.  The
assertion `srcList[0].(string)` has no comma-ok form: it panics on a non-string. -/
def buildAclEntry (toUpper : String → String) (rule : PolicyRule)
    (_resolvedIntent : ResolvedIntent) : Except GoError AclEntry :=
  let protocol : IpProtocol :=
    match asString (mapGet rule.Match "protocol") with
    | some proto =>
      if toUpper proto = "TCP" then .TCP
      else if toUpper proto = "UDP" then .UDP
      else if toUpper proto = "ICMP" then .ICMP
      else .UNSET
    | none => .UNSET
  let sourceAddress : Except GoError (Option String) :=
    match asList (mapGet rule.Match "source_list") with
    | some (first :: _) =>
      match first with
      | .str src => .ok (some src)
      | _ => .error (.panic "interface conversion: interface is not string")
    | _ => .ok none
  match sourceAddress with
  | .error e => .error e
  | .ok src =>
    .ok
      { SequenceId := uint32 rule.Sequence,
        Protocol := protocol,
        SourceAddress := src,
        ForwardingAction := if rule.Action = "discard" then .DROP else .ACCEPT }

/-- The loop of `buildAclSet` over the rule list; `entries` is the entry map filled so far.
The assertion `ruleNameIntf.(string)` has no comma-ok form: it panics on a non-string. -/
def buildAclEntries (toUpper : String → String) (resolvedIntent : ResolvedIntent) :
    List Value → GoMap Nat AclEntry → Except GoError (GoMap Nat AclEntry)
  | [], entries => .ok entries
  | ruleNameIntf :: rest, entries =>
    match ruleNameIntf with
    | .str ruleName =>
      match mapGet resolvedIntent.PolicyRules ruleName with
      | none =>
        .error (.error ("policy rule definition \x27" ++ ruleName ++ "\x27 not found in intent"))
      | some rule =>
        match buildAclEntry toUpper rule resolvedIntent with
        | .error e =>
          .error (wrapError ("failed to build ACL entry for rule \x27" ++ ruleName ++ "\x27") e)
        | .ok aclEntry =>
          buildAclEntries toUpper resolvedIntent rest
            (mapSet entries (uint32 rule.Sequence) aclEntry)
    | _ => .error (.panic "interface conversion: interface is not string")

/-- Source: `buildAclSet` (config_helpers.go). -/
def buildAclSet (toUpper : String → String) (name : String) (ruleList : List Value)
    (resolvedIntent : ResolvedIntent) : Except GoError AclSet :=
  match buildAclEntries toUpper resolvedIntent ruleList [] with
  | .error e => .error e
  | .ok entries => .ok { Name := name, ConfigName := name, AclEntry := entries }

/-- Source: `buildFirewallAclBinding` (config_helpers.go). -/
def buildFirewallAclBinding (inFilter outFilter : String) : Except GoError AclBinding :=
  .ok
    { IngressAclSet := if inFilter ≠ "" then some inFilter else none,
      EgressAclSet := if outFilter ≠ "" then some outFilter else none }

/-! ## `pkg/device/device.go`: the device and its gNMI client -/

/-- The gNMI `UpdateResult_Operation` values that the compiler passes to `gnmiSet`. -/
inductive Operation where
  | UPDATE
  | REPLACE
  | DELETE
  deriving DecidableEq, Repr

/-- The `String()` form of an operation, as `%s` prints it. -/
def Operation.name : Operation → String
  | .UPDATE => "UPDATE"
  | .REPLACE => "REPLACE"
  | .DELETE => "DELETE"

/-- Modelled from the spec: the generated root struct `oc.Device` (`pkg/oc` is not among the
sources), the result of `oc.Unmarshal` on a configlet; it stands for the device tree that
the JSON document describes. -/
structure OcDevice where
  document : String
  deriving DecidableEq, Repr

/-- The `ygot.GoStruct` handed to `gnmiSet` (`nil` for a delete).  The compiler hands over
pointers to the structs it builds (`&oc...{...}`); the one exception is `device`: the
struct `oc.Device` that `applyConfiglet` declares with `var data oc.Device` and hands over
by value. -/
inductive Payload where
  | nil
  | aclSet (s : AclSet)
  | aclBinding (b : AclBinding)
  | bridgeInterface (name : String) (switchedVlan : SwitchedVlan)
  | subinterface (subif : Subinterface)
  | interfaceSpeed (name : String) (portSpeed : Nat)
  | device (data : OcDevice)
  deriving DecidableEq, Repr

/-- Go `ygot.EmitJSON` on the payload of an update or replace (the library is not among the
sources).  It reads the struct through its pointer (`reflect.ValueOf(s).Elem()`), so a
struct handed over by value makes it panic; for the structs handed over by pointer the
encoding is taken to succeed. -/
def emitJSON : Payload → Except GoError Unit
  | .device _ => .error (.panic "reflect: call of reflect.Value.Elem on struct Value")
  | _ => .ok ()

/-- One call of `gnmiSet`: its arguments, and in `sent` the parsed path of the `Set` request
that went to the device (`none` when nothing was sent: `StringToPath` rejected the path
string, or the payload could not be encoded). -/
structure SetCall where
  pathStr : String
  op : Operation
  payload : Payload
  sent : Option Path
  deriving DecidableEq, Repr

/-- Source: `Port` (device.go), the fields the compiler reads. -/
structure Port where
  IfName : String

/-- Source: `SubInterface` (device.go), the fields the compiler reads. -/
structure SubInterface where
  ID : Int
  ParentPort : Port
  IfName : String
  Service : String

/-- Source: `Device` (device.go).  `gnmiClient` stands for the gNMI client: given the calls
made so far and the request at hand, `Set` answers with an error message or with success
(`none`). -/
structure Device where
  Intent : ResolvedIntent
  gnmiClient : List SetCall → SetCall → Option String

/-- Source: `Device.gnmiSet` (device.go).  `log` holds the calls of `gnmiSet` made so far;
the result is the returned error, if any, and the extended log.  A delete sends the path
alone; an update or replace first encodes the payload with `ygot.EmitJSON`. -/
def Device.gnmiSet (d : Device) (log : List SetCall) (pathStr : String) (op : Operation)
    (s : Payload) : Except GoError Unit × List SetCall :=
  match StringToPath pathStr with
  | .error e => (.error e, log ++ [{ pathStr := pathStr, op := op, payload := s, sent := none }])
  | .ok path =>
    match (if op = .DELETE then .ok () else emitJSON s) with
    | .error e =>
      (.error e, log ++ [{ pathStr := pathStr, op := op, payload := s, sent := none }])
    | .ok _ =>
      let call : SetCall := { pathStr := pathStr, op := op, payload := s, sent := some path }
      match d.gnmiClient log call with
      | some msg =>
        (.error (.error ("gNMI Set failed for path " ++ pathStr ++ " (op: " ++ op.name ++ "): "
          ++ msg)), log ++ [call])
      | none => (.ok (), log ++ [call])

/-! ## `pkg/device/config.go`: firewall policy attachment -/

/-- The path of an ACL set: `fmt.Sprintf("/acl/acl-sets/acl-set[name=%s][type=ACL_IPV4]", name)`. -/
def aclSetPath (name : String) : String :=
  "/acl/acl-sets/acl-set[name=" ++ name ++ "][type=ACL_IPV4]"

/-- The path of a sub-interface's ACL binding:
`fmt.Sprintf("/interfaces/interface[name=%s]/subinterfaces/subinterface[index=%d]/ipv4/acl", ...)`. -/
def aclBindingPath (subInterface : SubInterface) : String :=
  "/interfaces/interface[name=" ++ subInterface.ParentPort.IfName
    ++ "]/subinterfaces/subinterface[index=" ++ toString subInterface.ID ++ "]/ipv4/acl"

/-- Source: `Device.ConfigFirewallPolicy` (config.go), from step 1 on: the filter names and
rule lists have been extracted from the policy map. -/
def Device.applyFirewallPolicy (toUpper : String → String) (d : Device)
    (subInterface : SubInterface) (inFilterName outFilterName : String)
    (inRuleList outRuleList : List Value) : Except GoError Unit × List SetCall :=
  -- 1. Build and apply the ingress ACL
  let ingress : Except GoError Unit × List SetCall :=
    if inFilterName ≠ "" ∧ inRuleList.length > 0 then
      match buildAclSet toUpper inFilterName inRuleList d.Intent with
      | .error e => (.error (wrapError "could not build ingress ACL ygot struct" e), [])
      | .ok inAclSet =>
        match d.gnmiSet [] (aclSetPath inFilterName) .REPLACE (.aclSet inAclSet) with
        | (.error e, log) => (.error (wrapError "failed to apply ingress ACL set" e), log)
        | (.ok _, log) => (.ok (), log)
    else (.ok (), [])
  match ingress with
  | (.error e, log) => (.error e, log)
  | (.ok _, log1) =>
    -- 2. Build and apply the egress ACL
    let egress : Except GoError Unit × List SetCall :=
      if outFilterName ≠ "" ∧ outRuleList.length > 0 then
        match buildAclSet toUpper outFilterName outRuleList d.Intent with
        | .error e => (.error (wrapError "could not build egress ACL ygot struct" e), log1)
        | .ok outAclSet =>
          match d.gnmiSet log1 (aclSetPath outFilterName) .REPLACE (.aclSet outAclSet) with
          | (.error e, log) => (.error (wrapError "failed to apply egress ACL set" e), log)
          | (.ok _, log) => (.ok (), log)
      else (.ok (), log1)
    match egress with
    | (.error e, log) => (.error e, log)
    | (.ok _, log2) =>
      -- 3. Bind the ACLs to the interface
      match buildFirewallAclBinding inFilterName outFilterName with
      | .error e => (.error e, log2)
      | .ok aclBinding =>
        d.gnmiSet log2 (aclBindingPath subInterface) .REPLACE (.aclBinding aclBinding)

/-- Source: `Device.ConfigFirewallPolicy` (config.go).  The result is the returned error, if
any, and the calls of `gnmiSet` that were made. -/
def Device.ConfigFirewallPolicy (toUpper : String → String) (d : Device)
    (subInterface : SubInterface) : Except GoError Unit × List SetCall :=
  match mapGet d.Intent.Services subInterface.Service with
  | none =>
    (.error (.error ("service intent for \x27" ++ subInterface.Service ++ "\x27 not found")), [])
  | some serviceIntent =>
    match asMap (mapGet serviceIntent.InterfacePolicy "all") with
    | none =>
      (.error (.error ("could not find \x27all\x27 interface policy for service \x27"
        ++ subInterface.Service ++ "\x27")), [])
    | some policyMap =>
      match asString (ifaceGet policyMap "in_name") with
      | none =>
        (.error (.error ("invalid \x27in_name\x27 in policy map for service \x27"
          ++ subInterface.Service ++ "\x27")), [])
      | some inFilterName =>
        match asString (ifaceGet policyMap "out_name") with
        | none =>
          (.error (.error ("invalid \x27out_name\x27 in policy map for service \x27"
            ++ subInterface.Service ++ "\x27")), [])
        | some outFilterName =>
          match asList (ifaceGet policyMap "in_rule") with
          | none =>
            (.error (.error ("invalid \x27in_rule\x27 in policy map for service \x27"
              ++ subInterface.Service ++ "\x27")), [])
          | some inRuleList =>
            match asList (ifaceGet policyMap "out_rule") with
            | none =>
              (.error (.error ("invalid \x27out_rule\x27 in policy map for service \x27"
                ++ subInterface.Service ++ "\x27")), [])
            | some outRuleList =>
              d.applyFirewallPolicy toUpper subInterface inFilterName outFilterName
                inRuleList outRuleList

/-! ## `pkg/device/config.go`: bridge interfaces -/

/-- The path of an interface's switched-VLAN subtree:
`fmt.Sprintf("/interfaces/interface[name=%s]/ethernet/switched-vlan", port.IfName)`. -/
def switchedVlanPath (port : Port) : String :=
  "/interfaces/interface[name=" ++ port.IfName ++ "]/ethernet/switched-vlan"

/-- Source: `Device.ConfigBridgeInterface` (config.go).  The payload of the replace is the
interface struct with the port's name and the switched-VLAN configuration. -/
def Device.ConfigBridgeInterface (d : Device) (port : Port) (action mode : String)
    (vlans : List String) : Except GoError Unit × List SetCall :=
  if action = "delete" then d.gnmiSet [] (switchedVlanPath port) .DELETE .nil
  else
    match buildSwitchedVlanConfig mode vlans with
    | .error e => (.error e, [])
    | .ok swvlanConfig =>
      d.gnmiSet [] (switchedVlanPath port) .REPLACE (.bridgeInterface port.IfName swvlanConfig)

/-! ## `pkg/device/config_helpers.go`: route-target lists -/

/-- Source: `modifyRTList` (config_helpers.go).  `ord` is the order in which
`for s := range set` visits the entries of the set. -/
def modifyRTList (ord : GoMap String Bool → GoMap String Bool) (list : List String)
    (item action : String) : List String :=
  let set : GoMap String Bool := list.foldl (fun set s => mapSet set s true) []
  let set := if action = "add" then mapSet set item true else mapDelete set item
  (ord set).foldl (fun newList kv => newList ++ [kv.1]) []

/-- An iteration order: the entries of the map, each once, in some order. -/
def IsOrder {κ ν : Type} (ord : GoMap κ ν → GoMap κ ν) : Prop := ∀ m, (ord m).Perm m

/-! ## Specification-side definitions -/

/-- The malformed policies of the specification: the service is not in the catalog, or its
interface policy has no map under the scope `all`, or `in_name` or `out_name` is not a
string there, or `in_rule` or `out_rule` is not a list there (absent or of another type). -/
def policyMalformed (intent : ResolvedIntent) (service : String) : Bool :=
  match mapGet intent.Services service with
  | none => true
  | some serviceIntent =>
    match asMap (mapGet serviceIntent.InterfacePolicy "all") with
    | none => true
    | some policyMap =>
      (asString (ifaceGet policyMap "in_name")).isNone
        || (asString (ifaceGet policyMap "out_name")).isNone
        || (asList (ifaceGet policyMap "in_rule")).isNone
        || (asList (ifaceGet policyMap "out_rule")).isNone

/-- The catalog rule that an element of a rule list names: none when the element is not a
string or the catalog has no rule of that name. -/
def lookupRule (intent : ResolvedIntent) : Value → Option PolicyRule
  | .str ruleName => mapGet intent.PolicyRules ruleName
  | _ => none

/-- The `source_list` of the rule's match map is absent, not a list, empty, or starts with a
string: `buildAclEntry` reads its first element with an unchecked `.(string)`. -/
def sourceListOk (rule : PolicyRule) : Bool :=
  match asList (mapGet rule.Match "source_list") with
  | some (first :: _) => (asString (some first)).isSome
  | _ => true

/-- The element names a catalog rule whose `source_list` is well typed. -/
def ruleOk (intent : ResolvedIntent) (v : Value) : Bool :=
  match lookupRule intent v with
  | some rule => sourceListOk rule
  | none => false

/-- Every element of the rule list is a string that names a catalog rule with a well-typed
`source_list`. -/
def RuleListOk (intent : ResolvedIntent) (ruleList : List Value) : Prop :=
  ∀ v ∈ ruleList, ruleOk intent v = true

instance (intent : ResolvedIntent) (ruleList : List Value) :
    Decidable (RuleListOk intent ruleList) :=
  inferInstanceAs (Decidable (∀ v ∈ ruleList, _))

/-- The sequence number (as `uint32`) of the catalog rule that the element names is `n`. -/
def namesSequence (intent : ResolvedIntent) (n : Nat) (v : Value) : Prop :=
  ∃ rule, lookupRule intent v = some rule ∧ uint32 rule.Sequence = n

/-- A policy rule with the given sequence number, match map and action. -/
def ruleWith (sequence : Int) (matchMap : GoMap String Value) (action : String) : PolicyRule :=
  { Application := "", Sequence := sequence, Match := matchMap, CoS := "", Policer := "",
    Action := action }

/-- A catalog with two rules of sequence number 10 and one rule with an ill-typed
`source_list`. -/
def exampleRules : GoMap String PolicyRule :=
  [("permit-web", ruleWith 10 [("protocol", .str "tcp"), ("source_list", .list [.str "10.0.0.0/8"])]
      "accept"),
   ("deny-all", ruleWith 10 [] "discard"),
   ("permit-dns", ruleWith 20 [("protocol", .str "udp")] "accept"),
   ("bad-source", ruleWith 30 [("source_list", .list [.int 5])] "accept")]

/-- A resolved intent that holds the given service and policy-rule catalogs. -/
def intentWith (services : GoMap String Service) (policyRules : GoMap String PolicyRule) :
    ResolvedIntent :=
  { DeviceName := "pe1", Region := "east", Site := "s1", MgmtIP := "192.0.2.1",
    IsRouter := true, IsBridge := false, IsBorderRouter := false, IsRouteReflector := false,
    GenericAlias := [], ReverseAlias := [], PrefixLists := [], Communities := [],
    Services := services, VLANPortMapping := [], PrefixServiceMapping := [],
    Permission := [], PolicyRules := policyRules, ActiveBridgeDomain := none,
    CoreBGP := none, VPNs := [] }

/-- A service whose interface policy for the scope `all` is the given map. -/
def serviceWith (policyMap : List (Value × Value)) : Service :=
  { Description := "", ServiceType := "", ValidIP := [],
    InterfacePolicy := [("all", .map policyMap)], RoutingBehavior := [] }

/-- A sub-interface `ae0.100` that carries the given service. -/
def subInterfaceWith (service : String) : SubInterface :=
  { ID := 100, ParentPort := { IfName := "ae0" }, IfName := "ae0.100", Service := service }

/-- A device whose gNMI client accepts every `Set`. -/
def acceptingDevice (intent : ResolvedIntent) : Device :=
  { Intent := intent, gnmiClient := fun _ _ => none }

/-- A well-formed policy map with the given filter names and rule lists. -/
def policyWith (inName outName : String) (inRules outRules : List Value) :
    List (Value × Value) :=
  [(.str "in_name", .str inName), (.str "out_name", .str outName),
   (.str "in_rule", .list inRules), (.str "out_rule", .list outRules)]

/-- A device with an accepting gNMI client whose intent holds the example rule catalog and
one service `internet` with the given policy. -/
def exampleDevice (policyMap : List (Value × Value)) : Device :=
  acceptingDevice (intentWith [("internet", serviceWith policyMap)] exampleRules)

/-- A policy map that lacks `out_name`. -/
def policyWithoutOutName : List (Value × Value) :=
  [(.str "in_name", .str "FILTER-IN"), (.str "in_rule", .list [.str "r1"]),
   (.str "out_rule", .list [])]

/-- The merged value of the specification: `L3[k]` if `k` is in `L3`, else `L2[k]` if `k` is
in `L2`, else `L1[k]`; no value when `k` is in none of the layers. -/
def layeredSpec (L1 L2 L3 : GoMap String String) (k : String) : Option String :=
  (mapGet L3 k).or ((mapGet L2 k).or (mapGet L1 k))

/-- The keys of the aliases that `Resolve` synthesizes from the region. -/
def synthesizedKeys : List String := ["pe-asnum", "pe-asname", "PE-ASNAME"]

/-- A region with AS number 64512 and the given alias layer. -/
def exampleRegion (L2 : GoMap String String) : Region :=
  { PeAsNum := 64512, PeAsName := "east-as", GenericAlias := L2, PrefixLists := [],
    Domains := [] }

/-- A device profile in region `east` with the given alias layer. -/
def exampleProfile (L3 : GoMap String String) : DeviceProfile :=
  { Region := "east", Site := "s1", MgmtIP := "192.0.2.1", IsRouter := true,
    IsBridge := false, IsBorderRouter := false, IsRouteReflector := false,
    VLANPortMapping := [], BridgeDomain := "", GenericAlias := L3,
    PrefixLists := [], CoreBGP := none }

/-- An intent with one region `east` (AS number 64512) and one device `pe1`, whose alias
layers hold the given entries. -/
def exampleIntent (L1 L2 L3 : GoMap String String) : GlobalIntent :=
  { NetworkIntent :=
      { ReverseExclude := [], Permission := [], Services := [], PrefixServiceMapping := [],
        PrefixLists := [], PolicyRules := [],
        Regions := [("east", exampleRegion L2)],
        GenericAlias := L1,
        Communities := [("<pe-asnum>:100", "<pe-asnum>:100")],
        VPNs := [] },
    DeviceProfiles := [("pe1", exampleProfile L3)] }

/-- Example layers with overlapping keys: global, region, device. -/
def exampleL1 : GoMap String String := [("x", "g"), ("y", "g"), ("z", "g"), ("pe-asname", "g")]

/-- The region layer of the example. -/
def exampleL2 : GoMap String String := [("y", "r"), ("z", "r")]

/-- The device layer of the example. -/
def exampleL3 : GoMap String String := [("z", "d")]

/-- The tokens of a string, in the words of the specification: the maximal runs of
letters, digits, `_` and `-` (the class of `variableRegex`); every other character,
`<` and `>` included, separates tokens and belongs to none. -/
def tokens (cs : List Char) : List (List Char) :=
  (cs.splitOnP (fun c => !isIdent c)).filter (fun t => !t.isEmpty)

/-- No token of `s` is a key of the namespace. -/
def NoAliasToken (aliases : GoMap String String) (cs : List Char) : Prop :=
  ∀ t ∈ tokens cs, mapGet aliases (String.mk t) = none

instance (aliases : GoMap String String) (cs : List Char) : Decidable (NoAliasToken aliases cs) :=
  inferInstanceAs (Decidable (∀ t ∈ tokens cs, _))

/-- Keys that lie on alias cycles: every key of `S` is defined in the namespace and its
value mentions, as a token, a key of `S` again. -/
def CyclicKeys (aliases : GoMap String String) (S : List String) : Prop :=
  ∀ k ∈ S, ∃ v, mapGet aliases k = some v ∧ ∃ k' ∈ S, k'.toList ∈ tokens v.toList

/-- The string mentions, as a token, one of the keys of `S`. -/
def MentionsKey (S : List String) (s : String) : Prop :=
  ∃ k ∈ S, k.toList ∈ tokens s.toList

/-- The namespace of the specification's example: `a -> "<b>"`, `b -> "<a>"`. -/
def cyclicExample : GoMap String String := [("a", "<b>"), ("b", "<a>")]

/-- A namespace on which resolving twice differs from resolving once. -/
def joinExample : GoMap String String := [("a", "b"), ("bc", "X")]

/-! ## Specification-side definitions: numbers -/

/-- The value of a decimal numeral: a non-empty string of the digits `0`..`9`, read in base
ten (leading zeros allowed); `none` for every other string. -/
def decimalValue (cs : List Char) : Option Nat :=
  if cs ≠ [] ∧ cs.all Char.isDigit = true then
    some (cs.foldl (fun n c => n * 10 + (c.toNat - '0'.toNat)) 0)
  else none

/-- The value of an optionally signed decimal numeral (`+` or `-`, then a decimal numeral). -/
def signedDecimalValue (cs : List Char) : Option Int :=
  match cs with
  | [] => none
  | c :: rest =>
    if c = '-' then (decimalValue rest).map (fun n => -(n : Int))
    else if c = '+' then (decimalValue rest).map (fun n => (n : Int))
    else (decimalValue (c :: rest)).map (fun n => (n : Int))

/-- The integer fits a Go `int` (64 bits). -/
def fitsInt (z : Int) : Bool := -9223372036854775808 ≤ z && z ≤ 9223372036854775807

/-- The string is a number in the sense of the compiler: an optionally signed decimal
integer that fits a Go `int`. -/
def isGoInt (cs : List Char) : Bool :=
  match signedDecimalValue cs with
  | some z => fitsInt z
  | none => false

/-- The string is the decimal numeral of the VLAN number `n`; the bound is that of the
16-bit field of the payload (VLAN numbers proper are below 4096). -/
def IsVlanNumeral (v : String) (n : Nat) : Prop :=
  decimalValue v.toList = some n ∧ n < 65536

/-- The VLAN number that a decimal numeral denotes (`0` when the string is none). -/
def vlanValue (v : String) : Nat := (decimalValue v.toList).getD 0

/-- A port named `ae0`. -/
def examplePort : Port := { IfName := "ae0" }

/-- The part of the string behind its first `/`. -/
def afterSlash (cs : List Char) : List Char := (cs.dropWhile (fun c => c != '/')).tail

/-- The part of the string before its first `/`. -/
def beforeSlash (cs : List Char) : List Char := cs.takeWhile (fun c => c != '/')

/-- The alias namespace that `Resolve` builds for a device profile and its region: the
global layer, the synthesized region aliases, the region layer and the device layer,
merged in this order. -/
def mergedAliases (toUpper : String → String) (gi : GlobalIntent)
    (deviceProfile : DeviceProfile) (regionData : Region) : GoMap String String :=
  mergeStringMaps
    (mergeStringMaps
      (mergeStringMaps (mergeStringMaps [] gi.NetworkIntent.GenericAlias)
        (regionAliases toUpper regionData))
      regionData.GenericAlias)
    deviceProfile.GenericAlias

/-- The resolution of every community key and value and of every VPN target ends within
the depth bound: none of them runs into an alias cycle. -/
def ResolutionEnds (toUpper : String → String) (gi : GlobalIntent)
    (deviceProfile : DeviceProfile) (regionData : Region) (depth : Nat) : Prop :=
  (resolveMap (mergedAliases toUpper gi deviceProfile regionData) depth
      gi.NetworkIntent.Communities).isSome = true ∧
    (resolveVPNs (mergedAliases toUpper gi deviceProfile regionData) depth
      gi.NetworkIntent.VPNs).isSome = true

instance (toUpper : String → String) (gi : GlobalIntent) (deviceProfile : DeviceProfile)
    (regionData : Region) (depth : Nat) :
    Decidable (ResolutionEnds toUpper gi deviceProfile regionData depth) :=
  inferInstanceAs (Decidable (_ ∧ _))

/-- A region `east` with one bridge domain `bd-1`. -/
def bridgeRegion : Region :=
  { PeAsNum := 64512, PeAsName := "east-as", GenericAlias := [], PrefixLists := [],
    Domains := [("bd-1", { BaselineVLANs := ["10", "20"], VLANs := [] })] }

/-- A device profile in region `east` that requests the given bridge domain. -/
def bridgeProfile (requested : String) : DeviceProfile :=
  { Region := "east", Site := "s1", MgmtIP := "192.0.2.1", IsRouter := false,
    IsBridge := true, IsBorderRouter := false, IsRouteReflector := false,
    VLANPortMapping := [], BridgeDomain := requested, GenericAlias := [],
    PrefixLists := [], CoreBGP := none }

/-- An intent with the region `east` (bridge domain `bd-1`), a device `sw1` that requests
the given bridge domain, and a device `sw2` whose region `west` is not in the region table. -/
def bridgeIntent (requested : String) : GlobalIntent :=
  { NetworkIntent :=
      { ReverseExclude := [], Permission := [], Services := [], PrefixServiceMapping := [],
        PrefixLists := [], PolicyRules := [],
        Regions := [("east", bridgeRegion)],
        GenericAlias := [], Communities := [], VPNs := [] },
    DeviceProfiles :=
      [("sw1", bridgeProfile requested),
       ("sw2", { Region := "west", Site := "s2", MgmtIP := "192.0.2.2", IsRouter := false,
                 IsBridge := true, IsBorderRouter := false, IsRouteReflector := false,
                 VLANPortMapping := [], BridgeDomain := "", GenericAlias := [],
                 PrefixLists := [], CoreBGP := none })] }

/-- An intent whose global aliases form the cycle `a -> "<b>"`, `b -> "<a>"`, with region
`east` (AS number 64512), a community `cust` with the template `<pe-asnum>:100` and a
community `loop` whose value mentions `a`. -/
def cyclicIntent : GlobalIntent :=
  { NetworkIntent :=
      { ReverseExclude := [], Permission := [], Services := [], PrefixServiceMapping := [],
        PrefixLists := [], PolicyRules := [],
        Regions := [("east", exampleRegion [])],
        GenericAlias := cyclicExample,
        Communities := [("cust", "<pe-asnum>:100"), ("loop", "<a>")],
        VPNs := [] },
    DeviceProfiles := [("pe1", exampleProfile [])] }

/-- An intent with region `east` (AS number 64512), the given region and device alias
layers, and one community `cust` with the template `<pe-asnum>:100`. -/
def communityIntent (L2 L3 : GoMap String String) : GlobalIntent :=
  { NetworkIntent :=
      { ReverseExclude := [], Permission := [], Services := [], PrefixServiceMapping := [],
        PrefixLists := [], PolicyRules := [],
        Regions := [("east", exampleRegion L2)],
        GenericAlias := [("site", "s1")],
        Communities := [("cust", "<pe-asnum>:100")],
        VPNs := [] },
    DeviceProfiles := [("pe1", exampleProfile L3)] }

/-- A namespace with a value that holds an alias token. -/
def templateExample : GoMap String String := [("rt", "<asn>:100"), ("asn", "64512")]

/-! ## `pkg/device/config.go`: sub-interfaces and port speed -/

/-- Go `strconv.ParseUint(s, 10, 32)`, `none` for an error: at least one decimal digit and
nothing else (no sign), and the value must be below `2^32`. -/
def strconvParseUint32 (s : List Char) : Option Nat :=
  if s = [] then none
  else
    match atoiDigits s 0 with
    | none => none
    | some n => if n < 4294967296 then some n else none

/-- The path of a sub-interface:
`fmt.Sprintf("/interfaces/interface[name=%s]/subinterfaces/subinterface[index=%d]", ...)`. -/
def subinterfacePath (port : Port) (subIfID : Int) : String :=
  "/interfaces/interface[name=" ++ port.IfName ++ "]/subinterfaces/subinterface[index="
    ++ toString subIfID ++ "]"

/-- Source: `Device.ConfigSubInterface` (config.go); the service name is not used by the
function.  The result is the returned error, if any, and the calls of `gnmiSet` made. -/
def Device.ConfigSubInterface (d : Device) (port : Port) (subIfID : Int)
    (ip _service action : String) : Except GoError Unit × List SetCall :=
  if action = "delete" then d.gnmiSet [] (subinterfacePath port subIfID) .DELETE .nil
  else
    match buildSubinterfaceIPConfig port.IfName subIfID ip with
    | .error e => (.error e, [])
    | .ok subif => d.gnmiSet [] (subinterfacePath port subIfID) .UPDATE (.subinterface subif)

/-- The path of an interface's port speed:
`fmt.Sprintf("/interfaces/interface[name=%s]/ethernet/config/port-speed", port.IfName)`. -/
def portSpeedPath (port : Port) : String :=
  "/interfaces/interface[name=" ++ port.IfName ++ "]/ethernet/config/port-speed"

/-- Source: `Device.ConfigInterfaceSpeed` (config.go).  The payload is the interface struct
with the port's name and the parsed speed as its Ethernet port speed. -/
def Device.ConfigInterfaceSpeed (d : Device) (port : Port) (speed : String) :
    Except GoError Unit × List SetCall :=
  match strconvParseUint32 speed.toList with
  | none => (.error (.error ("invalid speed value: " ++ speed)), [])
  | some speedVal =>
    d.gnmiSet [] (portSpeedPath port) .UPDATE (.interfaceSpeed port.IfName speedVal)

/-! ## `pkg/device/config.go`: the baseline configlets -/

/-- The outcome of `ioutil.ReadFile`: the file does not exist, another read error with its
message, or the content of the file. -/
inductive ReadFileResult where
  | notExist
  | failed (msg : String)
  | content (payload : String)
  deriving DecidableEq, Repr

/-- The surroundings of `applyConfiglet`: the file system, and `oc.Unmarshal` (`pkg/oc` is
not among the sources), which answers with an error message or the device struct. -/
structure ConfigletEnv where
  readFile : String → ReadFileResult
  unmarshal : String → Except String OcDevice

/-- What a run has done so far: the files handed to `ReadFile` (one per call of
`applyConfiglet`, in order) and the calls of `gnmiSet`. -/
structure Effects where
  reads : List String
  calls : List SetCall
  deriving DecidableEq, Repr

/-- The payload file of a configlet: `fmt.Sprintf("pkg/device/configlets/%s.json", name)`. -/
def configletFile (name : String) : String := "pkg/device/configlets/" ++ name ++ ".json"

/-- Source: `Device.applyConfiglet` (config_helpers.go).  The last line hands `data`, the
struct `oc.Device` itself and not a pointer to it, to `gnmiSet`. -/
def Device.applyConfiglet (env : ConfigletEnv) (d : Device) (fx : Effects) (name : String) :
    Except GoError Unit × Effects :=
  let payloadFile := configletFile name
  let fx : Effects := { reads := fx.reads ++ [payloadFile], calls := fx.calls }
  match env.readFile payloadFile with
  | .notExist => (.error (.error ("configlet file not found: " ++ payloadFile)), fx)
  | .failed msg =>
    (.error (.error ("could not read internal payload file " ++ payloadFile ++ ": " ++ msg)), fx)
  | .content payload =>
    match env.unmarshal payload with
    | .error msg =>
      (.error (.error ("failed to unmarshal configlet payload into ygot struct: " ++ msg)), fx)
    | .ok data =>
      ((d.gnmiSet fx.calls "/" .REPLACE (.device data)).1,
        { reads := fx.reads, calls := (d.gnmiSet fx.calls "/" .REPLACE (.device data)).2 })

/-- Source: `Device.ConfigBaseline` (config.go). -/
def Device.ConfigBaseline (env : ConfigletEnv) (d : Device) (fx : Effects) :
    Except GoError Unit × Effects :=
  match d.applyConfiglet env fx "system_common" with
  | (.error e, fx) => (.error (wrapError "failed to apply system_common configlet" e), fx)
  | (.ok _, fx) =>
    match d.applyConfiglet env fx "qos_common" with
    | (.error e, fx) => (.error (wrapError "failed to apply qos_common configlet" e), fx)
    | (.ok _, fx) =>
      match d.applyConfiglet env fx "routing_common" with
      | (.error e, fx) => (.error (wrapError "failed to apply routing_common configlet" e), fx)
      | (.ok _, fx) => (.ok (), fx)

/-- A file system that has every configlet, each one well formed; the payload is the file
name. -/
def allConfiglets : ConfigletEnv :=
  { readFile := fun file => .content file,
    unmarshal := fun payload => .ok { document := payload } }

/-! ## `pkg/device/utils.go`: port ranges -/

/-- Go `strconv.Itoa`: the decimal numeral, with a leading `-` for a negative number. -/
def strconvItoa (i : Int) : String := toString i

/-- The increment `i++` of a Go `int` (64 bits): it wraps around at the largest value. -/
def intSucc (i : Int) : Int :=
  if i = 9223372036854775807 then -9223372036854775808 else i + 1

/-- The loop `for i := start; i <= end; i++ { ports = append(ports, strconv.Itoa(i)) }` of
`expandPortRanges`; `rounds` bounds the number of tests of the loop condition (`none`: the
bound was exceeded). -/
def portRangeLoop (end_ : Int) : Nat → Int → List String → Option (List String)
  | 0, _, _ => none
  | rounds + 1, i, ports =>
    if i ≤ end_ then portRangeLoop end_ rounds (intSucc i) (ports ++ [strconvItoa i])
    else some ports

/-- The loop of `expandPortRanges` over the range strings; `ports` is the slice built so
far. -/
def expandPortRangesLoop (rounds : Nat) :
    List String → List String → Option (Except GoError (List String))
  | [], ports => some (.ok ports)
  | r :: rest, ports =>
    match r.toList.splitOn '-' with
    | [part] => expandPortRangesLoop rounds rest (ports ++ [String.mk part])
    | [part0, part1] =>
      match strconvAtoi part0, strconvAtoi part1 with
      | some start, some end_ =>
        if start > end_ then some (.error (.error ("invalid range: " ++ r)))
        else
          match portRangeLoop end_ rounds start ports with
          | none => none
          | some ports => expandPortRangesLoop rounds rest ports
      | _, _ => some (.error (.error ("invalid range: " ++ r)))
    | _ => some (.error (.error ("invalid range format: " ++ r)))

/-- Source: `expandPortRanges` (utils.go).  `rounds` bounds every range loop; the result is
`none` when a loop exceeds the bound. -/
def expandPortRanges (rounds : Nat) (ranges : List String) :
    Option (Except GoError (List String)) :=
  expandPortRangesLoop rounds ranges []

/-- An item of a port-range list as the specification reads it: a token, or a range `a-b`
given by its two numerals and their values. -/
inductive PortItem where
  | token (t : List Char)
  | range (a b : List Char) (m n : Nat)

/-- The text of the item. -/
def PortItem.text : PortItem → String
  | .token t => String.mk t
  | .range a b _ _ => String.mk (a ++ '-' :: b)

/-- The token has no `-`; the range has decimal numerals with values `m ≤ n`, below the
largest Go `int`. -/
def PortItem.Valid : PortItem → Prop
  | .token t => '-' ∉ t
  | .range a b m n =>
    decimalValue a = some m ∧ decimalValue b = some n ∧ m ≤ n ∧ n < 9223372036854775807

/-- The ports of the item: the token itself, or the decimal numerals of `m, m+1, ..., n`. -/
def PortItem.ports : PortItem → List String
  | .token t => [String.mk t]
  | .range _ _ m n => (List.range (n - m + 1)).map (fun j => Nat.repr (m + j))

/-- The number of ports of a range (none for a token). -/
def PortItem.size : PortItem → Nat
  | .token _ => 0
  | .range _ _ m n => n - m + 1

/-! ## Specification-side definitions: path strings -/

/-- A segment of a path string as the specification reads it: a name and, optionally, a
selector `[key=value]`. -/
structure PathSegment where
  name : List Char
  selector : Option (List Char × List Char)

/-- The text of the segment: `name` or `name[key=value]`. -/
def PathSegment.text (s : PathSegment) : List Char :=
  match s.selector with
  | none => s.name
  | some (key, value) => s.name ++ '[' :: (key ++ '=' :: (value ++ [']']))

/-- Name and key are non-empty over letters, digits, `-`, `:` and `_`; the value is
non-empty and has no `/` and no single quote. -/
def PathSegment.Valid (s : PathSegment) : Prop :=
  s.name ≠ [] ∧ (∀ c ∈ s.name, isPathChar c = true) ∧
    ∀ key value, s.selector = some (key, value) →
      key ≠ [] ∧ (∀ c ∈ key, isPathChar c = true) ∧ value ≠ [] ∧ '/' ∉ value ∧ quote ∉ value

/-- The path element that the segment denotes. -/
def PathSegment.elem (s : PathSegment) : PathElem :=
  { Name := String.mk s.name,
    Key :=
      match s.selector with
      | none => []
      | some (key, value) => [(String.mk key, String.mk value)] }

/-- The text between two slashes: empty (`none`) or a segment. -/
def segmentText : Option PathSegment → List Char
  | none => []
  | some s => s.text

/-- The path string `/s1/.../sn`. -/
def pathText (parts : List (Option PathSegment)) : String :=
  String.mk ('/' :: ['/'].intercalate (parts.map segmentText))

/-- The parts of `/interfaces/interface[name=ae0]//config`. -/
def examplePathParts : List (Option PathSegment) :=
  [some ⟨"interfaces".toList, none⟩,
   some ⟨"interface".toList, some ("name".toList, "ae0".toList)⟩,
   none,
   some ⟨"config".toList, none⟩]

/-! ## `pkg/intent/intent.go`: the layers as map objects

A Go map value is a reference to a map object, and `mergeStringMaps(dest, source)` writes
to the object that `dest` refers to.  To follow these writes the map objects are placed on a
heap and the merging step of `Resolve` is run on it. -/

/-- The heap: the objects of type `map[string]string` and those of type
`map[string][]string`, each addressed by its position. -/
structure Heap where
  stringMaps : List (GoMap String String)
  sliceMaps : List (GoMap String (List String))
  deriving DecidableEq, Repr

/-- A map value: `none` is the nil map, `some a` refers to the object at address `a`. -/
abbrev MapRef := Option Nat

/-- The entries of a `map[string]string` value; the nil map reads as empty. -/
def Heap.strings (h : Heap) : MapRef → GoMap String String
  | none => []
  | some a => h.stringMaps.getD a []

/-- The entries of a `map[string][]string` value; the nil map reads as empty. -/
def Heap.slices (h : Heap) : MapRef → GoMap String (List String)
  | none => []
  | some a => h.sliceMaps.getD a []

/-- A new `map[string]string` object with the given entries (`make` for none, a map literal
otherwise): the heap with the object, and its address. -/
def Heap.newStrings (h : Heap) (m : GoMap String String) : Heap × Nat :=
  ({ stringMaps := h.stringMaps ++ [m], sliceMaps := h.sliceMaps }, h.stringMaps.length)

/-- A new `map[string][]string` object: the heap with the object, and its address. -/
def Heap.newSlices (h : Heap) (m : GoMap String (List String)) : Heap × Nat :=
  ({ stringMaps := h.stringMaps, sliceMaps := h.sliceMaps ++ [m] }, h.sliceMaps.length)

/-- The write `m[k] = v` to the `map[string]string` object at address `a`. -/
def Heap.setString (h : Heap) (a : Nat) (k v : String) : Heap :=
  { stringMaps := h.stringMaps.set a (mapSet (h.stringMaps.getD a []) k v),
    sliceMaps := h.sliceMaps }

/-- The write `m[k] = v` to the `map[string][]string` object at address `a`. -/
def Heap.setSlice (h : Heap) (a : Nat) (k : String) (v : List String) : Heap :=
  { stringMaps := h.stringMaps,
    sliceMaps := h.sliceMaps.set a (mapSet (h.sliceMaps.getD a []) k v) }

/-- Source: `mergeStringMaps` (intent.go) on the heap: `for k, v := range source
{ dest[k] = v }` writes every entry of the source to the object at `dest`. -/
def mergeStringMapsAt (h : Heap) (dest : Nat) (source : MapRef) : Heap :=
  (h.strings source).foldl (fun h kv => h.setString dest kv.1 kv.2) h

/-- Source: `mergeStringSliceMaps` (intent.go) on the heap. -/
def mergeStringSliceMapsAt (h : Heap) (dest : Nat) (source : MapRef) : Heap :=
  (h.slices source).foldl (fun h kv => h.setSlice dest kv.1 kv.2) h

/-- The map values held by the `GenericAlias` and `PrefixLists` fields of the documents of
a `GlobalIntent`: those of the network intent, of each region (by region name) and of each
device profile (by device name). -/
structure LayerRefs where
  globalAliases : MapRef
  globalPrefixLists : MapRef
  regionAliases : String → MapRef
  regionPrefixLists : String → MapRef
  deviceAliases : String → MapRef
  devicePrefixLists : String → MapRef

/-- What step 1 of `Resolve` hands to the later steps: the profile, the region, and the
addresses of `resolvedAliases` and `resolvedPrefixLists`. -/
structure MergedLayers where
  deviceProfile : DeviceProfile
  regionData : Region
  resolvedAliases : Nat
  resolvedPrefixLists : Nat

/-- Source: `GlobalIntent.Resolve` (intent.go), up to the end of step 1 ("Hierarchically
Merge Aliases and Prefix Lists"), on the heap.  The six layer maps are read through `refs`;
the documents `gi` serve for the lookups and the scalar fields.  The result is the heap
when the step ends and the error message or the merged layers. -/
def mergeLayersOnHeap (toUpper : String → String) (h : Heap) (refs : LayerRefs)
    (gi : GlobalIntent) (deviceName : String) : Heap × Except String MergedLayers :=
  match mapGet gi.DeviceProfiles deviceName with
  | none => (h, .error ("no profile found for device: " ++ deviceName))
  | some deviceProfile =>
    let resolvedAliases := (h.newStrings []).2
    let h := (h.newStrings []).1
    let h := mergeStringMapsAt h resolvedAliases refs.globalAliases
    let resolvedPrefixLists := (h.newSlices []).2
    let h := (h.newSlices []).1
    let h := mergeStringSliceMapsAt h resolvedPrefixLists refs.globalPrefixLists
    let regionName := deviceProfile.Region
    match mapGet gi.NetworkIntent.Regions regionName with
    | none => (h, .error ("region \x27" ++ regionName ++ "\x27 not found in network intent"))
    | some regionData =>
      let regionAliasesRef := (h.newStrings (regionAliases toUpper regionData)).2
      let h := (h.newStrings (regionAliases toUpper regionData)).1
      let h := mergeStringMapsAt h resolvedAliases (some regionAliasesRef)
      let h := mergeStringMapsAt h resolvedAliases (refs.regionAliases regionName)
      let h := mergeStringSliceMapsAt h resolvedPrefixLists (refs.regionPrefixLists regionName)
      let h := mergeStringMapsAt h resolvedAliases (refs.deviceAliases deviceName)
      let h := mergeStringSliceMapsAt h resolvedPrefixLists (refs.devicePrefixLists deviceName)
      (h, .ok { deviceProfile := deviceProfile, regionData := regionData,
                resolvedAliases := resolvedAliases,
                resolvedPrefixLists := resolvedPrefixLists })

/-- The result of `Resolve` on the heap: the addresses of the merged alias map and of the
merged prefix lists, and the resolved intent with the entries of its maps. -/
structure ResolvedOnHeap where
  GenericAlias : Nat
  PrefixLists : Nat
  intent : ResolvedIntent

/-- Source: `GlobalIntent.Resolve` (intent.go) on the heap.  Steps 2 to 5 read the merged
map and create their own maps (`reverseAliases`, the resolved communities).  The result is
the heap at the end of the call, or at the point where the resolution exceeds the depth
bound, and the outcome as in `Resolve`. -/
def ResolveOnHeap (toUpper : String → String) (ord : GoMap String String → GoMap String String)
    (depth : Nat) (h : Heap) (refs : LayerRefs) (gi : GlobalIntent) (deviceName : String) :
    Heap × Option (Except String ResolvedOnHeap) :=
  match mergeLayersOnHeap toUpper h refs gi deviceName with
  | (h, .error msg) => (h, some (.error msg))
  | (h, .ok merged) =>
    let resolver :=
      newResolver ord (h.strings (some merged.resolvedAliases)) gi.NetworkIntent.ReverseExclude
    let h := (h.newStrings resolver.reverseAliases).1
    match resolveMap resolver.aliases depth gi.NetworkIntent.Communities,
        resolveVPNs resolver.aliases depth gi.NetworkIntent.VPNs with
    | some resolvedCommunities, some resolvedVPNs =>
      let h := (h.newStrings resolvedCommunities).1
      let activeBridgeDomain : Option BridgeDomain :=
        if merged.deviceProfile.BridgeDomain ≠ "" then
          mapGet merged.regionData.Domains merged.deviceProfile.BridgeDomain
        else none
      (h, some (.ok
        { GenericAlias := merged.resolvedAliases,
          PrefixLists := merged.resolvedPrefixLists,
          intent :=
            { DeviceName := deviceName,
              Region := merged.deviceProfile.Region,
              Site := merged.deviceProfile.Site,
              MgmtIP := merged.deviceProfile.MgmtIP,
              IsRouter := merged.deviceProfile.IsRouter,
              IsBridge := merged.deviceProfile.IsBridge,
              IsBorderRouter := merged.deviceProfile.IsBorderRouter,
              IsRouteReflector := merged.deviceProfile.IsRouteReflector,
              GenericAlias := h.strings (some merged.resolvedAliases),
              ReverseAlias := resolver.reverseAliases,
              PrefixLists := h.slices (some merged.resolvedPrefixLists),
              Communities := resolvedCommunities,
              Services := gi.NetworkIntent.Services,
              VPNs := resolvedVPNs,
              PrefixServiceMapping := gi.NetworkIntent.PrefixServiceMapping,
              Permission := gi.NetworkIntent.Permission,
              VLANPortMapping := merged.deviceProfile.VLANPortMapping,
              PolicyRules := gi.NetworkIntent.PolicyRules,
              ActiveBridgeDomain := activeBridgeDomain,
              CoreBGP := merged.deviceProfile.CoreBGP } }))
    | _, _ => (h, none)

/-- Every object of the first heap is an object of the second, at the same address and with
the same entries. -/
def Heap.Extends (h0 h : Heap) : Prop :=
  h0.stringMaps <+: h.stringMaps ∧ h0.sliceMaps <+: h.sliceMaps

/-- The map value is nil or refers to an object of the heap. -/
def Heap.HasStrings (h : Heap) (r : MapRef) : Prop := ∀ a, r = some a → a < h.stringMaps.length

/-- The map value is nil or refers to an object of the heap. -/
def Heap.HasSlices (h : Heap) (r : MapRef) : Prop := ∀ a, r = some a → a < h.sliceMaps.length

/-- The heap holds the layer maps of the documents: each of the map values in `refs` is nil
or refers to an object of the heap, and reads as the corresponding field of `gi`. -/
def LayerRefs.Describes (refs : LayerRefs) (h : Heap) (gi : GlobalIntent) : Prop :=
  (h.HasStrings refs.globalAliases ∧ h.strings refs.globalAliases = gi.NetworkIntent.GenericAlias) ∧
    (h.HasSlices refs.globalPrefixLists ∧
      h.slices refs.globalPrefixLists = gi.NetworkIntent.PrefixLists) ∧
    (∀ name region, mapGet gi.NetworkIntent.Regions name = some region →
      (h.HasStrings (refs.regionAliases name) ∧
        h.strings (refs.regionAliases name) = region.GenericAlias) ∧
      (h.HasSlices (refs.regionPrefixLists name) ∧
        h.slices (refs.regionPrefixLists name) = region.PrefixLists)) ∧
    (∀ name profile, mapGet gi.DeviceProfiles name = some profile →
      (h.HasStrings (refs.deviceAliases name) ∧
        h.strings (refs.deviceAliases name) = profile.GenericAlias) ∧
      (h.HasSlices (refs.devicePrefixLists name) ∧
        h.slices (refs.devicePrefixLists name) = profile.PrefixLists))

/-- A heap that holds the three example layers at the addresses 0, 1 and 2. -/
def exampleHeap : Heap := ⟨[exampleL1, exampleL2, exampleL3], []⟩

/-- The map values of the example documents: the alias layers are the objects 0, 1 and 2,
the prefix-list maps are nil. -/
def exampleRefs : LayerRefs :=
  { globalAliases := some 0, globalPrefixLists := none,
    regionAliases := fun _ => some 1, regionPrefixLists := fun _ => none,
    deviceAliases := fun _ => some 2, devicePrefixLists := fun _ => none }

/-- The parts of the switched-VLAN path string of an interface. -/
def switchedVlanParts (ifName : String) : List (Option PathSegment) :=
  [some ⟨"interfaces".toList, none⟩,
   some ⟨"interface".toList, some ("name".toList, ifName.toList)⟩,
   some ⟨"ethernet".toList, none⟩,
   some ⟨"switched-vlan".toList, none⟩]

/-- The call that replaces the switched-VLAN subtree of the interface by the trunk VLANs:
path string, operation, payload, and the path of the request, four elements of which the
second carries the key `name`. -/
def trunkReplace (ifName : String) (trunkVlans : List Nat) : SetCall :=
  { pathStr := "/interfaces/interface[name=" ++ ifName ++ "]/ethernet/switched-vlan",
    op := .REPLACE,
    payload :=
      .bridgeInterface ifName
        { InterfaceMode := .TRUNK, AccessVlan := none, TrunkVlans := trunkVlans },
    sent :=
      some { Origin := "openconfig",
             Elem := [⟨"interfaces", []⟩, ⟨"interface", [("name", ifName)]⟩, ⟨"ethernet", []⟩,
                      ⟨"switched-vlan", []⟩] } }

/-! # Theorems -/

/-! ## Go maps -/

theorem mapGet_mapSet {κ ν : Type} [DecidableEq κ] (m : GoMap κ ν) (k : κ) (v : ν) (k' : κ) :
    mapGet (mapSet m k v) k' = if k = k' then some v else mapGet m k' := by
  induction m with
  | nil => simp [mapSet, mapGet]
  | cons e m ih =>
    obtain ⟨k0, v0⟩ := e
    by_cases h0 : k0 = k
    · subst h0
      by_cases h1 : k0 = k' <;> simp [mapSet, mapGet, h1]
    · by_cases h1 : k = k'
      · subst h1
        simp [mapSet, mapGet, h0, ih]
      · simp [mapSet, mapGet, h0, h1, ih]

theorem mapKeys_mapSet {κ ν : Type} [DecidableEq κ] (m : GoMap κ ν) (k : κ) (v : ν) (k' : κ) :
    k' ∈ mapKeys (mapSet m k v) ↔ k' = k ∨ k' ∈ mapKeys m := by
  induction m with
  | nil => simp [mapSet, mapKeys]
  | cons e m ih =>
    obtain ⟨k0, v0⟩ := e
    by_cases h0 : k0 = k
    · subst h0
      simp [mapSet, mapKeys]
    · simp only [mapKeys] at ih
      simp only [mapSet, h0, if_false, mapKeys, List.map_cons, List.mem_cons, ih]
      tauto

theorem WF_mapSet {κ ν : Type} [DecidableEq κ] (m : GoMap κ ν) (k : κ) (v : ν)
    (h : GoMap.WF m) : GoMap.WF (mapSet m k v) := by
  induction m with
  | nil => simp [mapSet, GoMap.WF]
  | cons e m ih =>
    obtain ⟨k0, v0⟩ := e
    have hm : GoMap.WF m := (List.nodup_cons.mp h).2
    have hk0 : k0 ∉ mapKeys m := (List.nodup_cons.mp h).1
    by_cases h0 : k0 = k
    · subst h0
      simpa [mapSet, GoMap.WF] using h
    · have hnot : k0 ∉ mapKeys (mapSet m k v) := by
        rw [mapKeys_mapSet]
        rintro (e | e)
        · exact h0 e
        · exact hk0 e
      simp only [mapSet, h0, if_false]
      exact List.nodup_cons.mpr ⟨hnot, ih hm⟩

theorem mapKeys_mapDelete {κ ν : Type} [DecidableEq κ] (m : GoMap κ ν) (k k' : κ) :
    k' ∈ mapKeys (mapDelete m k) ↔ k' ≠ k ∧ k' ∈ mapKeys m := by
  induction m with
  | nil => simp [mapDelete, mapKeys]
  | cons e m ih =>
    obtain ⟨k0, v0⟩ := e
    simp only [mapKeys] at ih
    by_cases h0 : k0 = k
    · subst h0
      simp only [mapDelete, if_true, mapKeys, ih, List.map_cons, List.mem_cons]
      constructor
      · rintro ⟨h1, h2⟩; exact ⟨h1, Or.inr h2⟩
      · rintro ⟨h1, h2 | h2⟩
        · exact absurd h2 h1
        · exact ⟨h1, h2⟩
    · simp only [mapDelete, h0, if_false, mapKeys, List.map_cons, List.mem_cons, ih]
      constructor
      · rintro (h1 | ⟨h1, h2⟩)
        · exact ⟨by rw [h1]; exact h0, Or.inl h1⟩
        · exact ⟨h1, Or.inr h2⟩
      · rintro ⟨h1, h2 | h2⟩
        · exact Or.inl h2
        · exact Or.inr ⟨h1, h2⟩

theorem WF_mapDelete {κ ν : Type} [DecidableEq κ] (m : GoMap κ ν) (k : κ)
    (h : GoMap.WF m) : GoMap.WF (mapDelete m k) := by
  induction m with
  | nil => simp [mapDelete, GoMap.WF]
  | cons e m ih =>
    obtain ⟨k0, v0⟩ := e
    have hm : GoMap.WF m := (List.nodup_cons.mp h).2
    have hk0 : k0 ∉ mapKeys m := (List.nodup_cons.mp h).1
    by_cases h0 : k0 = k
    · simp only [mapDelete, h0, if_true]
      exact ih hm
    · have hnot : k0 ∉ mapKeys (mapDelete m k) := by
        rw [mapKeys_mapDelete]
        exact fun e => hk0 e.2
      simp only [mapDelete, h0, if_false]
      exact List.nodup_cons.mpr ⟨hnot, ih hm⟩

theorem mapGet_none_of_not_mem {κ ν : Type} [DecidableEq κ] (m : GoMap κ ν) (k : κ)
    (h : k ∉ mapKeys m) : mapGet m k = none := by
  induction m with
  | nil => rfl
  | cons e m ih =>
    obtain ⟨k0, v0⟩ := e
    simp only [mapKeys, List.map_cons, List.mem_cons, not_or] at h
    have h0 : ¬ k0 = k := fun e => h.1 e.symm
    simp only [mapGet, h0, if_false]
    exact ih h.2

/-- Overlaying a layer: a key of the layer takes the layer's value, every other key keeps
the value it had. -/
theorem mapGet_foldl_mapSet {ν : Type} (source : GoMap String ν) (hs : GoMap.WF source) :
    ∀ (dest : GoMap String ν) (k : String),
      mapGet (source.foldl (fun d kv => mapSet d kv.1 kv.2) dest) k =
        (mapGet source k).or (mapGet dest k) := by
  induction source with
  | nil => intro dest k; rfl
  | cons e source ih =>
    obtain ⟨k0, v0⟩ := e
    intro dest k
    have hm : GoMap.WF source := (List.nodup_cons.mp hs).2
    have hk0 : k0 ∉ mapKeys source := (List.nodup_cons.mp hs).1
    rw [List.foldl_cons, ih hm, mapGet_mapSet]
    by_cases h0 : k0 = k
    · subst h0
      simp [mapGet, mapGet_none_of_not_mem source k0 hk0]
    · simp only [mapGet, h0, if_false]

theorem mapGet_mergeStringMaps (dest source : GoMap String String) (hs : GoMap.WF source)
    (k : String) :
    mapGet (mergeStringMaps dest source) k = (mapGet source k).or (mapGet dest k) :=
  mapGet_foldl_mapSet source hs dest k

/-! ## `modifyRTList` -/

theorem mapKeys_foldl_set (list : List String) :
    ∀ (init : GoMap String Bool) (k : String),
      k ∈ mapKeys (list.foldl (fun set s => mapSet set s true) init) ↔
        k ∈ list ∨ k ∈ mapKeys init := by
  induction list with
  | nil => intro init k; simp
  | cons a list ih =>
    intro init k
    rw [List.foldl_cons, ih, mapKeys_mapSet, List.mem_cons]
    tauto

theorem WF_foldl_set (list : List String) :
    ∀ (init : GoMap String Bool), GoMap.WF init →
      GoMap.WF (list.foldl (fun set s => mapSet set s true) init) := by
  induction list with
  | nil => intro init h; exact h
  | cons a list ih =>
    intro init h
    rw [List.foldl_cons]
    exact ih _ (WF_mapSet init a true h)

theorem foldl_append_keys (m : GoMap String Bool) :
    ∀ (acc : List String),
      m.foldl (fun newList kv => newList ++ [kv.1]) acc = acc ++ mapKeys m := by
  induction m with
  | nil => intro acc; simp [mapKeys]
  | cons e m ih =>
    intro acc
    rw [List.foldl_cons, ih]
    simp [mapKeys]

/-- The result of `modifyRTList` lists the keys of the set, in the iteration order. -/
theorem modifyRTList_eq (ord : GoMap String Bool → GoMap String Bool) (list : List String)
    (item action : String) :
    modifyRTList ord list item action =
      mapKeys (ord (if action = "add"
        then mapSet (list.foldl (fun set s => mapSet set s true) []) item true
        else mapDelete (list.foldl (fun set s => mapSet set s true) []) item)) := by
  unfold modifyRTList
  simp only [foldl_append_keys, List.nil_append]

theorem modifyRTList_nodup (ord : GoMap String Bool → GoMap String Bool) (hord : IsOrder ord)
    (list : List String) (item action : String) :
    (modifyRTList ord list item action).Nodup := by
  rw [modifyRTList_eq]
  have hset : GoMap.WF (list.foldl (fun set s => mapSet set s true) ([] : GoMap String Bool)) :=
    WF_foldl_set list [] List.nodup_nil
  refine ((hord _).map Prod.fst).nodup_iff.mpr ?_
  by_cases ha : action = "add"
  · simp only [ha, if_true]
    exact WF_mapSet _ _ _ hset
  · simp only [ha, if_false]
    exact WF_mapDelete _ _ hset

theorem modifyRTList_mem (ord : GoMap String Bool → GoMap String Bool) (hord : IsOrder ord)
    (list : List String) (item action y : String) :
    y ∈ modifyRTList ord list item action ↔
      if action = "add" then y ∈ list ∨ y = item else y ∈ list ∧ y ≠ item := by
  rw [modifyRTList_eq]
  have hm : ∀ l, y ∈ mapKeys (ord l) ↔ y ∈ mapKeys l := fun l => ((hord l).map Prod.fst).mem_iff
  rw [hm]
  by_cases ha : action = "add"
  · simp only [ha, if_true]
    rw [mapKeys_mapSet, mapKeys_foldl_set]
    simp [mapKeys]
    tauto
  · simp only [ha, if_false]
    rw [mapKeys_mapDelete, mapKeys_foldl_set]
    simp [mapKeys]
    tauto

/-- C2.  For every list `L` and item `x`, whatever the iteration order of the set,
`modifyRTList(L, x, "add")` is a duplicate-free list with the elements of `set(L) ∪ {x}` and
`modifyRTList(L, x, "delete")` is a duplicate-free list with the elements of `set(L) \ {x}`,
also when `L` holds duplicates. -/
theorem modifyRTList_add_delete (ord : GoMap String Bool → GoMap String Bool)
    (hord : IsOrder ord) (L : List String) (x : String) :
    ((modifyRTList ord L x "add").Nodup ∧
        ∀ y, y ∈ modifyRTList ord L x "add" ↔ y ∈ L ∨ y = x) ∧
      ((modifyRTList ord L x "delete").Nodup ∧
        ∀ y, y ∈ modifyRTList ord L x "delete" ↔ y ∈ L ∧ y ≠ x) := by
  refine ⟨⟨modifyRTList_nodup ord hord L x "add", fun y => ?_⟩,
    ⟨modifyRTList_nodup ord hord L x "delete", fun y => ?_⟩⟩
  · have := modifyRTList_mem ord hord L x "add" y
    simpa using this
  · have := modifyRTList_mem ord hord L x "delete" y
    have hne : ¬ ("delete" = "add") := by decide
    simpa [hne] using this

theorem modifyRTList_add_delete_witness :
    IsOrder (List.reverse : GoMap String Bool → GoMap String Bool) ∧
      modifyRTList List.reverse ["65000:1", "65000:2", "65000:1"] "65000:3" "add"
        = ["65000:3", "65000:2", "65000:1"] ∧
      modifyRTList List.reverse ["65000:1", "65000:2", "65000:1"] "65000:1" "delete"
        = ["65000:2"] ∧
      (modifyRTList List.reverse ["65000:1", "65000:2", "65000:1"] "65000:3" "add").Nodup :=
  ⟨fun m => List.reverse_perm m, by decide, by decide,
    (modifyRTList_add_delete List.reverse (fun m => List.reverse_perm m)
      ["65000:1", "65000:2", "65000:1"] "65000:3").1.1⟩

/-! ## `Resolve`: the merged alias namespace -/

theorem regionAliases_WF (toUpper : String → String) (regionData : Region) :
    GoMap.WF (regionAliases toUpper regionData) := by
  simp only [regionAliases, GoMap.WF, List.map_cons, List.map_nil]
  decide

theorem mapGet_regionAliases_none (toUpper : String → String) (regionData : Region)
    (k : String) (hk : k ∉ synthesizedKeys) :
    mapGet (regionAliases toUpper regionData) k = none := by
  apply mapGet_none_of_not_mem
  simpa [regionAliases, mapKeys, synthesizedKeys] using hk

/-- The alias namespace of a successful `Resolve` is the result of the four merges. -/
theorem Resolve_GenericAlias_eq (toUpper : String → String)
    (ord : GoMap String String → GoMap String String) (depth : Nat) (gi : GlobalIntent)
    (deviceName : String) (deviceProfile : DeviceProfile) (regionData : Region)
    (ri : ResolvedIntent)
    (hprofile : mapGet gi.DeviceProfiles deviceName = some deviceProfile)
    (hregion : mapGet gi.NetworkIntent.Regions deviceProfile.Region = some regionData)
    (h : Resolve toUpper ord depth gi deviceName = some (.ok ri)) :
    ri.GenericAlias =
      mergeStringMaps
        (mergeStringMaps
          (mergeStringMaps (mergeStringMaps [] gi.NetworkIntent.GenericAlias)
            (regionAliases toUpper regionData))
          regionData.GenericAlias)
        deviceProfile.GenericAlias := by
  unfold Resolve at h
  simp only [hprofile, hregion] at h
  split at h
  · simp only [Option.some.injEq, Except.ok.injEq] at h
    rw [← h]
  · exact absurd h (by simp)

/-- The value of a key in the merged alias namespace, layer by layer. -/
theorem Resolve_GenericAlias_get (toUpper : String → String)
    (ord : GoMap String String → GoMap String String) (depth : Nat) (gi : GlobalIntent)
    (deviceName : String) (deviceProfile : DeviceProfile) (regionData : Region)
    (ri : ResolvedIntent)
    (hprofile : mapGet gi.DeviceProfiles deviceName = some deviceProfile)
    (hregion : mapGet gi.NetworkIntent.Regions deviceProfile.Region = some regionData)
    (h1 : GoMap.WF gi.NetworkIntent.GenericAlias) (h2 : GoMap.WF regionData.GenericAlias)
    (h3 : GoMap.WF deviceProfile.GenericAlias)
    (h : Resolve toUpper ord depth gi deviceName = some (.ok ri)) (k : String) :
    mapGet ri.GenericAlias k =
      (mapGet deviceProfile.GenericAlias k).or
        ((mapGet regionData.GenericAlias k).or
          ((mapGet (regionAliases toUpper regionData) k).or
            (mapGet gi.NetworkIntent.GenericAlias k))) := by
  rw [Resolve_GenericAlias_eq toUpper ord depth gi deviceName deviceProfile regionData ri
    hprofile hregion h]
  rw [mapGet_mergeStringMaps _ _ h3, mapGet_mergeStringMaps _ _ h2,
    mapGet_mergeStringMaps _ _ (regionAliases_WF toUpper regionData),
    mapGet_mergeStringMaps _ _ h1]
  simp [mapGet]

/-- C1 (counterexample).  With three empty layers the key `pe-asnum` is in none of them, and
yet the alias namespace that `Resolve` builds maps it to `"64512"`; with
`pe-asnum -> "1"` in the global layer only, the namespace still maps it to `"64512"`. -/
theorem Resolve_GenericAlias_not_layered :
    (∃ ri, Resolve asciiUpper id 2 (exampleIntent [] [] []) "pe1" = some (.ok ri) ∧
        mapGet ri.GenericAlias "pe-asnum" = some "64512" ∧
        layeredSpec [] [] [] "pe-asnum" = none) ∧
      (∃ ri, Resolve asciiUpper id 2 (exampleIntent [("pe-asnum", "1")] [] []) "pe1"
          = some (.ok ri) ∧
        mapGet ri.GenericAlias "pe-asnum" = some "64512" ∧
        layeredSpec [("pe-asnum", "1")] [] [] "pe-asnum" = some "1") :=
  ⟨⟨_, rfl, by decide, by decide⟩, ⟨_, rfl, by decide, by decide⟩⟩

/-- C1 (amended).  For the global layer `L1`, the region layer `L2` and the device layer
`L3` of a successful `Resolve`: every key other than the three region-synthesized keys
`pe-asnum`, `pe-asname`, `PE-ASNAME` is mapped to `L3[k]` if `k` is in `L3`, else to `L2[k]`
if `k` is in `L2`, else to `L1[k]`, and is absent when it is in none of the layers; a
synthesized key is mapped to `L3[k]`, else `L2[k]`, else the value synthesized from the
region (the global layer does not count for it). -/
theorem Resolve_GenericAlias_layered (toUpper : String → String)
    (ord : GoMap String String → GoMap String String) (depth : Nat) (gi : GlobalIntent)
    (deviceName : String) (deviceProfile : DeviceProfile) (regionData : Region)
    (ri : ResolvedIntent)
    (hprofile : mapGet gi.DeviceProfiles deviceName = some deviceProfile)
    (hregion : mapGet gi.NetworkIntent.Regions deviceProfile.Region = some regionData)
    (h1 : GoMap.WF gi.NetworkIntent.GenericAlias) (h2 : GoMap.WF regionData.GenericAlias)
    (h3 : GoMap.WF deviceProfile.GenericAlias)
    (h : Resolve toUpper ord depth gi deviceName = some (.ok ri)) (k : String) :
    (k ∉ synthesizedKeys →
        mapGet ri.GenericAlias k =
          layeredSpec gi.NetworkIntent.GenericAlias regionData.GenericAlias
            deviceProfile.GenericAlias k) ∧
      (k ∈ synthesizedKeys →
        mapGet ri.GenericAlias k =
          layeredSpec (regionAliases toUpper regionData) regionData.GenericAlias
            deviceProfile.GenericAlias k) := by
  have hget := Resolve_GenericAlias_get toUpper ord depth gi deviceName deviceProfile
    regionData ri hprofile hregion h1 h2 h3 h k
  constructor
  · intro hk
    rw [hget, mapGet_regionAliases_none toUpper regionData k hk]
    rfl
  · intro hk
    rw [hget]
    have hsome : ∃ v, mapGet (regionAliases toUpper regionData) k = some v := by
      simp only [synthesizedKeys, List.mem_cons, List.mem_singleton, List.not_mem_nil,
        or_false] at hk
      rcases hk with rfl | rfl | rfl
      · exact ⟨_, rfl⟩
      · exact ⟨_, rfl⟩
      · exact ⟨_, rfl⟩
    obtain ⟨v, hv⟩ := hsome
    simp [layeredSpec, hv]

theorem Resolve_GenericAlias_layered_witness :
    ∃ ri, Resolve asciiUpper id 2 (exampleIntent exampleL1 exampleL2 exampleL3) "pe1"
        = some (.ok ri) ∧
      (mapGet ri.GenericAlias "x" = some "g" ∧ mapGet ri.GenericAlias "y" = some "r" ∧
        mapGet ri.GenericAlias "z" = some "d" ∧ mapGet ri.GenericAlias "w" = none ∧
        mapGet ri.GenericAlias "pe-asname" = some "east-as") ∧
      ((¬ "z" ∈ synthesizedKeys →
          mapGet ri.GenericAlias "z" = layeredSpec exampleL1 exampleL2 exampleL3 "z") ∧
        ("z" ∈ synthesizedKeys →
          mapGet ri.GenericAlias "z" =
            layeredSpec (regionAliases asciiUpper (exampleRegion exampleL2))
              exampleL2 exampleL3 "z")) :=
  ⟨_, rfl, ⟨by decide, by decide, by decide, by decide, by decide⟩,
    Resolve_GenericAlias_layered asciiUpper id 2 (exampleIntent exampleL1 exampleL2 exampleL3)
      "pe1" (exampleProfile exampleL3) (exampleRegion exampleL2) _ rfl rfl
      (by decide) (by decide) (by decide) rfl "z"⟩

/-! ## `StringToPath` -/

/-- C6 (the code at the failing input).  For the interface name `et-0/0/0` the path string
`/interfaces/interface[name=et-0/0/0]` is split at every slash, those of the name included:
`StringToPath` returns four elements `interfaces`, `interface`, `0`, `0`, none with a key,
instead of `interfaces` and `interface` with the key `name = et-0/0/0`. -/
theorem StringToPath_slash_in_name :
    StringToPath (interfacePath "et-0/0/0") =
      .ok { Origin := "openconfig",
            Elem := [⟨"interfaces", []⟩, ⟨"interface", []⟩, ⟨"0", []⟩, ⟨"0", []⟩] } := by
  decide

/-! ## `buildAclSet` -/

theorem length_mapSet_le {κ ν : Type} [DecidableEq κ] (m : GoMap κ ν) (k : κ) (v : ν) :
    (mapSet m k v).length ≤ m.length + 1 := by
  induction m with
  | nil => simp [mapSet]
  | cons e m ih =>
    obtain ⟨k0, v0⟩ := e
    by_cases h0 : k0 = k
    · simp [mapSet, h0]
    · simp only [mapSet, h0, if_false, List.length_cons]
      omega

/-- A rule with a well-typed `source_list` is translated into an entry that carries the
rule's sequence number and the action of the rule. -/
theorem buildAclEntry_ok (toUpper : String → String) (rule : PolicyRule)
    (intent : ResolvedIntent) (h : sourceListOk rule = true) :
    ∃ e, buildAclEntry toUpper rule intent = .ok e ∧ e.SequenceId = uint32 rule.Sequence ∧
      e.ForwardingAction = (if rule.Action = "discard" then .DROP else .ACCEPT) := by
  unfold sourceListOk at h
  unfold buildAclEntry
  cases hl : asList (mapGet rule.Match "source_list") with
  | none => exact ⟨_, rfl, rfl, rfl⟩
  | some l =>
    cases l with
    | nil => exact ⟨_, rfl, rfl, rfl⟩
    | cons first rest =>
      rw [hl] at h
      cases first with
      | str src => exact ⟨_, rfl, rfl, rfl⟩
      | null => simp [asString] at h
      | bool b => simp [asString] at h
      | int i => simp [asString] at h
      | list xs => simp [asString] at h
      | map entries => simp [asString] at h

/-- One round of the loop of `buildAclSet`, read backwards from a successful result. -/
theorem buildAclEntries_cons_ok (toUpper : String → String) (intent : ResolvedIntent)
    (v : Value) (rest : List Value) (entries out : GoMap Nat AclEntry)
    (h : buildAclEntries toUpper intent (v :: rest) entries = .ok out) :
    ∃ rule e, lookupRule intent v = some rule ∧ buildAclEntry toUpper rule intent = .ok e ∧
      buildAclEntries toUpper intent rest (mapSet entries (uint32 rule.Sequence) e) = .ok out := by
  cases v with
  | str ruleName =>
    simp only [buildAclEntries] at h
    cases hr : mapGet intent.PolicyRules ruleName with
    | none => rw [hr] at h; exact absurd h (by simp)
    | some rule =>
      rw [hr] at h
      simp only at h
      cases he : buildAclEntry toUpper rule intent with
      | error err => rw [he] at h; exact absurd h (by simp)
      | ok e =>
        rw [he] at h
        exact ⟨rule, e, hr, he, h⟩
  | null => simp [buildAclEntries] at h
  | bool b => simp [buildAclEntries] at h
  | int i => simp [buildAclEntries] at h
  | list xs => simp [buildAclEntries] at h
  | map m => simp [buildAclEntries] at h

/-- One round of the loop of `buildAclSet` on a rule that is found and well typed. -/
theorem buildAclEntries_cons_of_ok (toUpper : String → String) (intent : ResolvedIntent)
    (v : Value) (rest : List Value) (entries : GoMap Nat AclEntry)
    (h : ruleOk intent v = true) :
    ∃ rule e, lookupRule intent v = some rule ∧ buildAclEntry toUpper rule intent = .ok e ∧
      e.SequenceId = uint32 rule.Sequence ∧
      buildAclEntries toUpper intent (v :: rest) entries =
        buildAclEntries toUpper intent rest (mapSet entries (uint32 rule.Sequence) e) := by
  unfold ruleOk at h
  cases hr : lookupRule intent v with
  | none => rw [hr] at h; exact absurd h (by simp)
  | some rule =>
    rw [hr] at h
    obtain ⟨e, he, hseq, _⟩ := buildAclEntry_ok toUpper rule intent h
    refine ⟨rule, e, rfl, he, hseq, ?_⟩
    cases v with
    | str ruleName =>
      simp only [lookupRule] at hr
      simp only [buildAclEntries, hr, he]
    | null => simp [lookupRule] at hr
    | bool b => simp [lookupRule] at hr
    | int i => simp [lookupRule] at hr
    | list xs => simp [lookupRule] at hr
    | map m => simp [lookupRule] at hr

/-- On a list of found, well-typed rules the loop succeeds; the keys of the result are the
keys it started with and the sequence numbers of the listed rules. -/
theorem buildAclEntries_ok (toUpper : String → String) (intent : ResolvedIntent) :
    ∀ (ruleList : List Value) (entries : GoMap Nat AclEntry), RuleListOk intent ruleList →
      ∃ out, buildAclEntries toUpper intent ruleList entries = .ok out ∧
        (GoMap.WF entries → GoMap.WF out) ∧
        (∀ n, n ∈ mapKeys out ↔ n ∈ mapKeys entries ∨ ∃ v ∈ ruleList, namesSequence intent n v) ∧
        ((∀ n e, mapGet entries n = some e → e.SequenceId = n) →
          ∀ n e, mapGet out n = some e → e.SequenceId = n) ∧
        out.length ≤ entries.length + ruleList.length := by
  intro ruleList
  induction ruleList with
  | nil =>
    intro entries _
    exact ⟨entries, rfl, id, by simp, id, by simp⟩
  | cons v rest ih =>
    intro entries hok
    have hv : ruleOk intent v = true := hok v (List.mem_cons_self _ _)
    have hrest : RuleListOk intent rest := fun w hw => hok w (List.mem_cons_of_mem _ hw)
    obtain ⟨rule, e, hr, _, hseq, heq⟩ := buildAclEntries_cons_of_ok toUpper intent v rest entries hv
    obtain ⟨out, hout, hwf, hkeys, hid, hlen⟩ := ih (mapSet entries (uint32 rule.Sequence) e) hrest
    refine ⟨out, by rw [heq]; exact hout, fun h => hwf (WF_mapSet _ _ _ h), ?_, ?_, ?_⟩
    · intro n
      rw [hkeys, mapKeys_mapSet]
      constructor
      · rintro ((h | h) | ⟨w, hw, hn⟩)
        · exact Or.inr ⟨v, List.mem_cons_self _ _, rule, hr, h.symm⟩
        · exact Or.inl h
        · exact Or.inr ⟨w, List.mem_cons_of_mem _ hw, hn⟩
      · rintro (h | ⟨w, hw, hn⟩)
        · exact Or.inl (Or.inr h)
        · rcases List.mem_cons.mp hw with rfl | hw'
          · obtain ⟨rule', hr', hn'⟩ := hn
            rw [hr] at hr'
            simp only [Option.some.injEq] at hr'
            subst hr'
            exact Or.inl (Or.inl hn'.symm)
          · exact Or.inr ⟨w, hw', hn⟩
    · intro hent
      apply hid
      intro n e' hget
      rw [mapGet_mapSet] at hget
      by_cases hn : uint32 rule.Sequence = n
      · simp only [hn, if_true, Option.some.injEq] at hget
        rw [← hget, hseq, hn]
      · simp only [hn, if_false] at hget
        exact hent n e' hget
    · have := length_mapSet_le entries (uint32 rule.Sequence) e
      simp only [List.length_cons]
      omega

/-- A sequence number that no listed rule has keeps its entry. -/
theorem buildAclEntries_get_other (toUpper : String → String) (intent : ResolvedIntent)
    (n : Nat) :
    ∀ (ruleList : List Value) (entries out : GoMap Nat AclEntry),
      buildAclEntries toUpper intent ruleList entries = .ok out →
      (∀ w ∈ ruleList, ¬ namesSequence intent n w) → mapGet out n = mapGet entries n := by
  intro ruleList
  induction ruleList with
  | nil =>
    intro entries out h _
    simp only [buildAclEntries, Except.ok.injEq] at h
    rw [h]
  | cons v rest ih =>
    intro entries out h hno
    obtain ⟨rule, e, hr, _, hrest⟩ := buildAclEntries_cons_ok toUpper intent v rest entries out h
    rw [ih _ out hrest (fun w hw => hno w (List.mem_cons_of_mem _ hw)), mapGet_mapSet]
    have hne : ¬ uint32 rule.Sequence = n := fun hn =>
      hno v (List.mem_cons_self _ _) ⟨rule, hr, hn⟩
    simp only [hne, if_false]

/-- The entry of a sequence number is the one built from the last listed rule with that
number. -/
theorem buildAclEntries_last_wins (toUpper : String → String) (intent : ResolvedIntent)
    (v : Value) (post : List Value) (rule : PolicyRule) (hr : lookupRule intent v = some rule)
    (hpost : ∀ w ∈ post, ¬ namesSequence intent (uint32 rule.Sequence) w) :
    ∀ (pre : List Value) (entries out : GoMap Nat AclEntry),
      buildAclEntries toUpper intent (pre ++ v :: post) entries = .ok out →
      ∃ e, buildAclEntry toUpper rule intent = .ok e ∧
        mapGet out (uint32 rule.Sequence) = some e := by
  intro pre
  induction pre with
  | nil =>
    intro entries out h
    rw [List.nil_append] at h
    obtain ⟨rule', e, hr', he, hrest⟩ := buildAclEntries_cons_ok toUpper intent v post entries out h
    rw [hr] at hr'
    simp only [Option.some.injEq] at hr'
    subst hr'
    refine ⟨e, he, ?_⟩
    rw [buildAclEntries_get_other toUpper intent _ post _ out hrest hpost, mapGet_mapSet]
    simp
  | cons w pre ih =>
    intro entries out h
    rw [List.cons_append] at h
    obtain ⟨_, _, _, _, hrest⟩ := buildAclEntries_cons_ok toUpper intent w _ entries out h
    exact ih _ out hrest

/-- C7 (counterexample).  The rules `permit-web` and `deny-all` of the catalog both have
sequence number 10; `buildAclSet` does not fail on the list of the two, it returns an ACL
set with the single entry built from `deny-all`. -/
theorem buildAclSet_same_sequence_succeeds :
    buildAclSet asciiUpper "FILTER-IN" [.str "permit-web", .str "deny-all"]
        (intentWith [] exampleRules) =
      .ok { Name := "FILTER-IN", ConfigName := "FILTER-IN",
            AclEntry := [(10, ⟨10, .UNSET, none, .DROP⟩)] } := by
  decide

/-- C7 (amended).  `buildAclSet` makes no check for equal sequence numbers.  On every rule
list whose elements are strings naming catalog rules (with well-typed `source_list`) it
succeeds, also when two listed rules share a sequence number.  The ACL set it returns is
keyed by sequence number with pairwise distinct keys: it has an entry exactly for the
sequence numbers of the listed rules, each entry carries its key as sequence id and is
the one built from the last listed rule with that number; so the set has at most, and
possibly fewer than, one entry per listed rule. -/
theorem buildAclSet_keyed_by_sequence (toUpper : String → String) (name : String)
    (ruleList : List Value) (intent : ResolvedIntent) (h : RuleListOk intent ruleList) :
    ∃ acl, buildAclSet toUpper name ruleList intent = .ok acl ∧ acl.Name = name ∧
      GoMap.WF acl.AclEntry ∧
      (∀ n, n ∈ mapKeys acl.AclEntry ↔ ∃ v ∈ ruleList, namesSequence intent n v) ∧
      (∀ n e, mapGet acl.AclEntry n = some e → e.SequenceId = n) ∧
      acl.AclEntry.length ≤ ruleList.length ∧
      (∀ pre v post rule, ruleList = pre ++ v :: post → lookupRule intent v = some rule →
        (∀ w ∈ post, ¬ namesSequence intent (uint32 rule.Sequence) w) →
        ∃ e, buildAclEntry toUpper rule intent = .ok e ∧
          mapGet acl.AclEntry (uint32 rule.Sequence) = some e) := by
  obtain ⟨out, hout, hwf, hkeys, hid, hlen⟩ := buildAclEntries_ok toUpper intent ruleList [] h
  refine ⟨{ Name := name, ConfigName := name, AclEntry := out }, ?_, rfl, ?_, ?_, ?_, ?_, ?_⟩
  · unfold buildAclSet
    rw [hout]
  · exact hwf List.nodup_nil
  · intro n
    rw [hkeys]
    simp [mapKeys]
  · exact hid (fun n e hget => by simp [mapGet] at hget)
  · simpa using hlen
  · intro pre v post rule hlist hr hpost
    rw [hlist] at hout
    exact buildAclEntries_last_wins toUpper intent v post rule hr hpost pre [] out hout

theorem buildAclSet_keyed_by_sequence_witness :
    RuleListOk (intentWith [] exampleRules)
        [.str "permit-web", .str "permit-dns", .str "deny-all"] ∧
      ∃ acl, buildAclSet asciiUpper "FILTER-IN"
          [.str "permit-web", .str "permit-dns", .str "deny-all"] (intentWith [] exampleRules)
          = .ok acl ∧
        acl.Name = "FILTER-IN" ∧ GoMap.WF acl.AclEntry ∧ acl.AclEntry.length ≤ 3 :=
  ⟨by decide,
    (buildAclSet_keyed_by_sequence asciiUpper "FILTER-IN"
      [.str "permit-web", .str "permit-dns", .str "deny-all"] (intentWith [] exampleRules)
      (by decide)).imp
      (fun _ hacl => ⟨hacl.1, hacl.2.1, hacl.2.2.1, hacl.2.2.2.2.2.1⟩)⟩

/-- C10 (the code at the failing input).  The list names `bad-source`, a catalog rule whose
`source_list` starts with a number, and then `unknown`, which the catalog does not have:
`buildAclSet` panics in `buildAclEntry` and never returns the not-found error. -/
theorem buildAclSet_panics_before_unknown_rule :
    buildAclSet asciiUpper "FILTER-IN" [.str "bad-source", .str "unknown"]
        (intentWith [] exampleRules) =
      .error (.panic "interface conversion: interface is not string") ∧
    lookupRule (intentWith [] exampleRules) (.str "unknown") = none :=
  ⟨by decide, rfl⟩

/-- For rule-name strings and a catalog whose listed rules have a well-typed `source_list`,
`buildAclSet` returns an error exactly when some listed name is not in the catalog, and an
ACL set otherwise. -/
theorem buildAclEntries_error_iff (toUpper : String → String) (intent : ResolvedIntent) :
    ∀ (ruleList : List Value) (entries : GoMap Nat AclEntry),
      (∀ v ∈ ruleList, ∃ ruleName, v = .str ruleName) →
      (∀ v ∈ ruleList, ∀ rule, lookupRule intent v = some rule → sourceListOk rule = true) →
      ((∃ msg, buildAclEntries toUpper intent ruleList entries = .error (.error msg)) ↔
          ∃ v ∈ ruleList, lookupRule intent v = none) ∧
        ((∃ out, buildAclEntries toUpper intent ruleList entries = .ok out) ↔
          ∀ v ∈ ruleList, lookupRule intent v ≠ none) := by
  intro ruleList
  induction ruleList with
  | nil =>
    intro entries _ _
    simp [buildAclEntries]
  | cons v rest ih =>
    intro entries hstr hty
    obtain ⟨ruleName, rfl⟩ := hstr _ (List.mem_cons_self _ _)
    have hstr' : ∀ w ∈ rest, ∃ ruleName, w = .str ruleName :=
      fun w hw => hstr w (List.mem_cons_of_mem _ hw)
    have hty' : ∀ w ∈ rest, ∀ rule, lookupRule intent w = some rule → sourceListOk rule = true :=
      fun w hw => hty w (List.mem_cons_of_mem _ hw)
    cases hr : lookupRule intent (.str ruleName) with
    | none =>
      have hr' : mapGet intent.PolicyRules ruleName = none := hr
      constructor
      · constructor
        · intro _
          exact ⟨_, List.mem_cons_self _ _, hr⟩
        · intro _
          exact ⟨"policy rule definition \x27" ++ ruleName ++ "\x27 not found in intent",
            by simp only [buildAclEntries, hr']⟩
      · constructor
        · rintro ⟨out, hout⟩
          simp [buildAclEntries, hr'] at hout
        · intro hall
          exact absurd hr (hall _ (List.mem_cons_self _ _))
    | some rule =>
      have hok : ruleOk intent (.str ruleName) = true := by
        unfold ruleOk
        rw [hr]
        exact hty _ (List.mem_cons_self _ _) rule hr
      obtain ⟨rule', e, hr'', _, _, heq⟩ :=
        buildAclEntries_cons_of_ok toUpper intent (.str ruleName) rest entries hok
      rw [heq]
      obtain ⟨ih1, ih2⟩ := ih (mapSet entries (uint32 rule'.Sequence) e) hstr' hty'
      constructor
      · rw [ih1]
        constructor
        · rintro ⟨w, hw, hn⟩
          exact ⟨w, List.mem_cons_of_mem _ hw, hn⟩
        · rintro ⟨w, hw, hn⟩
          rcases List.mem_cons.mp hw with rfl | hw'
          · rw [hr] at hn; exact absurd hn (by simp)
          · exact ⟨w, hw', hn⟩
      · rw [ih2]
        constructor
        · intro hall w hw
          rcases List.mem_cons.mp hw with rfl | hw'
          · rw [hr]; simp
          · exact hall w hw'
        · intro hall w hw
          exact hall w (List.mem_cons_of_mem _ hw)

theorem buildAclSet_ok (toUpper : String → String) (name : String) (ruleList : List Value)
    (intent : ResolvedIntent) (h : RuleListOk intent ruleList) :
    ∃ acl, buildAclSet toUpper name ruleList intent = .ok acl := by
  obtain ⟨out, hout, _⟩ := buildAclEntries_ok toUpper intent ruleList [] h
  exact ⟨{ Name := name, ConfigName := name, AclEntry := out }, by unfold buildAclSet; rw [hout]⟩

/-! ## `ConfigFirewallPolicy`: the wire operations -/

/-- C9 (counterexample).  The policy has the ingress filter name `FILTER-IN` and an empty
ingress rule list: no ACL set is compiled or replaced, the only call is the replace of
the binding, and its payload names `FILTER-IN` as ingress ACL set. -/
theorem ConfigFirewallPolicy_binds_uncompiled_side :
    Device.ConfigFirewallPolicy asciiUpper (exampleDevice (policyWith "FILTER-IN" "" [] []))
        (subInterfaceWith "internet") =
      (.ok (),
        [{ pathStr := "/interfaces/interface[name=ae0]/subinterfaces/subinterface[index=100]/ipv4/acl",
           op := .REPLACE,
           payload := .aclBinding { IngressAclSet := some "FILTER-IN", EgressAclSet := none },
           sent := some { Origin := "openconfig",
                          Elem := [⟨"interfaces", []⟩, ⟨"interface", [("name", "ae0")]⟩,
                                   ⟨"subinterfaces", []⟩, ⟨"subinterface", [("index", "100")]⟩,
                                   ⟨"ipv4", []⟩, ⟨"acl", []⟩] } }]) := by
  decide

/-- C9 (amended).  For a well-formed policy whose rules are all in the catalog (strings,
with well-typed `source_list`), a gNMI client that accepts every write and path strings
that `StringToPath` accepts, `ConfigFirewallPolicy` succeeds with exactly this sequence of
`gnmiSet` calls, all sent: a replace of the ingress ACL set if and only if the ingress
filter name and rule list are both non-empty, then a replace of the egress ACL set if and
only if the egress filter name and rule list are both non-empty, then always one replace
of the sub-interface's ACL binding.  The binding payload names the ingress (egress) ACL set
if and only if the ingress (egress) filter name is non-empty, also when the rule list of
that side is empty and no ACL set was compiled for it. -/
theorem ConfigFirewallPolicy_wire_calls (toUpper : String → String) (d : Device)
    (subInterface : SubInterface) (serviceIntent : Service) (policyMap : List (Value × Value))
    (inFilterName outFilterName : String) (inRuleList outRuleList : List Value)
    (pIn pOut pBind : Path)
    (hservice : mapGet d.Intent.Services subInterface.Service = some serviceIntent)
    (hpolicy : asMap (mapGet serviceIntent.InterfacePolicy "all") = some policyMap)
    (hinName : asString (ifaceGet policyMap "in_name") = some inFilterName)
    (houtName : asString (ifaceGet policyMap "out_name") = some outFilterName)
    (hinRule : asList (ifaceGet policyMap "in_rule") = some inRuleList)
    (houtRule : asList (ifaceGet policyMap "out_rule") = some outRuleList)
    (hinOk : RuleListOk d.Intent inRuleList) (houtOk : RuleListOk d.Intent outRuleList)
    (haccept : ∀ log call, d.gnmiClient log call = none)
    (hpIn : StringToPath (aclSetPath inFilterName) = .ok pIn)
    (hpOut : StringToPath (aclSetPath outFilterName) = .ok pOut)
    (hpBind : StringToPath (aclBindingPath subInterface) = .ok pBind) :
    ∃ inAclSet outAclSet,
      buildAclSet toUpper inFilterName inRuleList d.Intent = .ok inAclSet ∧
      buildAclSet toUpper outFilterName outRuleList d.Intent = .ok outAclSet ∧
      d.ConfigFirewallPolicy toUpper subInterface =
        (.ok (),
          (if inFilterName ≠ "" ∧ inRuleList.length > 0 then
              [⟨aclSetPath inFilterName, .REPLACE, .aclSet inAclSet, some pIn⟩]
            else []) ++
          (if outFilterName ≠ "" ∧ outRuleList.length > 0 then
              [⟨aclSetPath outFilterName, .REPLACE, .aclSet outAclSet, some pOut⟩]
            else []) ++
          [⟨aclBindingPath subInterface, .REPLACE,
            .aclBinding
              ⟨if inFilterName ≠ "" then some inFilterName else none,
               if outFilterName ≠ "" then some outFilterName else none⟩,
            some pBind⟩]) := by
  obtain ⟨inAclSet, hin⟩ := buildAclSet_ok toUpper inFilterName inRuleList d.Intent hinOk
  obtain ⟨outAclSet, hout⟩ := buildAclSet_ok toUpper outFilterName outRuleList d.Intent houtOk
  refine ⟨inAclSet, outAclSet, hin, hout, ?_⟩
  unfold Device.ConfigFirewallPolicy
  simp only [hservice, hpolicy, hinName, houtName, hinRule, houtRule]
  unfold Device.applyFirewallPolicy
  by_cases c1 : inFilterName ≠ "" ∧ inRuleList.length > 0 <;>
    by_cases c2 : outFilterName ≠ "" ∧ outRuleList.length > 0 <;>
    simp [c1, c2, hin, hout, Device.gnmiSet, emitJSON, hpIn, hpOut, hpBind, haccept,
      buildFirewallAclBinding]

theorem ConfigFirewallPolicy_wire_calls_witness :
    ∃ pIn pBind inAclSet,
      Device.ConfigFirewallPolicy asciiUpper
          (exampleDevice
            (policyWith "FILTER-IN" "FILTER-OUT" [.str "permit-web", .str "permit-dns"] []))
          (subInterfaceWith "internet") =
        (.ok (),
          [⟨aclSetPath "FILTER-IN", .REPLACE, .aclSet inAclSet, some pIn⟩,
           ⟨aclBindingPath (subInterfaceWith "internet"), .REPLACE,
            .aclBinding ⟨some "FILTER-IN", some "FILTER-OUT"⟩, some pBind⟩]) := by
  obtain ⟨inAclSet, _, _, _, h⟩ :=
    ConfigFirewallPolicy_wire_calls asciiUpper
      (exampleDevice
        (policyWith "FILTER-IN" "FILTER-OUT" [.str "permit-web", .str "permit-dns"] []))
      (subInterfaceWith "internet")
      (serviceWith (policyWith "FILTER-IN" "FILTER-OUT" [.str "permit-web", .str "permit-dns"] []))
      (policyWith "FILTER-IN" "FILTER-OUT" [.str "permit-web", .str "permit-dns"] [])
      "FILTER-IN" "FILTER-OUT" [.str "permit-web", .str "permit-dns"] []
      ⟨"openconfig", [⟨"acl", []⟩, ⟨"acl-sets", []⟩,
        ⟨"acl-set", [("name", "FILTER-IN][type=ACL_IPV4")]⟩]⟩
      ⟨"openconfig", [⟨"acl", []⟩, ⟨"acl-sets", []⟩,
        ⟨"acl-set", [("name", "FILTER-OUT][type=ACL_IPV4")]⟩]⟩
      ⟨"openconfig", [⟨"interfaces", []⟩, ⟨"interface", [("name", "ae0")]⟩,
        ⟨"subinterfaces", []⟩, ⟨"subinterface", [("index", "100")]⟩, ⟨"ipv4", []⟩, ⟨"acl", []⟩]⟩
      rfl rfl rfl rfl rfl rfl (by decide) (by decide) (fun _ _ => rfl)
      (by decide) (by decide) (by decide)
  exact ⟨_, _, inAclSet, by simpa using h⟩

/-! ## `ConfigFirewallPolicy`: malformed policies -/

/-- C8.  When the service is not in the catalog, or its interface policy has no map under
the scope `all`, or one of `in_name`, `out_name` (strings) and `in_rule`, `out_rule` (lists)
is absent or of the wrong type, `ConfigFirewallPolicy` returns an error and has made no
call of `gnmiSet`: nothing went over the wire. -/
theorem ConfigFirewallPolicy_malformed (toUpper : String → String) (d : Device)
    (subInterface : SubInterface)
    (h : policyMalformed d.Intent subInterface.Service = true) :
    ∃ msg, d.ConfigFirewallPolicy toUpper subInterface = (.error (.error msg), []) := by
  unfold policyMalformed at h
  unfold Device.ConfigFirewallPolicy
  cases hs : mapGet d.Intent.Services subInterface.Service with
  | none => exact ⟨_, rfl⟩
  | some serviceIntent =>
    rw [hs] at h
    simp only at h ⊢
    cases hm : asMap (mapGet serviceIntent.InterfacePolicy "all") with
    | none => exact ⟨_, rfl⟩
    | some policyMap =>
      rw [hm] at h
      simp only at h ⊢
      cases h1 : asString (ifaceGet policyMap "in_name") with
      | none => exact ⟨_, rfl⟩
      | some inFilterName =>
        cases h2 : asString (ifaceGet policyMap "out_name") with
        | none => exact ⟨_, rfl⟩
        | some outFilterName =>
          cases h3 : asList (ifaceGet policyMap "in_rule") with
          | none => exact ⟨_, rfl⟩
          | some inRuleList =>
            cases h4 : asList (ifaceGet policyMap "out_rule") with
            | none => exact ⟨_, rfl⟩
            | some outRuleList =>
              rw [h1, h2, h3, h4] at h
              exact absurd h (by simp)

theorem ConfigFirewallPolicy_malformed_witness :
    policyMalformed (intentWith [("internet", serviceWith policyWithoutOutName)] [])
        "internet" = true ∧
      (∃ msg,
        Device.ConfigFirewallPolicy asciiUpper
            (acceptingDevice (intentWith [("internet", serviceWith policyWithoutOutName)] []))
            (subInterfaceWith "internet")
          = (.error (.error msg), [])) ∧
      Device.ConfigFirewallPolicy asciiUpper
          (acceptingDevice (intentWith [("internet", serviceWith policyWithoutOutName)] []))
          (subInterfaceWith "internet")
        = (.error (.error
            "invalid \x27out_name\x27 in policy map for service \x27internet\x27"), []) :=
  ⟨by decide,
    ConfigFirewallPolicy_malformed asciiUpper
      (acceptingDevice (intentWith [("internet", serviceWith policyWithoutOutName)] []))
      (subInterfaceWith "internet") (by decide),
    by decide⟩

/-! ## Tokens and the matches of `variableRegex` -/

theorem tokens_nil : tokens [] = [] := by
  simp [tokens, List.splitOnP_nil]

theorem tokens_cons_sep (c : Char) (cs : List Char) (hc : isIdent c = false) :
    tokens (c :: cs) = tokens cs := by
  simp [tokens, List.splitOnP_cons, hc]

theorem splitOnP_run_append (run rest : List Char) (hrun : ∀ c ∈ run, isIdent c = true) :
    (run ++ rest).splitOnP (fun c => !isIdent c)
      = (rest.splitOnP (fun c => !isIdent c)).modifyHead (fun h => run ++ h) := by
  induction run with
  | nil =>
    rw [List.nil_append]
    generalize rest.splitOnP (fun c => !isIdent c) = l
    cases l <;> simp [List.modifyHead]
  | cons c run ih =>
    have hc : isIdent c = true := hrun c (List.mem_cons_self _ _)
    have ih2 := ih (fun d hd => hrun d (List.mem_cons_of_mem _ hd))
    rw [List.cons_append, List.splitOnP_cons, ih2]
    simp only [hc, Bool.not_true, Bool.false_eq_true, if_false]
    generalize rest.splitOnP (fun c => !isIdent c) = l
    cases l <;> simp [List.modifyHead]

/-- A non-empty run of class characters that is followed by the end of the string or by a
separator is the first token. -/
theorem tokens_run_append (run rest : List Char) (hne : run ≠ [])
    (hrun : ∀ c ∈ run, isIdent c = true)
    (hrest : ∀ c ∈ rest.head?, isIdent c = false) :
    tokens (run ++ rest) = run :: tokens rest := by
  unfold tokens
  rw [splitOnP_run_append run rest hrun]
  cases rest with
  | nil =>
    simp [List.splitOnP_nil, List.modifyHead, hne]
  | cons d rest =>
    have hd : isIdent d = false := hrest d (by simp)
    simp [List.splitOnP_cons, hd, List.modifyHead, hne]

theorem isIdent_not_bracket (c : Char) (h : isIdent c = true) :
    ['<', '>'].contains c = false := by
  cases hcb : ['<', '>'].contains c with
  | false => rfl
  | true =>
    have hc2 : c = '<' ∨ c = '>' := by simpa using hcb
    rcases hc2 with rfl | rfl
    · exact absurd h (by decide)
    · exact absurd h (by decide)

theorem dropWhile_bracket_run (run rest : List Char) (hne : run ≠ [])
    (hrun : ∀ c ∈ run, isIdent c = true) :
    (run ++ rest).dropWhile ['<', '>'].contains = run ++ rest := by
  cases run with
  | nil => exact absurd rfl hne
  | cons c run =>
    have hc := isIdent_not_bracket c (hrun c (List.mem_cons_self _ _))
    rw [List.cons_append, List.dropWhile_cons, hc]
    rfl

theorem stringsTrim_run (run : List Char) (hne : run ≠ [])
    (hrun : ∀ c ∈ run, isIdent c = true) :
    stringsTrim run ['<', '>'] = run := by
  unfold stringsTrim
  have h1 := dropWhile_bracket_run run [] hne hrun
  rw [List.append_nil] at h1
  rw [h1]
  have h2 := dropWhile_bracket_run run.reverse [] (by simpa using hne)
    (fun c hc => hrun c (List.mem_reverse.mp hc))
  rw [List.append_nil] at h2
  rw [h2, List.reverse_reverse]

theorem stringsTrim_run_gt (run : List Char) (hne : run ≠ [])
    (hrun : ∀ c ∈ run, isIdent c = true) :
    stringsTrim (run ++ ['>']) ['<', '>'] = run := by
  unfold stringsTrim
  rw [dropWhile_bracket_run run ['>'] hne hrun]
  have h2 := dropWhile_bracket_run run.reverse [] (by simpa using hne)
    (fun c hc => hrun c (List.mem_reverse.mp hc))
  rw [List.append_nil] at h2
  have h3 : (run ++ ['>']).reverse = '>' :: run.reverse := by simp
  have h4 : ['<', '>'].contains '>' = true := by decide
  rw [h3, List.dropWhile_cons, h4, if_pos rfl, h2, List.reverse_reverse]

theorem stringsTrim_lt (m : List Char) :
    stringsTrim ('<' :: m) ['<', '>'] = stringsTrim m ['<', '>'] := by
  unfold stringsTrim
  have h : ['<', '>'].contains '<' = true := by decide
  rw [List.dropWhile_cons, h, if_pos rfl]

/-- What a match of the body `([a-zA-Z0-9_-]+)[>]?` looks like: the matched text `m` is a
head of the input, trimming it leaves the run of class characters, and that run is the
first token of the input. -/
theorem variableBodyAt_spec (cs m : List Char) (h : variableBodyAt cs = some m) :
    ∃ run rest, run ≠ [] ∧ m ≠ [] ∧ cs = m ++ rest ∧ stringsTrim m ['<', '>'] = run ∧
      tokens cs = run :: tokens rest := by
  unfold variableBodyAt at h
  have hsplit : cs.takeWhile isIdent ++ cs.dropWhile isIdent = cs := List.takeWhile_append_dropWhile _ _
  have hall : ∀ c ∈ cs.takeWhile isIdent, isIdent c = true := fun c hc => List.mem_takeWhile_imp hc
  by_cases hrun : cs.takeWhile isIdent = []
  · simp [hrun] at h
  · simp only [hrun, if_false] at h
    cases hd : cs.dropWhile isIdent with
    | nil =>
      rw [hd] at h hsplit
      simp only [Option.some.injEq] at h
      subst h
      refine ⟨cs.takeWhile isIdent, [], hrun, hrun, ?_, stringsTrim_run _ hrun hall, ?_⟩
      · simpa using hsplit.symm
      · rw [List.append_nil] at hsplit
        have := tokens_run_append (cs.takeWhile isIdent) [] hrun hall (by simp)
        rw [List.append_nil, hsplit] at this
        rw [this, hsplit]
    | cons d rest =>
      rw [hd] at h hsplit
      have hdfalse : isIdent d = false := by
        have := List.dropWhile_get_zero_not isIdent cs (by rw [hd]; simp)
        simpa [hd] using this
      by_cases hgt : d = '>'
      · simp only [hgt, if_true, Option.some.injEq] at h
        subst h
        subst hgt
        refine ⟨cs.takeWhile isIdent, rest, hrun, by simp, ?_, stringsTrim_run_gt _ hrun hall, ?_⟩
        · simpa using hsplit.symm
        · have := tokens_run_append (cs.takeWhile isIdent) ('>' :: rest) hrun hall
            (by simp [hdfalse])
          rw [hsplit] at this
          rw [this, tokens_cons_sep _ _ hdfalse]
      · simp only [hgt, if_false, Option.some.injEq] at h
        subst h
        refine ⟨cs.takeWhile isIdent, d :: rest, hrun, hrun, hsplit.symm,
          stringsTrim_run _ hrun hall, ?_⟩
        have := tokens_run_append (cs.takeWhile isIdent) (d :: rest) hrun hall
          (by simp [hdfalse])
        rw [hsplit] at this
        exact this


theorem variableBodyAt_ident (c : Char) (cs : List Char) (hc : isIdent c = true) :
    variableBodyAt (c :: cs) ≠ none := by
  unfold variableBodyAt
  have h : (c :: cs).takeWhile isIdent ≠ [] := by simp [List.takeWhile_cons, hc]
  simp only [h, if_false]
  split
  · simp
  · split <;> simp

/-- What a match of `variableRegex` looks like: the matched text `m` is a non-empty head
of the input, the key `strings.Trim(m, "<>")` is the first token of the input, and the
tokens of the input behind the match are the remaining tokens. -/
theorem variableMatchAt_spec (cs m : List Char) (h : variableMatchAt cs = some m) :
    ∃ run rest, run ≠ [] ∧ m ≠ [] ∧ cs = m ++ rest ∧ stringsTrim m ['<', '>'] = run ∧
      tokens cs = run :: tokens rest := by
  unfold variableMatchAt at h
  cases cs with
  | nil => simp at h
  | cons c cs =>
    simp only at h
    by_cases hc : c = '<'
    · simp only [hc, if_true] at h
      cases hb : variableBodyAt cs with
      | some m' =>
        rw [hb] at h
        simp only [Option.some.injEq] at h
        subst h
        obtain ⟨run, rest, hne, _, hcs, htrim, htok⟩ := variableBodyAt_spec cs m' hb
        refine ⟨run, rest, hne, by simp, ?_, ?_, ?_⟩
        · rw [hcs, hc]; rfl
        · rw [stringsTrim_lt]; exact htrim
        · rw [hc, tokens_cons_sep _ _ (by decide)]; exact htok
      | none =>
        rw [hb] at h
        simp only at h
        have := variableBodyAt_spec _ m h
        rw [hc]
        exact this
    · simp only [hc, if_false] at h
      exact variableBodyAt_spec _ m h

theorem variableMatchAt_none (c : Char) (cs : List Char)
    (h : variableMatchAt (c :: cs) = none) : isIdent c = false := by
  cases hc : isIdent c with
  | false => rfl
  | true =>
    exfalso
    have hlt : c ≠ '<' := by
      intro e; subst e; exact absurd hc (by decide)
    unfold variableMatchAt at h
    simp only [hlt, if_false] at h
    exact variableBodyAt_ident c cs hc h

/-! ## The scan of `ReplaceAllStringFunc` -/

/-- When the replacement function returns every match whose key is a token of the input
unchanged, the scan returns the input unchanged. -/
theorem replaceAll_unchanged (repl : List Char → Option (List Char)) (good : List Char → Prop)
    (hrepl : ∀ m, good (stringsTrim m ['<', '>']) → repl m = some m) :
    ∀ (cs : List Char) (skip : Nat), (∀ t ∈ tokens (cs.drop skip), good t) →
      replaceAllStringFunc variableMatchAt repl skip cs = some (cs.drop skip) := by
  intro cs
  induction cs with
  | nil => intro skip _; simp [replaceAllStringFunc]
  | cons c cs ih =>
    intro skip hgood
    cases skip with
    | succ skip =>
      simp only [replaceAllStringFunc, List.drop_succ_cons]
      exact ih skip (by simpa using hgood)
    | zero =>
      simp only [List.drop_zero] at hgood
      simp only [replaceAllStringFunc, List.drop_zero]
      cases hm : variableMatchAt (c :: cs) with
      | none =>
        have hc := variableMatchAt_none c cs hm
        rw [tokens_cons_sep c cs hc] at hgood
        have := ih 0 (by simpa using hgood)
        simp only [List.drop_zero] at this
        simp [this]
      | some m =>
        obtain ⟨run, rest, _, hmne, hcs, htrim, htok⟩ := variableMatchAt_spec _ m hm
        rw [htok] at hgood
        have hr : repl m = some m :=
          hrepl m (by rw [htrim]; exact hgood run (List.mem_cons_self _ _))
        have hdrop : cs.drop (m.length - 1) = rest := by
          cases m with
          | nil => exact absurd rfl hmne
          | cons d m =>
            simp only [List.cons_append, List.cons.injEq] at hcs
            rw [hcs.2]
            simp
        have := ih (m.length - 1)
          (by rw [hdrop]; intro t ht; exact hgood t (List.mem_cons_of_mem _ ht))
        simp only [hr, this, hdrop]
        rw [hcs]

/-- When the replacement function does not return on a match whose key is a token of the
input, the scan does not return. -/
theorem replaceAll_diverges (repl : List Char → Option (List Char)) (bad : List Char → Prop)
    (hrepl : ∀ m, bad (stringsTrim m ['<', '>']) → repl m = none) :
    ∀ (cs : List Char) (skip : Nat), (∃ t ∈ tokens (cs.drop skip), bad t) →
      replaceAllStringFunc variableMatchAt repl skip cs = none := by
  intro cs
  induction cs with
  | nil => intro skip h; simp [tokens_nil] at h
  | cons c cs ih =>
    intro skip hbad
    cases skip with
    | succ skip =>
      simp only [replaceAllStringFunc]
      exact ih skip (by simpa using hbad)
    | zero =>
      simp only [List.drop_zero] at hbad
      simp only [replaceAllStringFunc]
      cases hm : variableMatchAt (c :: cs) with
      | none =>
        have hc := variableMatchAt_none c cs hm
        rw [tokens_cons_sep c cs hc] at hbad
        have := ih 0 (by simpa using hbad)
        simp [this]
      | some m =>
        obtain ⟨run, rest, _, hmne, hcs, htrim, htok⟩ := variableMatchAt_spec _ m hm
        rw [htok] at hbad
        obtain ⟨t, ht, hbt⟩ := hbad
        have hdrop : cs.drop (m.length - 1) = rest := by
          cases m with
          | nil => exact absurd rfl hmne
          | cons d m =>
            simp only [List.cons_append, List.cons.injEq] at hcs
            rw [hcs.2]
            simp
        rcases List.mem_cons.mp ht with rfl | ht'
        · have hr : repl m = none := hrepl m (by rw [htrim]; exact hbt)
          simp [hr]
        · have := ih (m.length - 1) (by rw [hdrop]; exact ⟨t, ht', hbt⟩)
          simp only [this]
          cases repl m <;> rfl


theorem replaceAll_mono (repl repl' : List Char → Option (List Char))
    (h : ∀ m r, repl m = some r → repl' m = some r) :
    ∀ (cs : List Char) (skip : Nat) (out : List Char),
      replaceAllStringFunc variableMatchAt repl skip cs = some out →
      replaceAllStringFunc variableMatchAt repl' skip cs = some out := by
  intro cs
  induction cs with
  | nil => intro skip out ho; simpa [replaceAllStringFunc] using ho
  | cons c cs ih =>
    intro skip out ho
    cases skip with
    | succ skip =>
      simp only [replaceAllStringFunc] at ho ⊢
      exact ih skip out ho
    | zero =>
      simp only [replaceAllStringFunc] at ho ⊢
      cases hm : variableMatchAt (c :: cs) with
      | none =>
        rw [hm] at ho
        simp only [Option.map_eq_some'] at ho ⊢
        obtain ⟨o, ho1, ho2⟩ := ho
        exact ⟨o, ih 0 o ho1, ho2⟩
      | some m =>
        rw [hm] at ho
        simp only at ho ⊢
        cases hr : repl m with
        | none => rw [hr] at ho; simp at ho
        | some r =>
          rw [hr] at ho
          cases hrest : replaceAllStringFunc variableMatchAt repl (m.length - 1) cs with
          | none => rw [hrest] at ho; simp at ho
          | some o =>
            rw [hrest] at ho
            rw [h m r hr, ih _ o hrest]
            exact ho

/-! ## `resolveString` -/

/-- A result found within one depth bound is found within every larger one. -/
theorem resolveChars_mono (aliases : GoMap String String) :
    ∀ (depth : Nat) (cs r : List Char), resolveChars aliases depth cs = some r →
      resolveChars aliases (depth + 1) cs = some r := by
  intro depth
  induction depth with
  | zero => intro cs r h; simp [resolveChars] at h
  | succ d ih =>
    intro cs r h
    rw [resolveChars] at h ⊢
    refine replaceAll_mono _ _ ?_ cs 0 r h
    intro m r' hm
    cases hk : mapGet aliases (String.mk (stringsTrim m ['<', '>'])) with
    | none => simpa [hk] using hm
    | some val =>
      simp only [hk] at hm ⊢
      exact ih _ _ hm

theorem resolveChars_mono_add (aliases : GoMap String String) (depth : Nat) (cs r : List Char)
    (h : resolveChars aliases depth cs = some r) (k : Nat) :
    resolveChars aliases (depth + k) cs = some r := by
  induction k with
  | zero => exact h
  | succ k ih => exact resolveChars_mono aliases _ cs r ih

theorem resolveString_mono_add (aliases : GoMap String String) (depth : Nat) (s r : String)
    (h : resolveString aliases depth s = some r) (k : Nat) :
    resolveString aliases (depth + k) s = some r := by
  unfold resolveString at h ⊢
  cases hc : resolveChars aliases depth s.toList with
  | none => rw [hc] at h; exact absurd h (by simp)
  | some out =>
    rw [hc] at h
    rw [resolveChars_mono_add aliases depth _ out hc k]
    exact h

/-- A string without alias tokens is returned unchanged at every depth bound of at least one. -/
theorem resolveChars_unchanged (aliases : GoMap String String) (cs : List Char) (depth : Nat)
    (h : NoAliasToken aliases cs) : resolveChars aliases (depth + 1) cs = some cs := by
  rw [resolveChars]
  have := replaceAll_unchanged
    (fun m =>
      match mapGet aliases (String.mk (stringsTrim m ['<', '>'])) with
      | some val => resolveChars aliases depth val.toList
      | none => some m)
    (fun t => mapGet aliases (String.mk t) = none)
    (by intro m hm; simp only [hm])
    cs 0 (by simpa using h)
  simpa using this

/-- A string that mentions a key on an alias cycle is resolved within no depth bound. -/
theorem resolveChars_cyclic (aliases : GoMap String String) (S : List String)
    (hS : CyclicKeys aliases S) :
    ∀ (depth : Nat) (s : String), MentionsKey S s → resolveChars aliases depth s.toList = none := by
  intro depth
  induction depth with
  | zero => intro s _; simp [resolveChars]
  | succ d ih =>
    intro s hs
    rw [resolveChars]
    refine replaceAll_diverges _ (fun t => String.mk t ∈ S) ?_ s.toList 0 ?_
    · intro m hm
      obtain ⟨v, hv, k', hk', hmem⟩ := hS _ hm
      simp only [hv]
      exact ih v ⟨k', hk', hmem⟩
    · obtain ⟨k, hk, hmem⟩ := hs
      exact ⟨k.toList, by simpa using hmem, hk⟩

theorem cyclicExample_keys : CyclicKeys cyclicExample ["a", "b"] := by
  intro k hk
  simp only [List.mem_cons, List.mem_singleton, List.not_mem_nil, or_false] at hk
  rcases hk with rfl | rfl
  · exact ⟨"<b>", by decide, "b", by decide, by decide⟩
  · exact ⟨"<a>", by decide, "a", by decide, by decide⟩

/-- C3 (counterexample).  On the namespace `a -> "<b>"`, `b -> "<a>"` the resolution of
`"<a>"` finishes within no depth bound: there is no bounded-depth failure. -/
theorem resolveString_cycle_unbounded :
    ¬ ∃ depth out, resolveString cyclicExample depth "<a>" = some out := by
  rintro ⟨depth, out, h⟩
  have := resolveChars_cyclic cyclicExample ["a", "b"] cyclicExample_keys depth "<a>"
    ⟨"a", by decide, by decide⟩
  unfold resolveString at h
  rw [this] at h
  exact absurd h (by simp)

/-- C3 (amended).  For every namespace with keys on alias cycles (each key of `S` is defined
and its value mentions a key of `S`), resolving a string that mentions such a key returns
at no depth bound: `resolveString` has no depth guard and no error result, the recursion
goes on without end. -/
theorem resolveString_cyclic_diverges (aliases : GoMap String String) (S : List String) (s : String)
    (hS : CyclicKeys aliases S) (hs : MentionsKey S s) :
    ∀ depth, resolveString aliases depth s = none := by
  intro depth
  unfold resolveString
  rw [resolveChars_cyclic aliases S hS depth s hs]
  rfl

theorem resolveString_cyclic_diverges_witness :
    CyclicKeys cyclicExample ["a", "b"] ∧ MentionsKey ["a", "b"] "x <b> y" ∧
      ∀ depth, resolveString cyclicExample depth "x <b> y" = none :=
  ⟨cyclicExample_keys, ⟨"b", by decide, by decide⟩,
    resolveString_cyclic_diverges cyclicExample ["a", "b"] "x <b> y" cyclicExample_keys
      ⟨"b", by decide, by decide⟩⟩

/-- C4 (counterexample).  With `a -> "b"` and `bc -> "X"`, the string `"<a>c"` resolves to
`"bc"`, and resolving `"bc"` never gives `"bc"` again (it gives `"X"`). -/
theorem resolveString_not_idempotent :
    resolveString joinExample 2 "<a>c" = some "bc" ∧
      ∀ depth, resolveString joinExample depth "bc" ≠ some "bc" := by
  refine ⟨by decide, ?_⟩
  intro depth
  rcases Nat.lt_or_ge depth 2 with h | h
  · interval_cases depth <;> decide
  · obtain ⟨k, rfl⟩ := Nat.exists_eq_add_of_le h
    rw [resolveString_mono_add joinExample 2 "bc" "X" (by decide) k]
    decide

/-- C4 (amended).  When the resolution of `s` ends with a result `r` that is fully resolved
(no token of `r` is a key of the namespace), resolving `r` again returns `r`. -/
theorem resolveString_idempotent_of_resolved (aliases : GoMap String String) (s r : String)
    (depth : Nat) (_h : resolveString aliases depth s = some r)
    (hr : NoAliasToken aliases r.toList) :
    ∀ depth', resolveString aliases (depth' + 1) r = some r := by
  intro depth'
  unfold resolveString
  rw [resolveChars_unchanged aliases r.toList depth' hr]
  rfl

theorem resolveString_idempotent_of_resolved_witness :
    resolveString [("pe-asnum", "64512")] 2 "<pe-asnum>:100" = some "64512:100" ∧
      NoAliasToken [("pe-asnum", "64512")] "64512:100".toList ∧
      ∀ depth', resolveString [("pe-asnum", "64512")] (depth' + 1) "64512:100"
        = some "64512:100" :=
  ⟨by decide, by decide,
    resolveString_idempotent_of_resolved [("pe-asnum", "64512")] "<pe-asnum>:100" "64512:100" 2
      (by decide) (by decide)⟩

/-- C5.  When no token of `s` (a maximal run of letters, digits, `_` or `-`) is a key of
the alias namespace, `resolveString` returns `s` unchanged, brackets included, at every
depth bound of at least one; in particular resolution against the empty namespace is the
identity. -/
theorem resolveString_unchanged (aliases : GoMap String String) (s : String) (depth : Nat) :
    (NoAliasToken aliases s.toList → resolveString aliases (depth + 1) s = some s) ∧
      resolveString [] (depth + 1) s = some s := by
  constructor
  · intro h
    unfold resolveString
    rw [resolveChars_unchanged aliases s.toList depth h]
    rfl
  · have h : NoAliasToken [] s.toList := fun t _ => rfl
    unfold resolveString
    rw [resolveChars_unchanged [] s.toList depth h]
    rfl

theorem resolveString_unchanged_witness :
    NoAliasToken [("a", "x")] "<b> c-d >e< <<f>".toList ∧
      resolveString [("a", "x")] 1 "<b> c-d >e< <<f>" = some "<b> c-d >e< <<f>" :=
  ⟨by decide, (resolveString_unchanged [("a", "x")] "<b> c-d >e< <<f>" 0).1 (by decide)⟩

/-! ## `strconv.Atoi` -/

theorem atoiDigits_eq (cs : List Char) : ∀ n : Nat,
    atoiDigits cs n =
      if cs.all Char.isDigit = true then
        some (cs.foldl (fun n c => n * 10 + (c.toNat - '0'.toNat)) n)
      else none := by
  induction cs with
  | nil => intro n; simp [atoiDigits]
  | cons c cs ih =>
    intro n
    by_cases hc : c.isDigit = true
    · simp only [atoiDigits, hc, if_true, ih, List.all_cons, Bool.true_and, List.foldl_cons]
    · simp [atoiDigits, hc]

theorem atoiDigits_decimalValue (cs : List Char) (h : cs ≠ []) :
    atoiDigits cs 0 = decimalValue cs := by
  rw [atoiDigits_eq]
  unfold decimalValue
  by_cases hd : cs.all Char.isDigit = true
  · simp [h, hd]
  · simp [hd]

theorem decimalValue_nil : decimalValue [] = none := by
  simp [decimalValue]

/-- `strconv.Atoi` returns the value of the optionally signed decimal numeral when that
value fits an `int`, and fails on every other string. -/
theorem strconvAtoi_eq (cs : List Char) :
    strconvAtoi cs = (signedDecimalValue cs).filter fitsInt := by
  cases cs with
  | nil => rfl
  | cons c rest =>
    unfold strconvAtoi signedDecimalValue
    by_cases hm : c = '-'
    · subst hm
      simp only [true_or, if_true]
      by_cases hr : rest = []
      · subst hr; simp [decimalValue_nil]
      · simp only [hr, if_false, atoiDigits_decimalValue rest hr]
        cases decimalValue rest with
        | none => rfl
        | some n =>
          simp only [Option.map_some', Option.filter, fitsInt]
          by_cases hn : n ≤ 9223372036854775808
          · have h1 : (-9223372036854775808 : Int) ≤ -(n : Int) := by omega
            have h2 : -(n : Int) ≤ 9223372036854775807 := by omega
            simp [hn, h1, h2]
          · have h1 : ¬ (-9223372036854775808 : Int) ≤ -(n : Int) := by omega
            simp [hn, h1]
    · by_cases hp : c = '+'
      · subst hp
        simp only [hm, or_true, if_true, if_false]
        by_cases hr : rest = []
        · subst hr; simp [decimalValue_nil]
        · simp only [hr, if_false, atoiDigits_decimalValue rest hr]
          cases decimalValue rest with
          | none => rfl
          | some n =>
            simp only [Option.map_some', Option.filter, fitsInt]
            by_cases hn : n < 9223372036854775808
            · have h1 : (-9223372036854775808 : Int) ≤ (n : Int) := by omega
              have h2 : (n : Int) ≤ 9223372036854775807 := by omega
              simp [hn, h1, h2]
            · have h2 : ¬ (n : Int) ≤ 9223372036854775807 := by omega
              simp [hn, h2]
      · simp only [hm, hp, or_self, if_false]
        have hne : c :: rest ≠ [] := by simp
        simp only [hne, if_false, atoiDigits_decimalValue _ hne]
        cases decimalValue (c :: rest) with
        | none => rfl
        | some n =>
          simp only [Option.map_some', Option.filter, fitsInt]
          by_cases hn : n < 9223372036854775808
          · have h1 : (-9223372036854775808 : Int) ≤ (n : Int) := by omega
            have h2 : (n : Int) ≤ 9223372036854775807 := by omega
            simp [hn, h1, h2]
          · have h2 : ¬ (n : Int) ≤ 9223372036854775807 := by omega
            simp [hn, h2]

theorem strconvAtoi_isSome (cs : List Char) : (strconvAtoi cs).isSome = isGoInt cs := by
  rw [strconvAtoi_eq]
  unfold isGoInt
  cases signedDecimalValue cs with
  | none => rfl
  | some z => cases h : fitsInt z <;> simp [Option.filter, h]

theorem decimalValue_head (c : Char) (rest : List Char) (n : Nat)
    (h : decimalValue (c :: rest) = some n) : c.isDigit = true := by
  unfold decimalValue at h
  by_cases hd : (c :: rest).all Char.isDigit = true
  · simp only [List.all_cons, Bool.and_eq_true] at hd
    exact hd.1
  · simp [hd] at h

/-- On an unsigned decimal numeral whose value fits an `int`, `strconv.Atoi` returns the value. -/
theorem strconvAtoi_decimal (cs : List Char) (n : Nat) (h : decimalValue cs = some n)
    (hn : n < 9223372036854775808) : strconvAtoi cs = some (n : Int) := by
  rw [strconvAtoi_eq]
  cases cs with
  | nil => simp [decimalValue_nil] at h
  | cons c rest =>
    have hc := decimalValue_head c rest n h
    have hm : c ≠ '-' := by intro e; subst e; exact absurd hc (by decide)
    have hp : c ≠ '+' := by intro e; subst e; exact absurd hc (by decide)
    have h1 : (-9223372036854775808 : Int) ≤ (n : Int) := by omega
    have h2 : (n : Int) ≤ 9223372036854775807 := by omega
    simp [signedDecimalValue, hm, hp, h, Option.filter, fitsInt, h1, h2]

/-! ## `buildSwitchedVlanConfig` -/

theorem uint16_of_lt (n : Nat) (h : n < 65536) : uint16 (n : Int) = n := by
  unfold uint16
  omega

theorem strconvAtoi_vlan (v : String) (n : Nat) (h : IsVlanNumeral v n) :
    strconvAtoi v.toList = some (n : Int) :=
  strconvAtoi_decimal v.toList n h.1 (by have := h.2; omega)

theorem trunkVlanLoop_ok (vlans : List String) :
    ∀ (acc : List Nat), (∀ v ∈ vlans, ∃ n, IsVlanNumeral v n) →
      trunkVlanLoop vlans acc = .ok (acc ++ vlans.map vlanValue) := by
  induction vlans with
  | nil => intro acc _; simp [trunkVlanLoop]
  | cons v rest ih =>
    intro acc h
    obtain ⟨n, hn⟩ := h v (List.mem_cons_self _ _)
    have hv : vlanValue v = n := by
      unfold vlanValue
      rw [hn.1]
      rfl
    simp only [trunkVlanLoop, strconvAtoi_vlan v n hn]
    rw [ih _ (fun w hw => h w (List.mem_cons_of_mem _ hw)), uint16_of_lt n hn.2]
    simp [hv]

/-- The trunk loop fails at the first string that `strconv.Atoi` rejects. -/
theorem trunkVlanLoop_error (vlans : List String) :
    ∀ (acc : List Nat), (∃ v ∈ vlans, isGoInt v.toList = false) →
      ∃ v ∈ vlans, isGoInt v.toList = false ∧
        trunkVlanLoop vlans acc = .error (.error ("invalid VLAN ID for trunk mode: " ++ v)) := by
  induction vlans with
  | nil => intro acc h; simp at h
  | cons v rest ih =>
    intro acc h
    cases hv : strconvAtoi v.toList with
    | none =>
      have hb : isGoInt v.toList = false := by
        rw [← strconvAtoi_isSome, hv]; rfl
      exact ⟨v, List.mem_cons_self _ _, hb, by simp only [trunkVlanLoop, hv]⟩
    | some z =>
      have hb : isGoInt v.toList = true := by
        rw [← strconvAtoi_isSome, hv]; rfl
      obtain ⟨w, hw, hwb⟩ := h
      have hw' : w ∈ rest := by
        rcases List.mem_cons.mp hw with rfl | h'
        · rw [hb] at hwb; exact absurd hwb (by simp)
        · exact h'
      obtain ⟨u, hu, hub, hres⟩ := ih (acc ++ [uint16 z]) ⟨w, hw', hwb⟩
      exact ⟨u, List.mem_cons_of_mem _ hu, hub, by simp only [trunkVlanLoop, hv, hres]⟩

theorem trunkVlanLoop_accepts (vlans : List String) :
    ∀ (acc : List Nat), (∀ v ∈ vlans, isGoInt v.toList = true) →
      ∃ out, trunkVlanLoop vlans acc = .ok out := by
  induction vlans with
  | nil => intro acc _; exact ⟨acc, rfl⟩
  | cons v rest ih =>
    intro acc h
    have hv : (strconvAtoi v.toList).isSome = true := by
      rw [strconvAtoi_isSome]; exact h v (List.mem_cons_self _ _)
    obtain ⟨z, hz⟩ := Option.isSome_iff_exists.mp hv
    obtain ⟨out, hout⟩ := ih (acc ++ [uint16 z]) (fun w hw => h w (List.mem_cons_of_mem _ hw))
    exact ⟨out, by simp only [trunkVlanLoop, hz, hout]⟩

/-- Every call of `gnmiSet` with a payload that can be encoded adds exactly one entry to the
log, with the parsed path as the path of the request. -/
theorem gnmiSet_log (d : Device) (log : List SetCall) (pathStr : String) (op : Operation)
    (s : Payload) (hs : emitJSON s = .ok ()) :
    (d.gnmiSet log pathStr op s).2 =
      log ++ [⟨pathStr, op, s, (StringToPath pathStr).toOption⟩] := by
  unfold Device.gnmiSet
  cases hp : StringToPath pathStr with
  | error e => rfl
  | ok path =>
    simp only [Except.toOption, hs, ite_self]
    cases d.gnmiClient log ⟨pathStr, op, s, some path⟩ <;> rfl

/-- C11.  In access mode every VLAN list whose length is not one (empty, two IDs or more) is
rejected with the cardinality error and no payload; a list of exactly one valid VLAN ID
gives interface mode `ACCESS` with that VLAN as access VLAN. -/
theorem buildSwitchedVlanConfig_access (vlans : List String) (v : String) (n : Nat) :
    (vlans.length ≠ 1 →
        buildSwitchedVlanConfig "access" vlans =
          .error (.error ("access mode requires exactly one VLAN, got "
            ++ toString vlans.length))) ∧
      (IsVlanNumeral v n →
        buildSwitchedVlanConfig "access" [v] =
          .ok { InterfaceMode := .ACCESS, AccessVlan := some n, TrunkVlans := [] }) := by
  constructor
  · intro hlen
    unfold buildSwitchedVlanConfig
    simp only [if_true]
    match vlans, hlen with
    | [], _ => rfl
    | [_], h => exact absurd rfl h
    | _ :: _ :: _, _ => rfl
  · intro hv
    unfold buildSwitchedVlanConfig
    simp only [if_true, strconvAtoi_vlan v n hv, uint16_of_lt n hv.2]

theorem buildSwitchedVlanConfig_access_witness :
    (buildSwitchedVlanConfig "access" ["100", "200"] =
        .error (.error "access mode requires exactly one VLAN, got 2")) ∧
      IsVlanNumeral "100" 100 ∧
      buildSwitchedVlanConfig "access" ["100"] =
        .ok { InterfaceMode := .ACCESS, AccessVlan := some 100, TrunkVlans := [] } :=
  ⟨(buildSwitchedVlanConfig_access ["100", "200"] "100" 100).1 (by decide),
    ⟨by decide, by decide⟩,
    (buildSwitchedVlanConfig_access ["100", "200"] "100" 100).2 ⟨by decide, by decide⟩⟩

/-- In trunk mode a list of decimal VLAN numbers gives interface mode `TRUNK` and a
trunk-VLAN list of the same length and order whose i-th element is the value of the i-th
string, nothing added or dropped. -/
theorem buildSwitchedVlanConfig_trunk_payload (vlans : List String)
    (h : ∀ v ∈ vlans, ∃ n, IsVlanNumeral v n) :
    buildSwitchedVlanConfig "trunk" vlans =
        .ok { InterfaceMode := .TRUNK, AccessVlan := none, TrunkVlans := vlans.map vlanValue } ∧
      (vlans.map vlanValue).length = vlans.length := by
  refine ⟨?_, by simp⟩
  unfold buildSwitchedVlanConfig
  have hne : ¬ ("trunk" = "access") := by decide
  simp only [hne, if_false, if_true, trunkVlanLoop_ok vlans [] h, List.nil_append]

/-- C13 (counterexample).  `"+5"` and `"-5"` are not decimal representations of unsigned
integers, yet trunk mode accepts them (as 5 and as 65531); and in access mode a list of two
strings with an unparsable one fails with the cardinality error, not with an
invalid-VLAN-ID error. -/
theorem buildSwitchedVlanConfig_accepts_signs :
    buildSwitchedVlanConfig "trunk" ["+5"] =
        .ok { InterfaceMode := .TRUNK, AccessVlan := none, TrunkVlans := [5] } ∧
      buildSwitchedVlanConfig "trunk" ["-5"] =
        .ok { InterfaceMode := .TRUNK, AccessVlan := none, TrunkVlans := [65531] } ∧
      buildSwitchedVlanConfig "access" ["+5"] =
        .ok { InterfaceMode := .ACCESS, AccessVlan := some 5, TrunkVlans := [] } ∧
      buildSwitchedVlanConfig "access" ["abc", "7"] =
        .error (.error "access mode requires exactly one VLAN, got 2") := by
  decide

/-! ## `buildSubinterfaceIPConfig` -/

theorem splitOn_no_slash (cs : List Char) (h : '/' ∉ cs) : cs.splitOn '/' = [cs] := by
  unfold List.splitOn
  apply List.splitOnP_eq_single
  intro x hx hxe
  have : x = '/' := by simpa using hxe
  subst this
  exact h hx

/-- Splitting at `/` gives one part more than there are slashes. -/
theorem length_splitOn (cs : List Char) : (cs.splitOn '/').length = cs.count '/' + 1 := by
  unfold List.splitOn
  induction cs with
  | nil => simp [List.splitOnP_nil]
  | cons c cs ih =>
    rw [List.splitOnP_cons]
    by_cases hc : c = '/'
    · subst hc
      simp [ih]
    · have hne : (c == '/') = false := by simpa using hc
      have hcount : List.count '/' (c :: cs) = List.count '/' cs := by
        rw [List.count_cons]
        simp [hne]
      simp only [hne, Bool.false_eq_true, if_false, hcount, ← ih]
      generalize List.splitOnP (fun x => x == '/') cs = l
      cases l <;> simp [List.modifyHead]

/-- A string with exactly one `/` splits into the part before and the part behind it. -/
theorem splitOn_one_slash (cs : List Char) (h : cs.count '/' = 1) :
    cs.splitOn '/' = [beforeSlash cs, afterSlash cs] := by
  have hsplit : beforeSlash cs ++ cs.dropWhile (fun c => c != '/') = cs :=
    List.takeWhile_append_dropWhile _ _
  have hbefore : '/' ∉ beforeSlash cs := by
    intro hm
    have := List.mem_takeWhile_imp hm
    simp at this
  cases hd : cs.dropWhile (fun c => c != '/') with
  | nil =>
    rw [hd, List.append_nil] at hsplit
    rw [← hsplit, List.count_eq_zero_of_not_mem hbefore] at h
    exact absurd h (by decide)
  | cons d rest =>
    have hdeq : d = '/' := by
      have := List.dropWhile_get_zero_not (fun c => c != '/') cs (by rw [hd]; simp)
      simpa [hd] using this
    subst hdeq
    rw [hd] at hsplit
    have hafter : afterSlash cs = rest := by simp [afterSlash, hd]
    have hrest : '/' ∉ rest := by
      intro hm
      have hc : List.count '/' cs = List.count '/' (beforeSlash cs) + (List.count '/' rest + 1) := by
        conv_lhs => rw [← hsplit]
        rw [List.count_append, List.count_cons_self]
      have hpos : 0 < List.count '/' rest := List.count_pos_iff.mpr hm
      omega
    rw [hafter]
    conv_lhs => rw [← hsplit]
    unfold List.splitOn
    rw [List.splitOnP_first (fun x => x == '/') (beforeSlash cs)
      (by intro x hx hxe
          have : x = '/' := by simpa using hxe
          subst this
          exact hbefore hx) '/' (by simp) rest]
    have := splitOn_no_slash rest hrest
    unfold List.splitOn at this
    rw [this]

theorem beforeSlash_append (a b : List Char) (ha : '/' ∉ a) :
    beforeSlash (a ++ '/' :: b) = a := by
  unfold beforeSlash
  induction a with
  | nil => simp [List.takeWhile_cons]
  | cons c a ih =>
    have hc : c ≠ '/' := fun e => ha (by rw [e]; exact List.mem_cons_self _ _)
    have ha' : '/' ∉ a := fun hm => ha (List.mem_cons_of_mem _ hm)
    simp [List.takeWhile_cons, hc, ih ha']

theorem afterSlash_append (a b : List Char) (ha : '/' ∉ a) :
    afterSlash (a ++ '/' :: b) = b := by
  unfold afterSlash
  induction a with
  | nil => simp [List.dropWhile_cons]
  | cons c a ih =>
    have hc : c ≠ '/' := fun e => ha (by rw [e]; exact List.mem_cons_self _ _)
    have ha' : '/' ∉ a := fun hm => ha (List.mem_cons_of_mem _ hm)
    simp [List.dropWhile_cons, hc, ih ha']

theorem decimalValue_no_slash (cs : List Char) (n : Nat) (h : decimalValue cs = some n) :
    '/' ∉ cs := by
  intro hm
  unfold decimalValue at h
  by_cases hd : cs.all Char.isDigit = true
  · have := List.all_eq_true.mp hd '/' hm
    exact absurd this (by decide)
  · simp [hd] at h

theorem uint8_of_lt (n : Nat) (h : n < 256) : uint8 (n : Int) = n := by
  unfold uint8
  omega

theorem uint8_natCast (n : Nat) : uint8 (n : Int) = n % 256 := by
  unfold uint8
  omega

theorem uint32_of_range (i : Int) (h0 : 0 ≤ i) (h1 : i < 4294967296) :
    (uint32 i : Int) = i := by
  unfold uint32
  omega

theorem buildSubinterfaceIPConfig_one_slash_none (ifName : String) (subifIndex : Int)
    (addr : String) (h : addr.toList.count '/' = 1)
    (ha : strconvAtoi (afterSlash addr.toList) = none) :
    buildSubinterfaceIPConfig ifName subifIndex addr =
      .error (.error ("invalid prefix length: " ++ String.mk (afterSlash addr.toList))) := by
  unfold buildSubinterfaceIPConfig
  rw [splitOn_one_slash addr.toList h]
  simp only [ha]

theorem buildSubinterfaceIPConfig_one_slash_some (ifName : String) (subifIndex : Int)
    (addr : String) (z : Int) (h : addr.toList.count '/' = 1)
    (ha : strconvAtoi (afterSlash addr.toList) = some z) :
    buildSubinterfaceIPConfig ifName subifIndex addr =
      .ok
        { Index := uint32 subifIndex,
          Address :=
            [(String.mk (beforeSlash addr.toList),
              { Ip := String.mk (beforeSlash addr.toList),
                ConfigIp := String.mk (beforeSlash addr.toList),
                PrefixLength := uint8 z })] } := by
  unfold buildSubinterfaceIPConfig
  rw [splitOn_one_slash addr.toList h]
  simp only [ha]

theorem buildSubinterfaceIPConfig_bad_split (ifName : String) (subifIndex : Int)
    (addr : String) (h : addr.toList.count '/' ≠ 1) :
    buildSubinterfaceIPConfig ifName subifIndex addr =
      .error (.error ("invalid CIDR format: " ++ addr)) := by
  unfold buildSubinterfaceIPConfig
  split
  · rename_i ip len heq
    have := length_splitOn addr.toList
    rw [heq] at this
    simp only [List.length_cons, List.length_nil] at this
    omega
  · rfl

/-- C14 (counterexample).  For the address `10.0.0.1/300` the payload carries the prefix
length 44 (300 narrowed to 8 bits), not 300. -/
theorem buildSubinterfaceIPConfig_narrows_prefix :
    buildSubinterfaceIPConfig "ae0" 100 "10.0.0.1/300" =
      .ok { Index := 100,
            Address := [("10.0.0.1", { Ip := "10.0.0.1", ConfigIp := "10.0.0.1",
                                       PrefixLength := 44 })] } := by
  decide

/-- C14 (amended).  For every address `ip/n` with exactly one `/` and `n` a decimal number
that fits a Go `int`, `buildSubinterfaceIPConfig` succeeds; its payload carries the
sub-interface index converted to `uint32` (the index itself when it lies in
`0 .. 2^32-1`) and exactly one IPv4 address entry, keyed by `ip`, whose IP is `ip` and
whose prefix length is `n` converted to `uint8`, that is `n mod 256`: `n` itself when
`n` is below 256. -/
theorem buildSubinterfaceIPConfig_ok (ifName : String) (subifIndex : Int) (ip n : String)
    (k : Nat) (hip : '/' ∉ ip.toList) (hn : decimalValue n.toList = some k)
    (hk : k < 9223372036854775808) :
    buildSubinterfaceIPConfig ifName subifIndex (ip ++ "/" ++ n) =
        .ok { Index := uint32 subifIndex,
              Address := [(ip, { Ip := ip, ConfigIp := ip, PrefixLength := k % 256 })] } ∧
      (k < 256 → k % 256 = k) ∧
      (0 ≤ subifIndex → subifIndex < 4294967296 → (uint32 subifIndex : Int) = subifIndex) := by
  have hlist : (ip ++ "/" ++ n).toList = ip.toList ++ '/' :: n.toList := by
    simp [String.toList]
  have hnn : '/' ∉ n.toList := decimalValue_no_slash n.toList k hn
  have hcount : (ip ++ "/" ++ n).toList.count '/' = 1 := by
    rw [hlist, List.count_append, List.count_cons_self,
      List.count_eq_zero_of_not_mem hip, List.count_eq_zero_of_not_mem hnn]
  refine ⟨?_, fun h => Nat.mod_eq_of_lt h, fun h0 h1 => uint32_of_range subifIndex h0 h1⟩
  have hz : strconvAtoi (afterSlash (ip ++ "/" ++ n).toList) = some (k : Int) := by
    rw [hlist, afterSlash_append _ _ hip]
    exact strconvAtoi_decimal _ k hn hk
  rw [buildSubinterfaceIPConfig_one_slash_some ifName subifIndex _ k hcount hz, hlist,
    beforeSlash_append _ _ hip, uint8_natCast]
  rfl

theorem buildSubinterfaceIPConfig_ok_witness :
    buildSubinterfaceIPConfig "ae0" 100 ("10.0.0.1" ++ "/" ++ "30") =
        .ok { Index := uint32 100,
              Address := [("10.0.0.1", { Ip := "10.0.0.1", ConfigIp := "10.0.0.1",
                                         PrefixLength := 30 % 256 })] } ∧
      uint32 100 = 100 :=
  ⟨(buildSubinterfaceIPConfig_ok "ae0" 100 "10.0.0.1" "30" 30 (by decide) (by decide)
      (by decide)).1, by decide⟩

/-- C15 (amended).  `buildSubinterfaceIPConfig` fails with an invalid-CIDR error, returning
no payload, if and only if the address does not split on `/` into exactly two parts (it has
no `/` or more than one) or the part after the `/` is not an optionally signed decimal
integer that fits a Go `int` (a decimal number of `2^63` or more is rejected as well); the
error names the address in the first case and the part after the `/` in the second. -/
theorem buildSubinterfaceIPConfig_error_iff (ifName : String) (subifIndex : Int)
    (addr : String) :
    ((∃ msg, buildSubinterfaceIPConfig ifName subifIndex addr = .error (.error msg)) ↔
        (addr.toList.count '/' ≠ 1 ∨ isGoInt (afterSlash addr.toList) = false)) ∧
      ((∃ subif, buildSubinterfaceIPConfig ifName subifIndex addr = .ok subif) ↔
        (addr.toList.count '/' = 1 ∧ isGoInt (afterSlash addr.toList) = true)) ∧
      (addr.toList.count '/' ≠ 1 →
        buildSubinterfaceIPConfig ifName subifIndex addr =
          .error (.error ("invalid CIDR format: " ++ addr))) ∧
      (addr.toList.count '/' = 1 → isGoInt (afterSlash addr.toList) = false →
        buildSubinterfaceIPConfig ifName subifIndex addr =
          .error (.error ("invalid prefix length: " ++ String.mk (afterSlash addr.toList)))) := by
  by_cases hc : addr.toList.count '/' = 1
  · have hsome := strconvAtoi_isSome (afterSlash addr.toList)
    cases ha : strconvAtoi (afterSlash addr.toList) with
    | none =>
      have hone := buildSubinterfaceIPConfig_one_slash_none ifName subifIndex addr hc ha
      rw [ha] at hsome
      have hb : isGoInt (afterSlash addr.toList) = false := by rw [← hsome]; rfl
      refine ⟨⟨fun _ => Or.inr hb, fun _ => ⟨_, hone⟩⟩, ⟨?_, ?_⟩, fun h => absurd hc h,
        fun _ _ => hone⟩
      · rintro ⟨subif, hs⟩
        rw [hone] at hs
        exact absurd hs (by simp)
      · rintro ⟨_, h⟩
        rw [hb] at h
        exact absurd h (by simp)
    | some z =>
      have hone := buildSubinterfaceIPConfig_one_slash_some ifName subifIndex addr z hc ha
      rw [ha] at hsome
      have hb : isGoInt (afterSlash addr.toList) = true := by rw [← hsome]; rfl
      refine ⟨⟨?_, ?_⟩, ⟨fun _ => ⟨hc, hb⟩, fun _ => ⟨_, hone⟩⟩, fun h => absurd hc h, ?_⟩
      · rintro ⟨msg, hm⟩
        rw [hone] at hm
        exact absurd hm (by simp)
      · rintro (h | h)
        · exact absurd hc h
        · rw [hb] at h
          exact absurd h (by simp)
      · intro _ h
        rw [hb] at h
        exact absurd h (by simp)
  · have hbad := buildSubinterfaceIPConfig_bad_split ifName subifIndex addr hc
    refine ⟨⟨fun _ => Or.inl hc, fun _ => ⟨_, hbad⟩⟩, ⟨?_, fun h => absurd h.1 hc⟩,
      fun _ => hbad, fun h => absurd h hc⟩
    rintro ⟨subif, hs⟩
    rw [hbad] at hs
    exact absurd hs (by simp)

theorem buildSubinterfaceIPConfig_error_iff_witness :
    "10.0.0.1".toList.count '/' ≠ 1 ∧ "a/b/c".toList.count '/' ≠ 1 ∧
      buildSubinterfaceIPConfig "ae0" 100 "10.0.0.1" =
        .error (.error ("invalid CIDR format: " ++ "10.0.0.1")) ∧
      buildSubinterfaceIPConfig "ae0" 100 "a/b/c" =
        .error (.error ("invalid CIDR format: " ++ "a/b/c")) ∧
      buildSubinterfaceIPConfig "ae0" 100 "10.0.0.1/x" =
        .error (.error ("invalid prefix length: " ++ String.mk (afterSlash "10.0.0.1/x".toList))) :=
  ⟨by decide, by decide,
    (buildSubinterfaceIPConfig_error_iff "ae0" 100 "10.0.0.1").2.2.1 (by decide),
    (buildSubinterfaceIPConfig_error_iff "ae0" 100 "a/b/c").2.2.1 (by decide),
    (buildSubinterfaceIPConfig_error_iff "ae0" 100 "10.0.0.1/x").2.2.2 (by decide) (by decide)⟩

/-! ## `modifyRTList`: set algebra -/

theorem modifyRTList_mem_add (ord : GoMap String Bool → GoMap String Bool) (hord : IsOrder ord)
    (list : List String) (item y : String) :
    y ∈ modifyRTList ord list item "add" ↔ y ∈ list ∨ y = item := by
  have := modifyRTList_mem ord hord list item "add" y
  simpa using this

theorem modifyRTList_mem_delete (ord : GoMap String Bool → GoMap String Bool)
    (hord : IsOrder ord) (list : List String) (item y : String) :
    y ∈ modifyRTList ord list item "delete" ↔ y ∈ list ∧ y ≠ item := by
  have := modifyRTList_mem ord hord list item "delete" y
  have hne : ¬ ("delete" = "add") := by decide
  simpa [hne] using this

/-- C16.  `modifyRTList` is idempotent in both actions, up to the order of the result:
whatever the iteration orders, `add(add(L,x),x)` is a rearrangement of `add(L,x)` and
`delete(delete(L,x),x)` is a rearrangement of `delete(L,x)`; they have the same elements. -/
theorem modifyRTList_idempotent (ord1 ord2 : GoMap String Bool → GoMap String Bool)
    (h1 : IsOrder ord1) (h2 : IsOrder ord2) (L : List String) (x : String) :
    ((modifyRTList ord2 (modifyRTList ord1 L x "add") x "add").Perm
          (modifyRTList ord1 L x "add") ∧
        ∀ y, y ∈ modifyRTList ord2 (modifyRTList ord1 L x "add") x "add" ↔
          y ∈ modifyRTList ord1 L x "add") ∧
      ((modifyRTList ord2 (modifyRTList ord1 L x "delete") x "delete").Perm
          (modifyRTList ord1 L x "delete") ∧
        ∀ y, y ∈ modifyRTList ord2 (modifyRTList ord1 L x "delete") x "delete" ↔
          y ∈ modifyRTList ord1 L x "delete") := by
  have hadd : ∀ y, y ∈ modifyRTList ord2 (modifyRTList ord1 L x "add") x "add" ↔
      y ∈ modifyRTList ord1 L x "add" := by
    intro y
    rw [modifyRTList_mem_add ord2 h2, modifyRTList_mem_add ord1 h1]
    tauto
  have hdel : ∀ y, y ∈ modifyRTList ord2 (modifyRTList ord1 L x "delete") x "delete" ↔
      y ∈ modifyRTList ord1 L x "delete" := by
    intro y
    rw [modifyRTList_mem_delete ord2 h2, modifyRTList_mem_delete ord1 h1]
    tauto
  exact ⟨⟨(List.perm_ext_iff_of_nodup (modifyRTList_nodup ord2 h2 _ x "add")
      (modifyRTList_nodup ord1 h1 L x "add")).mpr hadd, hadd⟩,
    ⟨(List.perm_ext_iff_of_nodup (modifyRTList_nodup ord2 h2 _ x "delete")
      (modifyRTList_nodup ord1 h1 L x "delete")).mpr hdel, hdel⟩⟩

theorem modifyRTList_idempotent_witness :
    IsOrder (List.reverse : GoMap String Bool → GoMap String Bool) ∧
      IsOrder (id : GoMap String Bool → GoMap String Bool) ∧
      modifyRTList List.reverse ["65000:1", "65000:2"] "65000:3" "add"
        = ["65000:3", "65000:2", "65000:1"] ∧
      modifyRTList id (modifyRTList List.reverse ["65000:1", "65000:2"] "65000:3" "add")
          "65000:3" "add"
        = ["65000:3", "65000:2", "65000:1"] ∧
      (modifyRTList id (modifyRTList List.reverse ["65000:1", "65000:2"] "65000:3" "add")
          "65000:3" "add").Perm
        (modifyRTList List.reverse ["65000:1", "65000:2"] "65000:3" "add") :=
  ⟨fun m => List.reverse_perm m, fun m => List.Perm.refl m, by decide, by decide,
    (modifyRTList_idempotent List.reverse id (fun m => List.reverse_perm m)
      (fun m => List.Perm.refl m) ["65000:1", "65000:2"] "65000:3").1.1⟩

/-- C17.  Whatever the iteration orders, `delete(add(L,x),x)` does not contain `x`, also
when `x` occurred in `L` (once or several times) before the add, and it has the same
elements as `delete(L,x)`: the two lists are rearrangements of each other. -/
theorem modifyRTList_delete_add (ord1 ord2 ord3 : GoMap String Bool → GoMap String Bool)
    (h1 : IsOrder ord1) (h2 : IsOrder ord2) (h3 : IsOrder ord3) (L : List String)
    (x : String) :
    x ∉ modifyRTList ord2 (modifyRTList ord1 L x "add") x "delete" ∧
      (modifyRTList ord2 (modifyRTList ord1 L x "add") x "delete").Perm
        (modifyRTList ord3 L x "delete") ∧
      ∀ y, y ∈ modifyRTList ord2 (modifyRTList ord1 L x "add") x "delete" ↔
        y ∈ modifyRTList ord3 L x "delete" := by
  have hmem : ∀ y, y ∈ modifyRTList ord2 (modifyRTList ord1 L x "add") x "delete" ↔
      y ∈ modifyRTList ord3 L x "delete" := by
    intro y
    rw [modifyRTList_mem_delete ord2 h2, modifyRTList_mem_add ord1 h1,
      modifyRTList_mem_delete ord3 h3]
    tauto
  refine ⟨?_, (List.perm_ext_iff_of_nodup (modifyRTList_nodup ord2 h2 _ x "delete")
      (modifyRTList_nodup ord3 h3 L x "delete")).mpr hmem, hmem⟩
  rw [modifyRTList_mem_delete ord2 h2]
  exact fun h => h.2 rfl

theorem modifyRTList_delete_add_witness :
    modifyRTList id (modifyRTList List.reverse ["65000:1", "65000:2", "65000:1"] "65000:1" "add")
        "65000:1" "delete" = ["65000:2"] ∧
      "65000:1" ∉ modifyRTList id
        (modifyRTList List.reverse ["65000:1", "65000:2", "65000:1"] "65000:1" "add")
        "65000:1" "delete" :=
  ⟨by decide,
    (modifyRTList_delete_add List.reverse id id (fun m => List.reverse_perm m)
      (fun m => List.Perm.refl m) (fun m => List.Perm.refl m)
      ["65000:1", "65000:2", "65000:1"] "65000:1").1⟩

/-! ## `Resolve`: success and failure -/

/-- When the device profile and its region exist and the resolution of the communities and
VPN targets ends within the depth bound, `Resolve` returns a `ResolvedIntent`: its alias
table is the merge of the four layers, the communities are the resolved community table,
and the active bridge domain is looked up by the requested name when that is not empty. -/
theorem Resolve_ok (toUpper : String → String)
    (ord : GoMap String String → GoMap String String) (depth : Nat) (gi : GlobalIntent)
    (deviceName : String) (deviceProfile : DeviceProfile) (regionData : Region)
    (hprofile : mapGet gi.DeviceProfiles deviceName = some deviceProfile)
    (hregion : mapGet gi.NetworkIntent.Regions deviceProfile.Region = some regionData)
    (hends : ResolutionEnds toUpper gi deviceProfile regionData depth) :
    ∃ ri, Resolve toUpper ord depth gi deviceName = some (.ok ri) ∧
      ri.GenericAlias = mergedAliases toUpper gi deviceProfile regionData ∧
      resolveMap (mergedAliases toUpper gi deviceProfile regionData) depth
        gi.NetworkIntent.Communities = some ri.Communities ∧
      ri.ActiveBridgeDomain =
        (if deviceProfile.BridgeDomain ≠ "" then
          mapGet regionData.Domains deviceProfile.BridgeDomain
        else none) := by
  obtain ⟨rc, hrc⟩ := Option.isSome_iff_exists.mp hends.1
  obtain ⟨rv, hrv⟩ := Option.isSome_iff_exists.mp hends.2
  unfold mergedAliases at hrc hrv
  unfold Resolve
  simp only [hprofile, hregion, newResolver, hrc, hrv]
  exact ⟨_, rfl, rfl, hrc, rfl⟩

/-- C20.  When the device name has no device profile, or the profile's region is not in the
region table of the network intent, `Resolve` returns an error and no `ResolvedIntent`, at
every depth bound: there is no partially filled result and no default region. -/
theorem Resolve_unknown_profile_or_region (toUpper : String → String)
    (ord : GoMap String String → GoMap String String) (depth : Nat) (gi : GlobalIntent)
    (deviceName : String) :
    (mapGet gi.DeviceProfiles deviceName = none →
        Resolve toUpper ord depth gi deviceName =
          some (.error ("no profile found for device: " ++ deviceName))) ∧
      (∀ deviceProfile, mapGet gi.DeviceProfiles deviceName = some deviceProfile →
        mapGet gi.NetworkIntent.Regions deviceProfile.Region = none →
        Resolve toUpper ord depth gi deviceName =
          some (.error ("region \x27" ++ deviceProfile.Region
            ++ "\x27 not found in network intent"))) := by
  constructor
  · intro h
    unfold Resolve
    simp only [h]
  · intro deviceProfile hp hr
    unfold Resolve
    simp only [hp, hr]

theorem Resolve_unknown_profile_or_region_witness :
    mapGet (bridgeIntent "bd-1").DeviceProfiles "sw9" = none ∧
      Resolve asciiUpper id 0 (bridgeIntent "bd-1") "sw9" =
        some (.error ("no profile found for device: " ++ "sw9")) ∧
      Resolve asciiUpper id 5 (bridgeIntent "bd-1") "sw2" =
        some (.error ("region \x27" ++ "west" ++ "\x27 not found in network intent")) :=
  ⟨rfl,
    (Resolve_unknown_profile_or_region asciiUpper id 0 (bridgeIntent "bd-1") "sw9").1 rfl,
    (Resolve_unknown_profile_or_region asciiUpper id 5 (bridgeIntent "bd-1") "sw2").2 _ rfl rfl⟩

/-- C19 (counterexample).  The device requests the bridge domain `bd-9`, which the domain
table of its region does not have: `Resolve` returns a `ResolvedIntent`, with no active
bridge domain, and no error. -/
theorem Resolve_unknown_bridge_domain_succeeds :
    mapGet bridgeRegion.Domains "bd-9" = none ∧
      ∃ ri, Resolve asciiUpper id 1 (bridgeIntent "bd-9") "sw1" = some (.ok ri) ∧
        ri.ActiveBridgeDomain = none :=
  ⟨rfl, _, rfl, rfl⟩

/-- C19 (amended).  An unknown bridge-domain name is not an error.  When the device profile
and its region exist and the resolution of the communities and VPN targets ends, `Resolve`
returns a `ResolvedIntent`; its active bridge domain is none when the requested name is
empty, and otherwise the region's entry of that name: none again when the region's domain
table has no such entry. -/
theorem Resolve_active_bridge_domain (toUpper : String → String)
    (ord : GoMap String String → GoMap String String) (depth : Nat) (gi : GlobalIntent)
    (deviceName : String) (deviceProfile : DeviceProfile) (regionData : Region)
    (hprofile : mapGet gi.DeviceProfiles deviceName = some deviceProfile)
    (hregion : mapGet gi.NetworkIntent.Regions deviceProfile.Region = some regionData)
    (hends : ResolutionEnds toUpper gi deviceProfile regionData depth) :
    ∃ ri, Resolve toUpper ord depth gi deviceName = some (.ok ri) ∧
      (deviceProfile.BridgeDomain = "" → ri.ActiveBridgeDomain = none) ∧
      (deviceProfile.BridgeDomain ≠ "" →
        ri.ActiveBridgeDomain = mapGet regionData.Domains deviceProfile.BridgeDomain) ∧
      (mapGet regionData.Domains deviceProfile.BridgeDomain = none →
        ri.ActiveBridgeDomain = none) := by
  obtain ⟨ri, hres, _, _, hbd⟩ :=
    Resolve_ok toUpper ord depth gi deviceName deviceProfile regionData hprofile hregion hends
  refine ⟨ri, hres, ?_, ?_, ?_⟩
  · intro h
    rw [hbd]
    simp [h]
  · intro h
    rw [hbd]
    simp [h]
  · intro h
    rw [hbd, h]
    simp

theorem Resolve_active_bridge_domain_witness :
    ResolutionEnds asciiUpper (bridgeIntent "bd-1") (bridgeProfile "bd-1") bridgeRegion 1 ∧
      ∃ ri, Resolve asciiUpper id 1 (bridgeIntent "bd-1") "sw1" = some (.ok ri) ∧
        ri.ActiveBridgeDomain = some { BaselineVLANs := ["10", "20"], VLANs := [] } := by
  have hends : ResolutionEnds asciiUpper (bridgeIntent "bd-1") (bridgeProfile "bd-1")
      bridgeRegion 1 := by decide
  obtain ⟨ri, hres, _, hbd, _⟩ :=
    Resolve_active_bridge_domain asciiUpper id 1 (bridgeIntent "bd-1") "sw1"
      (bridgeProfile "bd-1") bridgeRegion rfl rfl hends
  exact ⟨hends, ri, hres, by rw [hbd (by decide)]; rfl⟩

/-! ## `Resolve`: the synthesized AS number -/

theorem replaceAll_skip (repl : List Char → Option (List Char)) :
    ∀ (cs : List Char) (skip : Nat),
      replaceAllStringFunc variableMatchAt repl skip cs =
        replaceAllStringFunc variableMatchAt repl 0 (cs.drop skip) := by
  intro cs
  induction cs with
  | nil => intro skip; simp [replaceAllStringFunc]
  | cons c cs ih =>
    intro skip
    cases skip with
    | zero => rfl
    | succ skip =>
      simp only [List.drop_succ_cons]
      rw [← ih skip]
      simp only [replaceAllStringFunc]

/-- One step of the scan: a match at the head is replaced and the scan goes on behind it. -/
theorem replaceAll_step (repl : List Char → Option (List Char)) (cs m r out : List Char)
    (hm : variableMatchAt cs = some m) (hr : repl m = some r)
    (hout : replaceAllStringFunc variableMatchAt repl 0 (cs.drop m.length) = some out) :
    replaceAllStringFunc variableMatchAt repl 0 cs = some (r ++ out) := by
  cases cs with
  | nil => simp [variableMatchAt] at hm
  | cons c cs =>
    obtain ⟨_, _, _, hmne, _, _, _⟩ := variableMatchAt_spec _ m hm
    have hlen : m.length = (m.length - 1) + 1 := by
      have : 0 < m.length := List.length_pos.mpr hmne
      omega
    rw [hlen, List.drop_succ_cons] at hout
    simp only [replaceAllStringFunc, hm, hr]
    rw [replaceAll_skip repl cs (m.length - 1), hout]

theorem resolveString_det (aliases : GoMap String String) (d1 d2 : Nat) (s x y : String)
    (h1 : resolveString aliases d1 s = some x) (h2 : resolveString aliases d2 s = some y) :
    x = y := by
  have e1 := resolveString_mono_add aliases d1 s x h1 d2
  have e2 := resolveString_mono_add aliases d2 s y h2 d1
  rw [Nat.add_comm d2 d1, e1] at e2
  exact Option.some.inj e2

/-- With `pe-asnum` mapped to a numeral that mentions no alias, and no alias named `100`,
the template `<pe-asnum>:100` resolves to the numeral followed by `:100`. -/
theorem resolveString_pe_asnum_template (aliases : GoMap String String) (numeral : String)
    (hpe : mapGet aliases "pe-asnum" = some numeral)
    (hnum : NoAliasToken aliases numeral.toList) (h100 : mapGet aliases "100" = none)
    (d : Nat) :
    resolveString aliases (d + 2) "<pe-asnum>:100" = some (numeral ++ ":100") := by
  have hrest : NoAliasToken aliases ":100".toList := by
    intro t ht
    have htok : tokens ":100".toList = ["100".toList] := by decide
    rw [htok] at ht
    simp only [List.mem_singleton] at ht
    subst ht
    exact h100
  have hout := replaceAll_unchanged
    (fun m =>
      match mapGet aliases (String.mk (stringsTrim m ['<', '>'])) with
      | some val => resolveChars aliases (d + 1) val.toList
      | none => some m)
    (fun t => mapGet aliases (String.mk t) = none)
    (by intro m hm; simp only [hm])
    ":100".toList 0 (by simpa using hrest)
  have hstep := replaceAll_step
    (fun m =>
      match mapGet aliases (String.mk (stringsTrim m ['<', '>'])) with
      | some val => resolveChars aliases (d + 1) val.toList
      | none => some m)
    "<pe-asnum>:100".toList "<pe-asnum>".toList numeral.toList ":100".toList
    (by decide)
    (by
      have hkey : String.mk (stringsTrim "<pe-asnum>".toList ['<', '>']) = "pe-asnum" := by
        decide
      simp only [hkey, hpe]
      exact resolveChars_unchanged aliases numeral.toList d hnum)
    hout
  have hc : resolveChars aliases (d + 2) "<pe-asnum>:100".toList =
      some (numeral.toList ++ ":100".toList) := by
    rw [resolveChars]
    exact hstep
  unfold resolveString
  rw [hc]
  rfl
theorem foldl_none {α β : Type} (f : Option α → β → Option α) (hf : ∀ b, f none b = none) :
    ∀ l : List β, l.foldl f none = none := by
  intro l
  induction l with
  | nil => rfl
  | cons b l ih => rw [List.foldl_cons, hf, ih]

/-- A fold that resolves the key and the value of every entry and stores the pair: when it
ends with a map, every entry was resolved, and a resolved key on whose value all entries
with that key agree is mapped to that value. -/
theorem foldl_resolved (rkey rval : String × String → Option String)
    (f : Option (GoMap String String) → String × String → Option (GoMap String String))
    (hnone : ∀ e, f none e = none)
    (hsome : ∀ acc e k v, rkey e = some k → rval e = some v →
      f (some acc) e = some (mapSet acc k v))
    (hinv : ∀ acc e o, f (some acc) e = some o → ∃ k v, rkey e = some k ∧ rval e = some v) :
    ∀ (m : List (String × String)) (acc out : GoMap String String),
      m.foldl f (some acc) = some out →
      (∀ e ∈ m, ∃ k v, rkey e = some k ∧ rval e = some v) ∧
        ∀ rk rv, (∀ e ∈ m, rkey e = some rk → rval e = some rv) →
          ((∃ e ∈ m, rkey e = some rk) ∨ mapGet acc rk = some rv) →
          mapGet out rk = some rv := by
  intro m
  induction m with
  | nil =>
    intro acc out h
    simp only [List.foldl_nil, Option.some.injEq] at h
    subst h
    refine ⟨by simp, ?_⟩
    intro rk rv _ hor
    rcases hor with ⟨e, he, _⟩ | h
    · simp at he
    · exact h
  | cons e m ih =>
    intro acc out h
    rw [List.foldl_cons] at h
    cases hstep : f (some acc) e with
    | none =>
      rw [hstep, foldl_none f hnone] at h
      exact absurd h (by simp)
    | some acc' =>
      rw [hstep] at h
      obtain ⟨k, v, hk, hv⟩ := hinv acc e acc' hstep
      have hacc : acc' = mapSet acc k v := by
        have := hsome acc e k v hk hv
        rw [hstep] at this
        exact Option.some.inj this
      obtain ⟨ih1, ih2⟩ := ih acc' out h
      refine ⟨?_, ?_⟩
      · intro e' he'
        rcases List.mem_cons.mp he' with rfl | h'
        · exact ⟨k, v, hk, hv⟩
        · exact ih1 e' h'
      · intro rk rv hall hor
        apply ih2 rk rv (fun e' he' => hall e' (List.mem_cons_of_mem _ he'))
        by_cases hex : ∃ e' ∈ m, rkey e' = some rk
        · exact Or.inl hex
        · right
          rw [hacc, mapGet_mapSet]
          by_cases hkk : k = rk
          · subst hkk
            have := hall e (List.mem_cons_self _ _) hk
            rw [hv] at this
            simp only [if_true]
            exact this
          · simp only [hkk, if_false]
            rcases hor with ⟨e', he', hr⟩ | h'
            · rcases List.mem_cons.mp he' with rfl | h''
              · rw [hk] at hr
                exact absurd (Option.some.inj hr) hkk
              · exact absurd ⟨e', h'', hr⟩ hex
            · exact h'

/-- The resolved community table: every key and value was resolved, and a resolved key on
whose value all entries with that key agree is mapped to that value. -/
theorem resolveMap_spec (aliases : GoMap String String) (depth : Nat)
    (m out : GoMap String String) (h : resolveMap aliases depth m = some out) :
    (∀ e ∈ m, ∃ k v, resolveString aliases depth e.1 = some k ∧
        resolveString aliases depth e.2 = some v) ∧
      ∀ rk rv,
        (∀ e ∈ m, resolveString aliases depth e.1 = some rk →
          resolveString aliases depth e.2 = some rv) →
        (∃ e ∈ m, resolveString aliases depth e.1 = some rk) → mapGet out rk = some rv := by
  unfold resolveMap at h
  have key := foldl_resolved (fun e => resolveString aliases depth e.1)
    (fun e => resolveString aliases depth e.2) _
    (by intro e; rfl)
    (by intro acc e k v hk hv; simp only [hk, hv])
    (by
      intro acc e o ho
      cases hk : resolveString aliases depth e.1 with
      | none => simp [hk] at ho
      | some k =>
        cases hv : resolveString aliases depth e.2 with
        | none => simp [hk, hv] at ho
        | some v => exact ⟨k, v, hk, hv⟩)
    m [] out h
  exact ⟨key.1, fun rk rv hall hex => key.2 rk rv hall (Or.inl hex)⟩
theorem resolveMap_none_of_unresolved (aliases : GoMap String String) (depth : Nat)
    (m : GoMap String String) (e : String × String) (he : e ∈ m)
    (h : resolveString aliases depth e.2 = none) : resolveMap aliases depth m = none := by
  cases hr : resolveMap aliases depth m with
  | none => rfl
  | some out =>
    obtain ⟨_, v, _, hv⟩ := (resolveMap_spec aliases depth m out hr).1 e he
    rw [h] at hv
    exact absurd hv (by simp)

/-- When the resolution of the communities does not end, `Resolve` does not return. -/
theorem Resolve_none_of_resolveMap_none (toUpper : String → String)
    (ord : GoMap String String → GoMap String String) (depth : Nat) (gi : GlobalIntent)
    (deviceName : String) (deviceProfile : DeviceProfile) (regionData : Region)
    (hprofile : mapGet gi.DeviceProfiles deviceName = some deviceProfile)
    (hregion : mapGet gi.NetworkIntent.Regions deviceProfile.Region = some regionData)
    (h : resolveMap (mergedAliases toUpper gi deviceProfile regionData) depth
      gi.NetworkIntent.Communities = none) :
    Resolve toUpper ord depth gi deviceName = none := by
  unfold mergedAliases at h
  unfold Resolve
  simp only [hprofile, hregion, newResolver, h]

/-- C18 (counterexample).  The region has AS number 64512, no region or device alias
redefines `pe-asnum`, no alias is named `64512` or `100`; but the global aliases hold the
cycle `a -> "<b>"`, `b -> "<a>"` and a community mentions `a`: `Resolve` returns at no depth
bound, it does not succeed. -/
theorem Resolve_diverges_on_alias_cycle :
    (mapGet (exampleRegion []).GenericAlias "pe-asnum" = none ∧
        mapGet (exampleProfile []).GenericAlias "pe-asnum" = none ∧
        mapGet (mergedAliases asciiUpper cyclicIntent (exampleProfile []) (exampleRegion []))
          "64512" = none ∧
        mapGet (mergedAliases asciiUpper cyclicIntent (exampleProfile []) (exampleRegion []))
          "100" = none) ∧
      ∀ depth, Resolve asciiUpper id depth cyclicIntent "pe1" = none := by
  refine ⟨⟨by decide, by decide, by decide, by decide⟩, ?_⟩
  intro depth
  have hkeys : CyclicKeys
      (mergedAliases asciiUpper cyclicIntent (exampleProfile []) (exampleRegion []))
      ["a", "b"] := by
    intro k hk
    simp only [List.mem_cons, List.mem_singleton, List.not_mem_nil, or_false] at hk
    rcases hk with rfl | rfl
    · exact ⟨"<b>", by decide, "b", by decide, by decide⟩
    · exact ⟨"<a>", by decide, "a", by decide, by decide⟩
  have hloop : resolveString
      (mergedAliases asciiUpper cyclicIntent (exampleProfile []) (exampleRegion []))
      depth "<a>" = none := by
    unfold resolveString
    rw [resolveChars_cyclic _ ["a", "b"] hkeys depth "<a>" ⟨"a", by decide, by decide⟩]
    rfl
  exact Resolve_none_of_resolveMap_none asciiUpper id depth cyclicIntent "pe1"
    (exampleProfile []) (exampleRegion []) rfl rfl
    (resolveMap_none_of_unresolved _ depth _ ("loop", "<a>") (by decide) hloop)

/-- C18 (amended).  For a device whose profile and region exist, when the resolution of the
communities and VPN targets ends (no alias cycle is run into), `Resolve` succeeds.  The
alias namespace maps `pe-asnum` to the device-level entry if there is one, else to the
region-level entry if there is one, else to the decimal numeral of the region's AS number.
When neither level redefines `pe-asnum` and no alias is named like that numeral or `100`,
the namespace maps `pe-asnum` to the numeral (`"64512"` for 64512), the template
`<pe-asnum>:100` resolves to the numeral followed by `:100` (`"64512:100"`), and the
resolved community table maps the resolved name of a community with that template to it,
provided no community with another template has the same resolved name. -/
theorem Resolve_pe_asnum (toUpper : String → String)
    (ord : GoMap String String → GoMap String String) (depth : Nat) (gi : GlobalIntent)
    (deviceName : String) (deviceProfile : DeviceProfile) (regionData : Region)
    (hprofile : mapGet gi.DeviceProfiles deviceName = some deviceProfile)
    (hregion : mapGet gi.NetworkIntent.Regions deviceProfile.Region = some regionData)
    (h2 : GoMap.WF regionData.GenericAlias) (h3 : GoMap.WF deviceProfile.GenericAlias)
    (hends : ResolutionEnds toUpper gi deviceProfile regionData depth) :
    ∃ ri, Resolve toUpper ord depth gi deviceName = some (.ok ri) ∧
      ri.GenericAlias = mergedAliases toUpper gi deviceProfile regionData ∧
      mapGet ri.GenericAlias "pe-asnum" =
        (mapGet deviceProfile.GenericAlias "pe-asnum").or
          ((mapGet regionData.GenericAlias "pe-asnum").or
            (some (toString regionData.PeAsNum))) ∧
      (mapGet deviceProfile.GenericAlias "pe-asnum" = none →
        mapGet regionData.GenericAlias "pe-asnum" = none →
        NoAliasToken ri.GenericAlias (toString regionData.PeAsNum).toList →
        mapGet ri.GenericAlias "100" = none →
        mapGet ri.GenericAlias "pe-asnum" = some (toString regionData.PeAsNum) ∧
          (∀ d, resolveString ri.GenericAlias (d + 2) "<pe-asnum>:100" =
            some (toString regionData.PeAsNum ++ ":100")) ∧
          ∀ name, (name, "<pe-asnum>:100") ∈ gi.NetworkIntent.Communities →
            ∃ rname, resolveString ri.GenericAlias depth name = some rname ∧
              ((∀ e ∈ gi.NetworkIntent.Communities,
                  resolveString ri.GenericAlias depth e.1 = some rname →
                  e.2 = "<pe-asnum>:100") →
                mapGet ri.Communities rname =
                  some (toString regionData.PeAsNum ++ ":100"))) := by
  obtain ⟨ri, hres, hga, hcomm, _⟩ :=
    Resolve_ok toUpper ord depth gi deviceName deviceProfile regionData hprofile hregion hends
  have hpe : mapGet ri.GenericAlias "pe-asnum" =
      (mapGet deviceProfile.GenericAlias "pe-asnum").or
        ((mapGet regionData.GenericAlias "pe-asnum").or
          (some (toString regionData.PeAsNum))) := by
    rw [hga]
    unfold mergedAliases
    rw [mapGet_mergeStringMaps _ _ h3, mapGet_mergeStringMaps _ _ h2,
      mapGet_mergeStringMaps _ _ (regionAliases_WF toUpper regionData)]
    have hsyn : mapGet (regionAliases toUpper regionData) "pe-asnum" =
        some (toString regionData.PeAsNum) := rfl
    rw [hsyn]
    rfl
  refine ⟨ri, hres, hga, hpe, ?_⟩
  intro h3n h2n hnum h100
  have hpe' : mapGet ri.GenericAlias "pe-asnum" = some (toString regionData.PeAsNum) := by
    rw [hpe, h3n, h2n]
    rfl
  have htmpl := resolveString_pe_asnum_template ri.GenericAlias (toString regionData.PeAsNum)
    hpe' hnum h100
  refine ⟨hpe', htmpl, ?_⟩
  intro name hmem
  rw [← hga] at hcomm
  obtain ⟨hentries, hget⟩ :=
    resolveMap_spec ri.GenericAlias depth gi.NetworkIntent.Communities ri.Communities hcomm
  obtain ⟨rname, v, hk, hv⟩ := hentries _ hmem
  have hveq : v = toString regionData.PeAsNum ++ ":100" :=
    resolveString_det ri.GenericAlias depth 2 "<pe-asnum>:100" _ _ hv (htmpl 0)
  refine ⟨rname, hk, ?_⟩
  intro huniq
  apply hget rname _ _ ⟨_, hmem, hk⟩
  intro e he hek
  rw [huniq e he hek, ← hveq]
  exact hv

theorem Resolve_pe_asnum_witness :
    ResolutionEnds asciiUpper (communityIntent [] []) (exampleProfile []) (exampleRegion []) 2 ∧
      (∃ ri, Resolve asciiUpper id 2 (communityIntent [] []) "pe1" = some (.ok ri) ∧
        mapGet ri.GenericAlias "pe-asnum" = some "64512" ∧
        resolveString ri.GenericAlias 2 "<pe-asnum>:100" = some "64512:100" ∧
        mapGet ri.Communities "cust" = some "64512:100") ∧
      ∃ ri, Resolve asciiUpper id 2 (communityIntent [("pe-asnum", "65001")] []) "pe1"
          = some (.ok ri) ∧
        mapGet ri.GenericAlias "pe-asnum" = some "65001" := by
  have hends : ResolutionEnds asciiUpper (communityIntent [] []) (exampleProfile [])
      (exampleRegion []) 2 := by decide
  refine ⟨hends, ?_, ?_⟩
  · obtain ⟨ri, hres, hga, _, hrest⟩ :=
      Resolve_pe_asnum asciiUpper id 2 (communityIntent [] []) "pe1" (exampleProfile [])
        (exampleRegion []) rfl rfl (by decide) (by decide) hends
    obtain ⟨hpe, htmpl, hcomm⟩ := hrest (by decide) (by decide)
      (by rw [hga]; decide) (by rw [hga]; decide)
    obtain ⟨rname, hname, hget⟩ := hcomm "cust" (by decide)
    have hcust : rname = "cust" := by
      rw [hga] at hname
      have : resolveString (mergedAliases asciiUpper (communityIntent [] []) (exampleProfile [])
          (exampleRegion [])) 2 "cust" = some "cust" := by decide
      rw [this] at hname
      exact (Option.some.inj hname).symm
    subst hcust
    refine ⟨ri, hres, hpe, htmpl 0, hget ?_⟩
    intro e he _
    have : e = ("cust", "<pe-asnum>:100") := by simpa [communityIntent] using he
    rw [this]
  · obtain ⟨ri, hres, _, hpe, _⟩ :=
      Resolve_pe_asnum asciiUpper id 2 (communityIntent [("pe-asnum", "65001")] []) "pe1"
        (exampleProfile []) (exampleRegion [("pe-asnum", "65001")]) rfl rfl (by decide)
        (by decide) (by decide)
    exact ⟨ri, hres, by rw [hpe]; rfl⟩

/-! ## `modifyRTList`: other action strings -/

/-- C29.  `modifyRTList` treats every action string other than exactly `add` as a delete:
for every list `L`, item `x` and action `a` different from `add`, whatever the iteration
order, the result is the one of the action `delete`, a duplicate-free list with the elements
of `set(L) \ {x}`. -/
theorem modifyRTList_other_action (ord : GoMap String Bool → GoMap String Bool)
    (hord : IsOrder ord) (L : List String) (x a : String) (ha : a ≠ "add") :
    modifyRTList ord L x a = modifyRTList ord L x "delete" ∧
      (modifyRTList ord L x a).Nodup ∧
      ∀ y, y ∈ modifyRTList ord L x a ↔ y ∈ L ∧ y ≠ x := by
  refine ⟨?_, modifyRTList_nodup ord hord L x a, fun y => ?_⟩
  · have hne : ¬ ("delete" = "add") := by decide
    rw [modifyRTList_eq, modifyRTList_eq]
    simp only [ha, hne, if_false]
  · have := modifyRTList_mem ord hord L x a y
    simpa [ha] using this

theorem modifyRTList_other_action_witness :
    IsOrder (List.reverse : GoMap String Bool → GoMap String Bool) ∧
      "ADD" ≠ "add" ∧
      modifyRTList List.reverse ["65000:1", "65000:2", "65000:1"] "65000:1" "ADD" = ["65000:2"] ∧
      modifyRTList List.reverse ["65000:1", "65000:2"] "65000:3" "" = ["65000:2", "65000:1"] ∧
      modifyRTList List.reverse ["65000:1", "65000:2", "65000:1"] "65000:1" "ADD" =
        modifyRTList List.reverse ["65000:1", "65000:2", "65000:1"] "65000:1" "delete" :=
  ⟨fun m => List.reverse_perm m, by decide, by decide, by decide,
    (modifyRTList_other_action List.reverse (fun m => List.reverse_perm m)
      ["65000:1", "65000:2", "65000:1"] "65000:1" "ADD" (by decide)).1⟩

/-! ## `buildSwitchedVlanConfig`: narrowing to 16 bits -/

theorem strconvAtoi_signed (cs : List Char) (z : Int) (h : signedDecimalValue cs = some z)
    (hz : fitsInt z = true) : strconvAtoi cs = some z := by
  rw [strconvAtoi_eq, h]
  simp [Option.filter, hz]

theorem trunkVlanLoop_narrows (vlans : List String) :
    ∀ (zs : List Int) (acc : List Nat),
      List.Forall₂ (fun s z => signedDecimalValue s.toList = some z ∧ fitsInt z = true)
        vlans zs →
      trunkVlanLoop vlans acc = .ok (acc ++ zs.map (fun z => (z % 65536).toNat)) := by
  induction vlans with
  | nil =>
    intro zs acc h
    cases h
    simp [trunkVlanLoop]
  | cons v rest ih =>
    intro zs acc h
    cases h with
    | cons hv hrest =>
      simp only [trunkVlanLoop, strconvAtoi_signed _ _ hv.1 hv.2]
      rw [ih _ _ hrest]
      simp [uint16]

theorem uint16_eq_iff (z : Int) : ((z % 65536).toNat : Int) = z ↔ 0 ≤ z ∧ z ≤ 65535 := by
  omega

/-- C30.  VLAN IDs are narrowed to 16 bits without a range check: for every VLAN string that
is an optionally signed decimal integer `z` fitting a Go `int` (negative or above 65535
included), access mode succeeds with the access VLAN `z mod 65536`, trunk mode succeeds on
every list of such strings with the trunk VLANs `z_i mod 65536` in order, and the encoded
VLAN equals `z` exactly when `0 ≤ z ≤ 65535`. -/
theorem buildSwitchedVlanConfig_narrows (vlans : List String) (zs : List Int) (v : String)
    (z : Int) (hv : signedDecimalValue v.toList = some z) (hz : fitsInt z = true)
    (hvs : List.Forall₂ (fun s z => signedDecimalValue s.toList = some z ∧ fitsInt z = true)
      vlans zs) :
    buildSwitchedVlanConfig "access" [v] =
        .ok { InterfaceMode := .ACCESS, AccessVlan := some (z % 65536).toNat, TrunkVlans := [] } ∧
      buildSwitchedVlanConfig "trunk" vlans =
        .ok { InterfaceMode := .TRUNK, AccessVlan := none,
              TrunkVlans := zs.map (fun z => (z % 65536).toNat) } ∧
      (((z % 65536).toNat : Int) = z ↔ 0 ≤ z ∧ z ≤ 65535) ∧
      ∀ y ∈ zs, (((y % 65536).toNat : Int) = y ↔ 0 ≤ y ∧ y ≤ 65535) := by
  have hne : ¬ ("trunk" = "access") := by decide
  refine ⟨?_, ?_, uint16_eq_iff z, fun y _ => uint16_eq_iff y⟩
  · unfold buildSwitchedVlanConfig
    simp only [if_true, strconvAtoi_signed _ _ hv hz]
    rfl
  · unfold buildSwitchedVlanConfig
    simp only [hne, if_false, if_true, trunkVlanLoop_narrows vlans zs [] hvs, List.nil_append]

theorem buildSwitchedVlanConfig_narrows_witness :
    signedDecimalValue "65537".toList = some 65537 ∧ fitsInt 65537 = true ∧
      List.Forall₂ (fun s z => signedDecimalValue s.toList = some z ∧ fitsInt z = true)
        ["-1", "4096", "70000"] [-1, 4096, 70000] ∧
      buildSwitchedVlanConfig "access" ["65537"] =
        .ok { InterfaceMode := .ACCESS, AccessVlan := some 1, TrunkVlans := [] } ∧
      buildSwitchedVlanConfig "trunk" ["-1", "4096", "70000"] =
        .ok { InterfaceMode := .TRUNK, AccessVlan := none, TrunkVlans := [65535, 4096, 4464] } :=
  have hvs : List.Forall₂ (fun s z => signedDecimalValue s.toList = some z ∧ fitsInt z = true)
      ["-1", "4096", "70000"] [-1, 4096, 70000] :=
    .cons ⟨by decide, by decide⟩ (.cons ⟨by decide, by decide⟩
      (.cons ⟨by decide, by decide⟩ .nil))
  ⟨by decide, by decide, hvs,
    (buildSwitchedVlanConfig_narrows ["-1", "4096", "70000"] [-1, 4096, 70000] "65537" 65537
      (by decide) (by decide) hvs).1,
    (buildSwitchedVlanConfig_narrows ["-1", "4096", "70000"] [-1, 4096, 70000] "65537" 65537
      (by decide) (by decide) hvs).2.1⟩

/-! ## `mergeStringMaps`: associativity -/

theorem WF_foldl_mapSet {ν : Type} (source : GoMap String ν) :
    ∀ (dest : GoMap String ν), GoMap.WF dest →
      GoMap.WF (source.foldl (fun d kv => mapSet d kv.1 kv.2) dest) := by
  induction source with
  | nil => intro dest h; exact h
  | cons e source ih =>
    intro dest h
    rw [List.foldl_cons]
    exact ih _ (WF_mapSet dest e.1 e.2 h)

theorem WF_mergeStringMaps (dest source : GoMap String String) (h : GoMap.WF dest) :
    GoMap.WF (mergeStringMaps dest source) :=
  WF_foldl_mapSet source dest h

theorem option_or_assoc {α : Type} (x y z : Option α) : (x.or y).or z = x.or (y.or z) := by
  cases x <;> rfl

/-- C23.  Layer merging by `mergeStringMaps` is associative: for all maps `a`, `b` and `c`,
overlaying `c` onto (`b` overlaid onto `a`) yields the same map, key by key, as overlaying
(`c` overlaid onto `b`) onto `a`; both are maps with one entry per key; and the empty map is
the identity on either side. -/
theorem mergeStringMaps_assoc (a b c : GoMap String String) (ha : GoMap.WF a)
    (hb : GoMap.WF b) (hc : GoMap.WF c) :
    (∀ k, mapGet (mergeStringMaps (mergeStringMaps a b) c) k =
        mapGet (mergeStringMaps a (mergeStringMaps b c)) k) ∧
      GoMap.WF (mergeStringMaps (mergeStringMaps a b) c) ∧
      GoMap.WF (mergeStringMaps a (mergeStringMaps b c)) ∧
      mergeStringMaps a [] = a ∧
      (∀ k, mapGet (mergeStringMaps [] a) k = mapGet a k) := by
  have hbc : GoMap.WF (mergeStringMaps b c) := WF_mergeStringMaps b c hb
  refine ⟨fun k => ?_, WF_mergeStringMaps _ c (WF_mergeStringMaps a b ha),
    WF_mergeStringMaps a _ ha, rfl, fun k => ?_⟩
  · rw [mapGet_mergeStringMaps _ c hc, mapGet_mergeStringMaps a b hb,
      mapGet_mergeStringMaps a _ hbc, mapGet_mergeStringMaps b c hc, option_or_assoc]
  · rw [mapGet_mergeStringMaps [] a ha]
    cases mapGet a k <;> rfl

theorem mergeStringMaps_assoc_witness :
    GoMap.WF exampleL1 ∧ GoMap.WF exampleL2 ∧ GoMap.WF exampleL3 ∧
      mergeStringMaps (mergeStringMaps exampleL1 exampleL2) exampleL3 =
        [("x", "g"), ("y", "r"), ("z", "d"), ("pe-asname", "g")] ∧
      mergeStringMaps exampleL1 (mergeStringMaps exampleL2 exampleL3) =
        [("x", "g"), ("y", "r"), ("z", "d"), ("pe-asname", "g")] ∧
      ∀ k, mapGet (mergeStringMaps (mergeStringMaps exampleL1 exampleL2) exampleL3) k =
        mapGet (mergeStringMaps exampleL1 (mergeStringMaps exampleL2 exampleL3)) k :=
  ⟨by decide, by decide, by decide, by decide, by decide,
    (mergeStringMaps_assoc exampleL1 exampleL2 exampleL3 (by decide) (by decide) (by decide)).1⟩

/-! ## `newResolver`: the reverse alias map -/

theorem mem_of_mapGet {κ ν : Type} [DecidableEq κ] (m : GoMap κ ν) (k : κ) (v : ν)
    (h : mapGet m k = some v) : (k, v) ∈ m := by
  induction m with
  | nil => simp [mapGet] at h
  | cons e m ih =>
    obtain ⟨k0, v0⟩ := e
    by_cases h0 : k0 = k
    · subst h0
      simp only [mapGet, if_true, Option.some.injEq] at h
      subst h
      exact List.mem_cons_self _ _
    · simp only [mapGet, h0, if_false] at h
      exact List.mem_cons_of_mem _ (ih h)

theorem mapGet_of_mem {κ ν : Type} [DecidableEq κ] (m : GoMap κ ν) (hm : GoMap.WF m) (k : κ)
    (v : ν) (h : (k, v) ∈ m) : mapGet m k = some v := by
  induction m with
  | nil => simp at h
  | cons e m ih =>
    obtain ⟨k0, v0⟩ := e
    have hm' : GoMap.WF m := (List.nodup_cons.mp hm).2
    have hk0 : k0 ∉ mapKeys m := (List.nodup_cons.mp hm).1
    rcases List.mem_cons.mp h with heq | hmem
    · simp only [Prod.mk.injEq] at heq
      obtain ⟨rfl, rfl⟩ := heq
      simp [mapGet]
    · have hne : ¬ k0 = k := by
        intro e
        subst e
        exact hk0 (List.mem_map.mpr ⟨(k0, v), hmem, rfl⟩)
      simp only [mapGet, hne, if_false]
      exact ih hm' hmem

/-- The exclusion set of `newResolver` holds `true` exactly for the listed keys. -/
theorem excludeSet_get (E : List String) :
    ∀ (init : GoMap String Bool) (k : String),
      (mapGet (E.foldl (fun set item => mapSet set item true) init) k).getD false = true ↔
        k ∈ E ∨ (mapGet init k).getD false = true := by
  induction E with
  | nil => intro init k; simp
  | cons a E ih =>
    intro init k
    rw [List.foldl_cons, ih, mapGet_mapSet, List.mem_cons]
    by_cases h : a = k
    · subst h; simp
    · have h' : ¬ k = a := fun e => h e.symm
      simp [h, h']

theorem reverseAliases_sound (excl : String → Bool) (l : GoMap String String) :
    ∀ (init : GoMap String String) (v k : String),
      mapGet (l.foldl (fun rev kv => if !excl kv.1 then mapSet rev kv.2 kv.1 else rev) init) v
          = some k →
        mapGet init v = some k ∨ ((k, v) ∈ l ∧ excl k = false) := by
  induction l with
  | nil => intro init v k h; exact Or.inl h
  | cons e l ih =>
    obtain ⟨k0, v0⟩ := e
    intro init v k h
    rw [List.foldl_cons] at h
    rcases ih _ v k h with h1 | ⟨h1, h2⟩
    · cases hx : excl k0 with
      | true =>
        simp only [hx, Bool.not_true, Bool.false_eq_true, if_false] at h1
        exact Or.inl h1
      | false =>
        simp only [hx, Bool.not_false, if_true, mapGet_mapSet] at h1
        by_cases hv : v0 = v
        · subst hv
          simp only [if_true, Option.some.injEq] at h1
          subst h1
          exact Or.inr ⟨List.mem_cons_self _ _, hx⟩
        · simp only [hv, if_false] at h1
          exact Or.inl h1
    · exact Or.inr ⟨List.mem_cons_of_mem _ h1, h2⟩

theorem reverseAliases_keys (excl : String → Bool) (l : GoMap String String) :
    ∀ (init : GoMap String String) (v : String),
      ((mapGet init v).isSome = true ∨ ∃ k, (k, v) ∈ l ∧ excl k = false) →
        (mapGet (l.foldl (fun rev kv => if !excl kv.1 then mapSet rev kv.2 kv.1 else rev) init)
          v).isSome = true := by
  induction l with
  | nil =>
    intro init v h
    rcases h with h | ⟨k, hk, _⟩
    · exact h
    · simp at hk
  | cons e l ih =>
    obtain ⟨k0, v0⟩ := e
    intro init v h
    rw [List.foldl_cons]
    apply ih
    rcases h with h | ⟨k, hk, hx⟩
    · left
      cases hx : excl k0 with
      | true => simpa [hx] using h
      | false =>
        simp only [hx, Bool.not_false, if_true, mapGet_mapSet]
        by_cases hv : v0 = v
        · simp [hv]
        · simpa [hv] using h
    · rcases List.mem_cons.mp hk with heq | hmem
      · simp only [Prod.mk.injEq] at heq
        obtain ⟨rfl, rfl⟩ := heq
        left
        simp [hx, mapGet_mapSet]
      · exact Or.inr ⟨k, hmem, hx⟩

theorem reverseAliases_WF (excl : String → Bool) (l : GoMap String String) :
    ∀ (init : GoMap String String), GoMap.WF init →
      GoMap.WF (l.foldl (fun rev kv => if !excl kv.1 then mapSet rev kv.2 kv.1 else rev) init) := by
  induction l with
  | nil => intro init h; exact h
  | cons e l ih =>
    intro init h
    rw [List.foldl_cons]
    apply ih
    cases hx : excl e.1 with
    | true => simpa [hx] using h
    | false => simpa [hx] using WF_mapSet init e.2 e.1 h

/-- The reverse alias map of `newResolver`, entry by entry. -/
theorem newResolver_reverse (ord : GoMap String String → GoMap String String)
    (hord : IsOrder ord) (N : GoMap String String) (hN : GoMap.WF N) (E : List String) :
    (∀ v k, mapGet (newResolver ord N E).reverseAliases v = some k →
        mapGet N k = some v ∧ k ∉ E) ∧
      (∀ k v, mapGet N k = some v → k ∉ E →
        (mapGet (newResolver ord N E).reverseAliases v).isSome = true) ∧
      GoMap.WF (newResolver ord N E).reverseAliases := by
  have hex : ∀ k, (mapGet (E.foldl (fun set item => mapSet set item true)
      ([] : GoMap String Bool)) k).getD false = false ↔ k ∉ E := by
    intro k
    have := excludeSet_get E [] k
    simp only [mapGet, Option.getD_none, Bool.false_eq_true, or_false] at this
    rw [← this]
    simp
  have hR : (newResolver ord N E).reverseAliases =
      (ord N).foldl (fun rev kv =>
        if !((fun k => (mapGet (E.foldl (fun set item => mapSet set item true)
          ([] : GoMap String Bool)) k).getD false) kv.1) then mapSet rev kv.2 kv.1 else rev)
        [] := rfl
  rw [hR]
  refine ⟨fun v k h => ?_, fun k v h hk => ?_, ?_⟩
  · rcases reverseAliases_sound
      (fun k => (mapGet (E.foldl (fun set item => mapSet set item true)
        ([] : GoMap String Bool)) k).getD false) (ord N) [] v k h with h1 | ⟨h1, h2⟩
    · simp [mapGet] at h1
    · exact ⟨mapGet_of_mem N hN k v ((hord N).mem_iff.mp h1), (hex k).mp h2⟩
  · exact reverseAliases_keys
      (fun k => (mapGet (E.foldl (fun set item => mapSet set item true)
        ([] : GoMap String Bool)) k).getD false) (ord N) [] v
      (Or.inr ⟨k, (hord N).mem_iff.mpr (mem_of_mapGet N k v h), (hex k).mpr hk⟩)
  · exact reverseAliases_WF
      (fun k => (mapGet (E.foldl (fun set item => mapSet set item true)
        ([] : GoMap String Bool)) k).getD false) (ord N) [] List.nodup_nil

/-- C21 (counterexample).  In the namespace `rt -> "<asn>:100"`, `asn -> "64512"` the key
`rt` resolves to `64512:100`, yet the reverse map (in either iteration order) has the entry
`"<asn>:100" -> rt`, whose left side is not the resolved value of `rt`, and the resolved
value `64512:100` is not a key of it. -/
theorem newResolver_reverse_keeps_raw_values :
    resolveString templateExample 2 "<asn>:100" = some "64512:100" ∧
      mapGet (newResolver id templateExample []).reverseAliases "<asn>:100" = some "rt" ∧
      mapGet (newResolver id templateExample []).reverseAliases "64512:100" = none ∧
      mapGet (newResolver List.reverse templateExample []).reverseAliases "<asn>:100"
        = some "rt" ∧
      mapGet (newResolver List.reverse templateExample []).reverseAliases "64512:100" = none := by
  decide

/-- C21 (amended).  For every final alias namespace `N` and exclusion list `E`, whatever the
iteration order, the reverse alias map `R` maps the values stored in `N`, as they stand
(not resolved), to their keys: every entry `v -> k` of `R` has `k` in `N` with `N[k] = v`
and `k` not in `E`; for every key `k` of `N` outside `E` the value `N[k]` is a key of `R`,
mapped to a key outside `E` with that same value; `R` has one entry per value.  When the
value `v` holds no alias token it is its own resolved value. -/
theorem newResolver_reverse_of_stored_values
    (ord : GoMap String String → GoMap String String) (hord : IsOrder ord)
    (N : GoMap String String) (hN : GoMap.WF N) (E : List String) :
    (∀ v k, mapGet (newResolver ord N E).reverseAliases v = some k →
        mapGet N k = some v ∧ k ∉ E) ∧
      (∀ k v, mapGet N k = some v → k ∉ E →
        ∃ k', mapGet (newResolver ord N E).reverseAliases v = some k' ∧
          mapGet N k' = some v ∧ k' ∉ E) ∧
      GoMap.WF (newResolver ord N E).reverseAliases ∧
      (∀ v k depth, mapGet (newResolver ord N E).reverseAliases v = some k →
        NoAliasToken N v.toList → resolveString N (depth + 1) v = some v) := by
  obtain ⟨h1, h2, h3⟩ := newResolver_reverse ord hord N hN E
  refine ⟨h1, fun k v hk hE => ?_, h3, fun v k depth _ hv => ?_⟩
  · obtain ⟨k', hk'⟩ := Option.isSome_iff_exists.mp (h2 k v hk hE)
    exact ⟨k', hk', h1 v k' hk'⟩
  · unfold resolveString
    rw [resolveChars_unchanged N v.toList depth hv]
    rfl

theorem newResolver_reverse_of_stored_values_witness :
    IsOrder (List.reverse : GoMap String String → GoMap String String) ∧
      GoMap.WF [("a", "1"), ("b", "1"), ("c", "2"), ("d", "<a>")] ∧
      (newResolver List.reverse [("a", "1"), ("b", "1"), ("c", "2"), ("d", "<a>")]
          ["c"]).reverseAliases = [("<a>", "d"), ("1", "a")] ∧
      (newResolver id [("a", "1"), ("b", "1"), ("c", "2"), ("d", "<a>")]
          ["c"]).reverseAliases = [("1", "b"), ("<a>", "d")] ∧
      GoMap.WF (newResolver List.reverse [("a", "1"), ("b", "1"), ("c", "2"), ("d", "<a>")]
          ["c"]).reverseAliases :=
  ⟨fun m => List.reverse_perm m, by decide, by decide, by decide,
    (newResolver_reverse_of_stored_values List.reverse (fun m => List.reverse_perm m)
      [("a", "1"), ("b", "1"), ("c", "2"), ("d", "<a>")] (by decide) ["c"]).2.2.1⟩

/-! ## `buildAclEntry`: sequence number and action -/

/-- A rule with a well-typed `source_list` is translated into one entry: its sequence id is
the rule's sequence number as `uint32`, its action is `DROP` exactly for the action string
`discard` and `ACCEPT` for every other string, and `buildAclSet` stores the entry under the
sequence number. -/
theorem buildAclEntry_translates (toUpper : String → String) (name ruleName : String)
    (rule : PolicyRule) (intent : ResolvedIntent) (h : sourceListOk rule = true)
    (hr : mapGet intent.PolicyRules ruleName = some rule) :
    ∃ e, buildAclEntry toUpper rule intent = .ok e ∧ e.SequenceId = uint32 rule.Sequence ∧
      (e.ForwardingAction = .DROP ↔ rule.Action = "discard") ∧
      (e.ForwardingAction = .ACCEPT ↔ rule.Action ≠ "discard") ∧
      buildAclSet toUpper name [.str ruleName] intent =
        .ok { Name := name, ConfigName := name, AclEntry := [(uint32 rule.Sequence, e)] } := by
  obtain ⟨e, he, hs, ha⟩ := buildAclEntry_ok toUpper rule intent h
  refine ⟨e, he, hs, ?_, ?_, ?_⟩
  · rw [ha]
    by_cases hd : rule.Action = "discard" <;> simp [hd]
  · rw [ha]
    by_cases hd : rule.Action = "discard" <;> simp [hd]
  · simp only [buildAclSet, buildAclEntries, hr, he, mapSet]

/-- C26 (the code at the failing input).  For a rule whose `source_list` starts with a
number, `buildAclEntry` returns no entry: the unchecked assertion `srcList[0].(string)`
panics; the same rule with the list `["10.0.0.0/8"]` is translated. -/
theorem buildAclEntry_panics_on_source_list :
    buildAclEntry asciiUpper (ruleWith 30 [("source_list", .list [.int 5])] "accept")
        (intentWith [] exampleRules) =
      .error (.panic "interface conversion: interface is not string") ∧
    (buildAclEntry asciiUpper (ruleWith 30 [("source_list", .list [.str "10.0.0.0/8"])] "Discard")
        (intentWith [] exampleRules)).toOption.map (fun e => (e.SequenceId, e.ForwardingAction)) =
      some (30, .ACCEPT) :=
  ⟨by decide, by decide⟩

/-! ## Validation before the wire -/

theorem strconvParseUint32_none_of_not_decimal (s : List Char) (h : decimalValue s = none) :
    strconvParseUint32 s = none := by
  unfold strconvParseUint32
  by_cases hs : s = []
  · simp [hs]
  · rw [atoiDigits_decimalValue s hs, h]
    simp [hs]

theorem strconvParseUint32_none_of_large (s : List Char) (n : Nat)
    (h : decimalValue s = some n) (hn : 4294967296 ≤ n) : strconvParseUint32 s = none := by
  unfold strconvParseUint32
  by_cases hs : s = []
  · simp [hs]
  · rw [atoiDigits_decimalValue s hs, h]
    have : ¬ n < 4294967296 := by omega
    simp [hs, this]

theorem buildSwitchedVlanConfig_bad_mode (mode : String) (vlans : List String)
    (h1 : mode ≠ "access") (h2 : mode ≠ "trunk") :
    buildSwitchedVlanConfig mode vlans =
      .error (.error ("unsupported interface mode: " ++ mode)) := by
  unfold buildSwitchedVlanConfig
  simp only [h1, h2, if_false]

theorem buildSwitchedVlanConfig_bad_count (vlans : List String) (h : vlans.length ≠ 1) :
    buildSwitchedVlanConfig "access" vlans =
      .error (.error ("access mode requires exactly one VLAN, got " ++ toString vlans.length)) := by
  unfold buildSwitchedVlanConfig
  simp only [if_true]
  match vlans, h with
  | [], _ => rfl
  | [_], h => exact absurd rfl h
  | _ :: _ :: _, _ => rfl

theorem strconvAtoi_none_of_not_int (cs : List Char) (h : isGoInt cs = false) :
    strconvAtoi cs = none := by
  have := strconvAtoi_isSome cs
  rw [h] at this
  cases hs : strconvAtoi cs with
  | none => rfl
  | some z => rw [hs] at this; exact absurd this (by simp)

theorem buildSwitchedVlanConfig_bad_access (v : String) (h : isGoInt v.toList = false) :
    buildSwitchedVlanConfig "access" [v] =
      .error (.error ("invalid VLAN ID for access mode: " ++ v)) := by
  unfold buildSwitchedVlanConfig
  simp only [if_true, strconvAtoi_none_of_not_int _ h]

theorem buildSwitchedVlanConfig_bad_trunk (vlans : List String)
    (h : ∃ w ∈ vlans, isGoInt w.toList = false) :
    ∃ w ∈ vlans, isGoInt w.toList = false ∧
      buildSwitchedVlanConfig "trunk" vlans =
        .error (.error ("invalid VLAN ID for trunk mode: " ++ w)) := by
  have hne : ¬ ("trunk" = "access") := by decide
  obtain ⟨w, hw, hb, hres⟩ := trunkVlanLoop_error vlans [] h
  refine ⟨w, hw, hb, ?_⟩
  unfold buildSwitchedVlanConfig
  simp only [hne, if_false, if_true, hres]

theorem ConfigBridgeInterface_of_error (d : Device) (port : Port) (action mode : String)
    (vlans : List String) (e : GoError) (ha : action ≠ "delete")
    (h : buildSwitchedVlanConfig mode vlans = .error e) :
    d.ConfigBridgeInterface port action mode vlans = (.error e, []) := by
  unfold Device.ConfigBridgeInterface
  simp only [ha, if_false, h]

theorem ConfigSubInterface_of_error (d : Device) (port : Port) (subIfID : Int)
    (ip service action : String) (e : GoError) (ha : action ≠ "delete")
    (h : buildSubinterfaceIPConfig port.IfName subIfID ip = .error e) :
    d.ConfigSubInterface port subIfID ip service action = (.error e, []) := by
  unfold Device.ConfigSubInterface
  simp only [ha, if_false, h]

theorem ConfigInterfaceSpeed_of_error (d : Device) (port : Port) (speed : String)
    (h : strconvParseUint32 speed.toList = none) :
    d.ConfigInterfaceSpeed port speed =
      (.error (.error ("invalid speed value: " ++ speed)), []) := by
  unfold Device.ConfigInterfaceSpeed
  simp only [h]

theorem gnmiSet_log_ne_nil (d : Device) (log : List SetCall) (pathStr : String)
    (op : Operation) (s : Payload) : (d.gnmiSet log pathStr op s).2 ≠ [] := by
  unfold Device.gnmiSet
  cases StringToPath pathStr with
  | error e => simp
  | ok path =>
    dsimp only
    cases (if op = Operation.DELETE then (Except.ok () : Except GoError Unit)
      else emitJSON s) with
    | error e => simp
    | ok u =>
      dsimp only
      cases d.gnmiClient log ⟨pathStr, op, s, some path⟩ <;> simp

/-- C24.  Validation errors are raised before any wire call.  For an action other than
`delete`, `ConfigBridgeInterface` returns the error of the compiler with no `gnmiSet` call
made when the mode is neither `access` nor `trunk`, when access mode gets a VLAN count other
than one, and when a VLAN ID does not parse; `ConfigSubInterface` does so when the address
has not exactly one `/` or the prefix length does not parse; `ConfigInterfaceSpeed` does so
when the speed is not a decimal numeral or is `2^32` or more.  In each function the list of
calls is empty exactly when the input was rejected. -/
theorem validation_before_wire (d : Device) (port : Port) (action mode : String)
    (vlans : List String) (subIfID : Int) (ip service speed : String)
    (ha : action ≠ "delete") :
    ((∀ e, buildSwitchedVlanConfig mode vlans = .error e →
          d.ConfigBridgeInterface port action mode vlans = (.error e, [])) ∧
        ((d.ConfigBridgeInterface port action mode vlans).2 = [] ↔
          ∃ e, buildSwitchedVlanConfig mode vlans = .error e) ∧
        (mode ≠ "access" → mode ≠ "trunk" →
          d.ConfigBridgeInterface port action mode vlans =
            (.error (.error ("unsupported interface mode: " ++ mode)), [])) ∧
        (vlans.length ≠ 1 →
          d.ConfigBridgeInterface port action "access" vlans =
            (.error (.error ("access mode requires exactly one VLAN, got "
              ++ toString vlans.length)), [])) ∧
        (∀ v : String, isGoInt v.toList = false →
          d.ConfigBridgeInterface port action "access" [v] =
            (.error (.error ("invalid VLAN ID for access mode: " ++ v)), [])) ∧
        ((∃ w ∈ vlans, isGoInt w.toList = false) →
          ∃ w ∈ vlans, isGoInt w.toList = false ∧
            d.ConfigBridgeInterface port action "trunk" vlans =
              (.error (.error ("invalid VLAN ID for trunk mode: " ++ w)), []))) ∧
      ((∀ e, buildSubinterfaceIPConfig port.IfName subIfID ip = .error e →
          d.ConfigSubInterface port subIfID ip service action = (.error e, [])) ∧
        ((d.ConfigSubInterface port subIfID ip service action).2 = [] ↔
          ∃ e, buildSubinterfaceIPConfig port.IfName subIfID ip = .error e) ∧
        (ip.toList.count '/' ≠ 1 →
          d.ConfigSubInterface port subIfID ip service action =
            (.error (.error ("invalid CIDR format: " ++ ip)), [])) ∧
        (ip.toList.count '/' = 1 → isGoInt (afterSlash ip.toList) = false →
          d.ConfigSubInterface port subIfID ip service action =
            (.error (.error ("invalid prefix length: " ++ String.mk (afterSlash ip.toList))),
              []))) ∧
      ((decimalValue speed.toList = none →
          d.ConfigInterfaceSpeed port speed =
            (.error (.error ("invalid speed value: " ++ speed)), [])) ∧
        (∀ n, decimalValue speed.toList = some n → 4294967296 ≤ n →
          d.ConfigInterfaceSpeed port speed =
            (.error (.error ("invalid speed value: " ++ speed)), [])) ∧
        ((d.ConfigInterfaceSpeed port speed).2 = [] ↔
          strconvParseUint32 speed.toList = none)) := by
  refine ⟨⟨?_, ?_, ?_, ?_, ?_, ?_⟩, ⟨?_, ?_, ?_, ?_⟩, ?_, ?_, ?_⟩
  · exact fun e h => ConfigBridgeInterface_of_error d port action mode vlans e ha h
  · constructor
    · intro h
      cases hb : buildSwitchedVlanConfig mode vlans with
      | error e => exact ⟨e, rfl⟩
      | ok cfg =>
        unfold Device.ConfigBridgeInterface at h
        simp only [ha, if_false, hb] at h
        exact absurd h (gnmiSet_log_ne_nil _ _ _ _ _)
    · rintro ⟨e, he⟩
      rw [ConfigBridgeInterface_of_error d port action mode vlans e ha he]
  · exact fun h1 h2 => ConfigBridgeInterface_of_error d port action mode vlans _ ha
      (buildSwitchedVlanConfig_bad_mode mode vlans h1 h2)
  · exact fun h => ConfigBridgeInterface_of_error d port action "access" vlans _ ha
      (buildSwitchedVlanConfig_bad_count vlans h)
  · exact fun v h => ConfigBridgeInterface_of_error d port action "access" [v] _ ha
      (buildSwitchedVlanConfig_bad_access v h)
  · intro h
    obtain ⟨w, hw, hb, hres⟩ := buildSwitchedVlanConfig_bad_trunk vlans h
    exact ⟨w, hw, hb, ConfigBridgeInterface_of_error d port action "trunk" vlans _ ha hres⟩
  · exact fun e h => ConfigSubInterface_of_error d port subIfID ip service action e ha h
  · constructor
    · intro h
      cases hb : buildSubinterfaceIPConfig port.IfName subIfID ip with
      | error e => exact ⟨e, rfl⟩
      | ok subif =>
        unfold Device.ConfigSubInterface at h
        simp only [ha, if_false, hb] at h
        exact absurd h (gnmiSet_log_ne_nil _ _ _ _ _)
    · rintro ⟨e, he⟩
      rw [ConfigSubInterface_of_error d port subIfID ip service action e ha he]
  · exact fun h => ConfigSubInterface_of_error d port subIfID ip service action _ ha
      (buildSubinterfaceIPConfig_bad_split port.IfName subIfID ip h)
  · exact fun h1 h2 => ConfigSubInterface_of_error d port subIfID ip service action _ ha
      (buildSubinterfaceIPConfig_one_slash_none port.IfName subIfID ip h1
        (strconvAtoi_none_of_not_int _ h2))
  · exact fun h => ConfigInterfaceSpeed_of_error d port speed
      (strconvParseUint32_none_of_not_decimal _ h)
  · exact fun n h hn => ConfigInterfaceSpeed_of_error d port speed
      (strconvParseUint32_none_of_large _ n h hn)
  · constructor
    · intro h
      cases hb : strconvParseUint32 speed.toList with
      | none => rfl
      | some n =>
        unfold Device.ConfigInterfaceSpeed at h
        simp only [hb] at h
        exact absurd h (gnmiSet_log_ne_nil _ _ _ _ _)
    · intro h
      rw [ConfigInterfaceSpeed_of_error d port speed h]

theorem validation_before_wire_witness :
    "add" ≠ "delete" ∧ "hybrid" ≠ "access" ∧ "hybrid" ≠ "trunk" ∧
      "10.0.0.1".toList.count '/' ≠ 1 ∧ decimalValue "10G".toList = none ∧
      Device.ConfigBridgeInterface (acceptingDevice (intentWith [] [])) examplePort "add"
          "hybrid" ["100", "x"] =
        (.error (.error ("unsupported interface mode: " ++ "hybrid")), []) ∧
      Device.ConfigSubInterface (acceptingDevice (intentWith [] [])) examplePort 100
          "10.0.0.1" "svc" "add" =
        (.error (.error ("invalid CIDR format: " ++ "10.0.0.1")), []) ∧
      Device.ConfigInterfaceSpeed (acceptingDevice (intentWith [] [])) examplePort "10G" =
        (.error (.error ("invalid speed value: " ++ "10G")), []) ∧
      (Device.ConfigInterfaceSpeed (acceptingDevice (intentWith [] [])) examplePort
          "10000").2.map (fun c => (c.op, c.payload, c.sent.isSome)) =
        [(.UPDATE, .interfaceSpeed "ae0" 10000, true)] :=
  ⟨by decide, by decide, by decide, by decide, by decide,
    (validation_before_wire (acceptingDevice (intentWith [] [])) examplePort "add" "hybrid"
      ["100", "x"] 100 "10.0.0.1" "svc" "10G" (by decide)).1.2.2.1 (by decide) (by decide),
    (validation_before_wire (acceptingDevice (intentWith [] [])) examplePort "add" "hybrid"
      ["100", "x"] 100 "10.0.0.1" "svc" "10G" (by decide)).2.1.2.2.1 (by decide),
    (validation_before_wire (acceptingDevice (intentWith [] [])) examplePort "add" "hybrid"
      ["100", "x"] 100 "10.0.0.1" "svc" "10G" (by decide)).2.2.1 (by decide),
    by decide⟩

/-! ## `ConfigBaseline` -/

theorem applyConfiglet_reads (env : ConfigletEnv) (d : Device) (fx : Effects) (name : String) :
    (d.applyConfiglet env fx name).2.reads = fx.reads ++ [configletFile name] := by
  unfold Device.applyConfiglet
  dsimp only
  cases h : env.readFile (configletFile name) with
  | notExist => rfl
  | failed msg => rfl
  | content payload =>
    dsimp only
    cases h2 : env.unmarshal payload with
    | error msg => rfl
    | ok data => rfl

/-- Whatever the file system and `oc.Unmarshal` answer, `applyConfiglet` does not succeed:
it returns the error of the read or of the unmarshalling, or `gnmiSet` panics on encoding
the struct handed over by value. -/
theorem applyConfiglet_not_ok (env : ConfigletEnv) (d : Device) (fx : Effects) (name : String) :
    (d.applyConfiglet env fx name).1 ≠ .ok () := by
  unfold Device.applyConfiglet
  dsimp only
  cases h : env.readFile (configletFile name) with
  | notExist => simp
  | failed msg => simp
  | content payload =>
    dsimp only
    cases h2 : env.unmarshal payload with
    | error msg => simp
    | ok data => simp [Device.gnmiSet, emitJSON, StringToPath, trimLeadingSlash]

/-- `ConfigBaseline` ends at `system_common` in every surrounding: the only file read is that
of the first configlet, and success is never returned. -/
theorem ConfigBaseline_first_only (env : ConfigletEnv) (d : Device) (fx : Effects) :
    (d.ConfigBaseline env fx).1 ≠ .ok () ∧
      (d.ConfigBaseline env fx).2.reads = fx.reads ++ [configletFile "system_common"] := by
  have hnot := applyConfiglet_not_ok env d fx "system_common"
  have hreads := applyConfiglet_reads env d fx "system_common"
  unfold Device.ConfigBaseline
  cases h1 : d.applyConfiglet env fx "system_common" with
  | mk r1 fx1 =>
    rw [h1] at hnot hreads
    cases r1 with
    | error e1 => exact ⟨by simp, hreads⟩
    | ok u1 => exact absurd rfl hnot

/-- C25 (the code at the failing input).  With every configlet file present and well formed,
`ConfigBaseline` reads the file of `system_common` and then panics inside `gnmiSet`:
`applyConfiglet` hands the struct `oc.Device` over by value, which `ygot.EmitJSON` cannot
encode.  The one call of `gnmiSet` sends no request (`sent` is `none`), no error is returned
to the caller, and `qos_common` and `routing_common` are not attempted. -/
theorem ConfigBaseline_panics_at_system_common :
    Device.ConfigBaseline allConfiglets (acceptingDevice (intentWith [] [])) ⟨[], []⟩ =
      (.error (.panic "reflect: call of reflect.Value.Elem on struct Value"),
        ⟨["pkg/device/configlets/system_common.json"],
          [⟨"/", .REPLACE, .device ⟨"pkg/device/configlets/system_common.json"⟩, none⟩]⟩) ∧
    (Device.ConfigBaseline allConfiglets (acceptingDevice (intentWith [] []))
        ⟨[], []⟩).2.calls.filter (fun c => c.sent.isSome) = [] := by
  decide

/-! ## `expandPortRanges` -/

theorem splitOn_no_dash (cs : List Char) (h : '-' ∉ cs) : cs.splitOn '-' = [cs] := by
  unfold List.splitOn
  apply List.splitOnP_eq_single
  intro x hx hxe
  have : x = '-' := by simpa using hxe
  subst this
  exact h hx

theorem splitOn_one_dash (a b : List Char) (ha : '-' ∉ a) (hb : '-' ∉ b) :
    (a ++ '-' :: b).splitOn '-' = [a, b] := by
  have h : (['-'].intercalate [a, b]).splitOn '-' = [a, b] :=
    List.splitOn_intercalate [a, b] '-'
      (by
        intro l hl
        simp only [List.mem_cons, List.mem_singleton, List.not_mem_nil, or_false] at hl
        rcases hl with rfl | rfl
        · exact ha
        · exact hb)
      (by simp)
  simpa [List.intercalate, List.intersperse] using h

theorem decimalValue_no_dash (cs : List Char) (n : Nat) (h : decimalValue cs = some n) :
    '-' ∉ cs := by
  unfold decimalValue at h
  by_cases hd : cs ≠ [] ∧ cs.all Char.isDigit = true
  · intro hm
    have := List.all_eq_true.mp hd.2 _ hm
    exact absurd this (by decide)
  · rw [if_neg hd] at h
    exact absurd h (by simp)

theorem strconvItoa_natCast (n : Nat) : strconvItoa (n : Int) = Nat.repr n := rfl

theorem portRangeLoop_ok (end_ : Int) (hend : end_ < 9223372036854775807) :
    ∀ (k rounds : Nat) (i : Int) (ports : List String), i + k = end_ + 1 → k < rounds →
      portRangeLoop end_ rounds i ports =
        some (ports ++ (List.range k).map (fun j => strconvItoa (i + (j : Nat)))) := by
  intro k
  induction k with
  | zero =>
    intro rounds i ports hi hr
    obtain ⟨r, rfl⟩ : ∃ r, rounds = r + 1 := ⟨rounds - 1, by omega⟩
    have : ¬ i ≤ end_ := by omega
    simp [portRangeLoop, this]
  | succ k ih =>
    intro rounds i ports hi hr
    obtain ⟨r, rfl⟩ : ∃ r, rounds = r + 1 := ⟨rounds - 1, by omega⟩
    have hle : i ≤ end_ := by omega
    have hne : ¬ i = 9223372036854775807 := by omega
    simp only [portRangeLoop, hle, if_true, intSucc, hne, if_false]
    rw [ih r (i + 1) _ (by omega) (by omega), List.range_succ_eq_map]
    simp only [List.map_cons, List.map_map, List.append_assoc, List.singleton_append,
      Nat.cast_zero, add_zero]
    congr 3
    apply List.map_congr_left
    intro j _
    simp only [Function.comp, Nat.cast_succ]
    congr 1
    omega

theorem length_splitOn_dash (cs : List Char) : (cs.splitOn '-').length = cs.count '-' + 1 := by
  unfold List.splitOn
  induction cs with
  | nil => simp [List.splitOnP_nil]
  | cons c cs ih =>
    rw [List.splitOnP_cons]
    by_cases hc : c = '-'
    · subst hc
      simp [ih]
    · have hne : (c == '-') = false := by simpa using hc
      have hcount : List.count '-' (c :: cs) = List.count '-' cs := by
        rw [List.count_cons]
        simp [hne]
      simp only [hne, Bool.false_eq_true, if_false, hcount, ← ih]
      generalize List.splitOnP (fun x => x == '-') cs = l
      cases l <;> simp [List.modifyHead]

/-- One round of the loop of `expandPortRanges` on a valid item. -/
theorem expandPortRangesLoop_valid (rounds : Nat) (it : PortItem) (rest ports : List String)
    (hv : it.Valid) (hr : it.size < rounds) :
    expandPortRangesLoop rounds (it.text :: rest) ports =
      expandPortRangesLoop rounds rest (ports ++ it.ports) := by
  cases it with
  | token t =>
    have hs : (PortItem.token t).text.toList.splitOn '-' = [t] := splitOn_no_dash t hv
    simp only [expandPortRangesLoop, hs, PortItem.ports]
  | range a b m n =>
    obtain ⟨ha, hb, hmn, hn⟩ := hv
    have hs : (PortItem.range a b m n).text.toList.splitOn '-' = [a, b] :=
      splitOn_one_dash a b (decimalValue_no_dash a m ha) (decimalValue_no_dash b n hb)
    have hgt : ¬ ((m : Int) > (n : Int)) := by omega
    have hloop := portRangeLoop_ok (n : Int) (by omega) (n - m + 1) rounds (m : Int) ports
      (by omega) hr
    have hmap : (List.range (n - m + 1)).map (fun j => strconvItoa ((m : Int) + (j : Nat))) =
        (List.range (n - m + 1)).map (fun j => Nat.repr (m + j)) := by
      apply List.map_congr_left
      intro j _
      rw [← strconvItoa_natCast]
      congr 1
    rw [hmap] at hloop
    simp only [expandPortRangesLoop, hs, strconvAtoi_decimal a m ha (by omega),
      strconvAtoi_decimal b n hb (by omega), hgt, if_false, hloop, PortItem.ports]

theorem expandPortRangesLoop_items (rounds : Nat) (items : List PortItem) :
    ∀ (rest ports : List String), (∀ it ∈ items, it.Valid) → (∀ it ∈ items, it.size < rounds) →
      expandPortRangesLoop rounds (items.map PortItem.text ++ rest) ports =
        expandPortRangesLoop rounds rest (ports ++ (items.map PortItem.ports).flatten) := by
  induction items with
  | nil => intro rest ports _ _; simp
  | cons it items ih =>
    intro rest ports hv hr
    rw [List.map_cons, List.cons_append,
      expandPortRangesLoop_valid rounds it _ ports (hv it (List.mem_cons_self _ _))
        (hr it (List.mem_cons_self _ _)),
      ih rest _ (fun x hx => hv x (List.mem_cons_of_mem _ hx))
        (fun x hx => hr x (List.mem_cons_of_mem _ hx))]
    simp

theorem expandPortRangesLoop_dashes (rounds : Nat) (r : String) (rest ports : List String)
    (h : 2 ≤ r.toList.count '-') :
    expandPortRangesLoop rounds (r :: rest) ports =
      some (.error (.error ("invalid range format: " ++ r))) := by
  have hl := length_splitOn_dash r.toList
  unfold expandPortRangesLoop
  split
  · rename_i part heq
    rw [heq] at hl
    simp only [List.length_cons, List.length_nil] at hl
    omega
  · rename_i part0 part1 heq
    rw [heq] at hl
    simp only [List.length_cons, List.length_nil] at hl
    omega
  · rfl

theorem expandPortRangesLoop_not_int (rounds : Nat) (a b : List Char) (rest ports : List String)
    (ha : '-' ∉ a) (hb : '-' ∉ b) (h : isGoInt a = false ∨ isGoInt b = false) :
    expandPortRangesLoop rounds (String.mk (a ++ '-' :: b) :: rest) ports =
      some (.error (.error ("invalid range: " ++ String.mk (a ++ '-' :: b)))) := by
  have hs : (String.mk (a ++ '-' :: b)).toList.splitOn '-' = [a, b] := splitOn_one_dash a b ha hb
  rcases h with h | h
  · simp only [expandPortRangesLoop, hs, strconvAtoi_none_of_not_int a h]
  · simp only [expandPortRangesLoop, hs, strconvAtoi_none_of_not_int b h]
    cases strconvAtoi a <;> rfl

theorem expandPortRangesLoop_descending (rounds : Nat) (a b : List Char) (m n : Nat)
    (rest ports : List String) (ha : decimalValue a = some m) (hb : decimalValue b = some n)
    (h : n < m) :
    expandPortRangesLoop rounds (String.mk (a ++ '-' :: b) :: rest) ports =
      some (.error (.error ("invalid range: " ++ String.mk (a ++ '-' :: b)))) := by
  have hs : (String.mk (a ++ '-' :: b)).toList.splitOn '-' = [a, b] :=
    splitOn_one_dash a b (decimalValue_no_dash a m ha) (decimalValue_no_dash b n hb)
  by_cases hm : m < 9223372036854775808
  · have hn : n < 9223372036854775808 := by omega
    have hgt : (m : Int) > (n : Int) := by omega
    simp only [expandPortRangesLoop, hs, strconvAtoi_decimal a m ha hm,
      strconvAtoi_decimal b n hb hn, hgt, if_true]
  · have hna : strconvAtoi a = none := by
      rw [strconvAtoi_eq]
      cases a with
      | nil => simp [decimalValue_nil] at ha
      | cons c cs =>
        have hc := decimalValue_head c cs m ha
        have h1 : c ≠ '-' := by intro e; subst e; exact absurd hc (by decide)
        have h2 : c ≠ '+' := by intro e; subst e; exact absurd hc (by decide)
        have h3 : ¬ ((m : Int) ≤ 9223372036854775807) := by omega
        simp [signedDecimalValue, h1, h2, ha, Option.filter, fitsInt, h3]
    simp only [expandPortRangesLoop, hs, hna]

/-- With the largest `int` as upper bound the loop condition `i <= end` never fails. -/
theorem portRangeLoop_unbounded :
    ∀ (rounds : Nat) (i : Int) (ports : List String), i ≤ 9223372036854775807 →
      portRangeLoop 9223372036854775807 rounds i ports = none := by
  intro rounds
  induction rounds with
  | zero => intro i ports _; rfl
  | succ r ih =>
    intro i ports hi
    simp only [portRangeLoop, hi, if_true]
    apply ih
    unfold intSucc
    split <;> omega

/-- C27 (counterexample).  Both items are of the form `a-b` with decimal `a ≤ b`.  On the
first, whose numerals exceed a Go `int`, `strconv.Atoi` fails and `expandPortRanges` returns
the invalid-range error; on the second, whose upper bound is the largest `int`, the loop
condition `i <= end` holds for every `i` and the call returns within no bound. -/
theorem expandPortRanges_large_numerals :
    decimalValue "9223372036854775808".toList = some 9223372036854775808 ∧
      decimalValue "9223372036854775807".toList = some 9223372036854775807 ∧
      (∀ rounds, expandPortRanges rounds ["9223372036854775808-9223372036854775808"] =
        some (.error (.error "invalid range: 9223372036854775808-9223372036854775808"))) ∧
      (∀ rounds, expandPortRanges rounds ["9223372036854775807-9223372036854775807"] = none) := by
  refine ⟨by decide, by decide, fun rounds => ?_, fun rounds => ?_⟩
  · have hs : "9223372036854775808-9223372036854775808".toList.splitOn '-' =
        ["9223372036854775808".toList, "9223372036854775808".toList] := by decide
    have ha : strconvAtoi "9223372036854775808".toList = none := by decide
    simp only [expandPortRanges, expandPortRangesLoop, hs, ha]
    rfl
  · have hs : "9223372036854775807-9223372036854775807".toList.splitOn '-' =
        ["9223372036854775807".toList, "9223372036854775807".toList] := by decide
    have ha : strconvAtoi "9223372036854775807".toList = some 9223372036854775807 := by decide
    have hgt : ¬ ((9223372036854775807 : Int) > 9223372036854775807) := by decide
    simp only [expandPortRanges, expandPortRangesLoop, hs, ha, hgt, if_false,
      portRangeLoop_unbounded rounds 9223372036854775807 [] (le_refl _)]

/-- C27 (amended).  For every list of range strings in which each item is a token without
`-` or `a-b` with decimal numerals of values `m ≤ n`, `n` below the largest Go `int`
(`2^63 - 1`), `expandPortRanges` returns (within every bound above the range sizes) the
concatenation, in input order, of the token itself or of the decimal numerals of
`m, m+1, ..., n` (`n - m + 1` of them).  After such items it fails on an item with more
than one `-`, on an item `a-b` with a bound that `strconv.Atoi` rejects, and on an item
`a-b` with decimal `a > b`. -/
theorem expandPortRanges_spec (items : List PortItem) (rounds : Nat)
    (hv : ∀ it ∈ items, it.Valid) (hr : ∀ it ∈ items, it.size < rounds) :
    expandPortRanges rounds (items.map PortItem.text) =
        some (.ok (items.map PortItem.ports).flatten) ∧
      (∀ a b m n, (PortItem.range a b m n).ports.length = n - m + 1) ∧
      (∀ (r : String) (rest : List String), 2 ≤ r.toList.count '-' →
        expandPortRanges rounds (items.map PortItem.text ++ r :: rest) =
          some (.error (.error ("invalid range format: " ++ r)))) ∧
      (∀ (a b : List Char) (rest : List String), '-' ∉ a → '-' ∉ b →
        isGoInt a = false ∨ isGoInt b = false →
        expandPortRanges rounds (items.map PortItem.text ++ String.mk (a ++ '-' :: b) :: rest) =
          some (.error (.error ("invalid range: " ++ String.mk (a ++ '-' :: b))))) ∧
      (∀ (a b : List Char) (m n : Nat) (rest : List String), decimalValue a = some m →
        decimalValue b = some n → n < m →
        expandPortRanges rounds (items.map PortItem.text ++ String.mk (a ++ '-' :: b) :: rest) =
          some (.error (.error ("invalid range: " ++ String.mk (a ++ '-' :: b))))) := by
  refine ⟨?_, ?_, ?_, ?_, ?_⟩
  · have := expandPortRangesLoop_items rounds items [] [] hv hr
    simpa [expandPortRanges, expandPortRangesLoop] using this
  · intro a b m n
    simp [PortItem.ports]
  · intro r rest h
    unfold expandPortRanges
    rw [expandPortRangesLoop_items rounds items _ [] hv hr,
      expandPortRangesLoop_dashes rounds r rest _ h]
  · intro a b rest ha hb h
    unfold expandPortRanges
    rw [expandPortRangesLoop_items rounds items _ [] hv hr,
      expandPortRangesLoop_not_int rounds a b rest _ ha hb h]
  · intro a b m n rest ha hb h
    unfold expandPortRanges
    rw [expandPortRangesLoop_items rounds items _ [] hv hr,
      expandPortRangesLoop_descending rounds a b m n rest _ ha hb h]

theorem expandPortRanges_spec_witness :
    (∀ it ∈ [PortItem.range "0".toList "255".toList 0 255, PortItem.token "511".toList],
        it.Valid) ∧
      (∀ it ∈ [PortItem.range "0".toList "255".toList 0 255, PortItem.token "511".toList],
        it.size < 257) ∧
      expandPortRanges 257 ["0-255", "511"] =
        some (.ok ((List.range 256).map Nat.repr ++ ["511"])) ∧
      expandPortRanges 4 ["1-3", "ae", "07-8"] = some (.ok ["1", "2", "3", "ae", "7", "8"]) ∧
      expandPortRanges 4 ["1-3", "3-1"] = some (.error (.error "invalid range: 3-1")) ∧
      expandPortRanges 4 ["1-3", "1-2-3"] =
        some (.error (.error "invalid range format: 1-2-3")) ∧
      expandPortRanges 4 ["1-x"] = some (.error (.error "invalid range: 1-x")) := by
  have hv : ∀ it ∈ [PortItem.range "0".toList "255".toList 0 255, PortItem.token "511".toList],
      it.Valid := by
    intro it hit
    simp only [List.mem_cons, List.mem_singleton, List.not_mem_nil, or_false] at hit
    rcases hit with rfl | rfl
    · exact ⟨by decide, by decide, by decide, by decide⟩
    · show '-' ∉ "511".toList
      decide
  have hr : ∀ it ∈ [PortItem.range "0".toList "255".toList 0 255, PortItem.token "511".toList],
      it.size < 257 := by
    intro it hit
    simp only [List.mem_cons, List.mem_singleton, List.not_mem_nil, or_false] at hit
    rcases hit with rfl | rfl <;> simp [PortItem.size]
  refine ⟨hv, hr, ?_, by decide, by decide, by decide, by decide⟩
  have h := (expandPortRanges_spec
    [PortItem.range "0".toList "255".toList 0 255, PortItem.token "511".toList] 257 hv hr).1
  simpa [PortItem.text, PortItem.ports] using h

/-! ## `StringToPath`: well-formed path strings -/

theorem takeWhile_append_stop {α : Type} (p : α → Bool) (a b : List α)
    (ha : ∀ c ∈ a, p c = true) (hb : ∀ c ∈ b.head?, p c = false) :
    (a ++ b).takeWhile p = a ∧ (a ++ b).dropWhile p = b := by
  induction a with
  | nil =>
    cases b with
    | nil => simp
    | cons c b =>
      have := hb c (by simp)
      simp [List.takeWhile, List.dropWhile, this]
  | cons c a ih =>
    have hc := ha c (List.mem_cons_self _ _)
    have := ih (fun x hx => ha x (List.mem_cons_of_mem _ hx))
    simp [List.takeWhile, List.dropWhile, hc, this]

theorem beforeLastBracket_append (v : List Char) : beforeLastBracket (v ++ [']']) = some v := by
  induction v with
  | nil => simp [beforeLastBracket]
  | cons c v ih => simp [beforeLastBracket, ih]

theorem pathValueAt_value (v : List Char) (hq : quote ∉ v) :
    pathValueAt (v ++ [']']) = some v := by
  have hall : ∀ c ∈ v ++ [']'], (fun c => c != quote) c = true := by
    intro c hc
    rcases List.mem_append.mp hc with h | h
    · have : c ≠ quote := fun e => hq (e ▸ h)
      simpa using this
    · have : c = ']' := by simpa using h
      subst this
      decide
  have h := takeWhile_append_stop (fun c => c != quote) (v ++ [']']) [] hall (by simp)
  rw [List.append_nil] at h
  unfold pathValueAt
  simp only [h.1, h.2]
  exact beforeLastBracket_append v

theorem pathSelectorValueAt_value (v : List Char) (hv : v ≠ []) (hq : quote ∉ v) :
    pathSelectorValueAt (v ++ [']']) = some v := by
  cases v with
  | nil => exact absurd rfl hv
  | cons c r =>
    have hc : ¬ c = quote := fun e => hq (e ▸ List.mem_cons_self _ _)
    have := pathValueAt_value (c :: r) hq
    simp only [List.cons_append] at this ⊢
    simp only [pathSelectorValueAt, hc, if_false, this]

theorem pathSelectorAt_selector (key value : List Char) (hk : key ≠ [])
    (hkc : ∀ c ∈ key, isPathChar c = true) (hv : value ≠ []) (hq : quote ∉ value) :
    pathSelectorAt ('[' :: (key ++ '=' :: (value ++ [']']))) = some (key, value) := by
  have h := takeWhile_append_stop isPathChar key ('=' :: (value ++ [']'])) hkc
    (by intro c hc; simp at hc; subst hc; decide)
  simp only [pathSelectorAt, if_true, h.1, h.2, hk, if_false,
    pathSelectorValueAt_value value hv hq, Option.map_some']

theorem pathElementSubmatch_segment (s : PathSegment) (h : s.Valid) :
    pathElementSubmatch s.text =
      some (s.name, (s.selector.map Prod.fst).getD [], (s.selector.map Prod.snd).getD []) := by
  obtain ⟨hn, hnc, hsel⟩ := h
  obtain ⟨name, selector⟩ := s
  simp only at hn hnc hsel
  cases name with
  | nil => exact absurd rfl hn
  | cons c0 rest =>
    have hc0 : isPathChar c0 = true := hnc c0 (List.mem_cons_self _ _)
    cases selector with
    | none =>
      have h := takeWhile_append_stop isPathChar (c0 :: rest) [] hnc (by simp)
      rw [List.append_nil] at h
      simp [pathElementSubmatch, PathSegment.text, List.dropWhile, hc0, h.1, h.2,
        pathSelectorAt]
    | some kv =>
      obtain ⟨key, value⟩ := kv
      obtain ⟨hk, hkc, hv, _, hq⟩ := hsel key value rfl
      have h := takeWhile_append_stop isPathChar (c0 :: rest)
        ('[' :: (key ++ '=' :: (value ++ [']']))) hnc
        (by intro c hc; simp at hc; subst hc; decide)
      have hd : List.dropWhile (fun c => !isPathChar c)
          (c0 :: rest ++ '[' :: (key ++ '=' :: (value ++ [']']))) =
          c0 :: rest ++ '[' :: (key ++ '=' :: (value ++ [']'])) := by
        simp [List.dropWhile, hc0]
      simp only [pathElementSubmatch, PathSegment.text, hd, h.1, h.2,
        pathSelectorAt_selector key value hk hkc hv hq]
      simp

theorem isPathChar_ne_slash (c : Char) (h : isPathChar c = true) : c ≠ '/' := by
  intro e
  subst e
  exact absurd h (by decide)

theorem segmentText_no_slash (p : Option PathSegment) (h : ∀ s, p = some s → s.Valid) :
    '/' ∉ segmentText p := by
  cases p with
  | none => simp [segmentText]
  | some s =>
    obtain ⟨_, hnc, hsel⟩ := h s rfl
    obtain ⟨name, selector⟩ := s
    simp only at hnc hsel
    cases selector with
    | none =>
      intro hm
      exact isPathChar_ne_slash _ (hnc _ hm) rfl
    | some kv =>
      obtain ⟨key, value⟩ := kv
      obtain ⟨_, hkc, _, hs, _⟩ := hsel key value rfl
      intro hm
      simp only [segmentText, PathSegment.text, List.mem_append, List.mem_cons,
        List.mem_singleton, List.not_mem_nil, or_false] at hm
      rcases hm with hm | hm | hm | hm | hm | hm
      · exact isPathChar_ne_slash _ (hnc _ hm) rfl
      · exact absurd hm (by decide)
      · exact isPathChar_ne_slash _ (hkc _ hm) rfl
      · exact absurd hm (by decide)
      · exact hs hm
      · exact absurd hm (by decide)

theorem stringToPathElems_parts (parts : List (Option PathSegment))
    (h : ∀ s, some s ∈ parts → s.Valid) :
    stringToPathElems (parts.map segmentText) =
      .ok ((parts.filterMap id).map PathSegment.elem) := by
  induction parts with
  | nil => rfl
  | cons p parts ih =>
    have ih' := ih (fun s hs => h s (List.mem_cons_of_mem _ hs))
    cases p with
    | none =>
      simp only [List.map_cons, segmentText, stringToPathElems, if_true, ih']
      rfl
    | some s =>
      have hv := h s (List.mem_cons_self _ _)
      have hne : s.text ≠ [] := by
        obtain ⟨hn, _, _⟩ := hv
        obtain ⟨name, selector⟩ := s
        cases selector with
        | none => exact hn
        | some kv =>
          cases name with
          | nil => exact absurd rfl hn
          | cons c r => simp [PathSegment.text]
      have helem : (⟨String.mk s.name,
          if (s.selector.map Prod.fst).getD [] ≠ [] ∧ (s.selector.map Prod.snd).getD [] ≠ []
            then [(String.mk ((s.selector.map Prod.fst).getD []),
              String.mk ((s.selector.map Prod.snd).getD []))] else []⟩ : PathElem) = s.elem := by
        obtain ⟨_, _, hsel⟩ := hv
        obtain ⟨name, selector⟩ := s
        cases selector with
        | none => simp [PathSegment.elem]
        | some kv =>
          obtain ⟨key, value⟩ := kv
          obtain ⟨hk, _, hv', _, _⟩ := hsel key value rfl
          simp [PathSegment.elem, hk, hv']
      simp only [List.map_cons, segmentText, stringToPathElems, hne, if_false,
        pathElementSubmatch_segment s hv, ih', helem]
      rfl

/-- C28.  For every path string `/s1/.../sn` in which each segment is empty or is `name` or
`name[key=value]`, name and key non-empty over letters, digits, `-`, `:` and `_`, the value
non-empty without `/` and without single quote, `StringToPath` succeeds and returns the
origin `openconfig` and, in order, one element per non-empty segment: it carries the name
and the key map `{key: value}` when the segment has a selector, and no key otherwise.  The
strings `""` and `"/"` give no elements. -/
theorem StringToPath_segments (parts : List (Option PathSegment))
    (h : ∀ s, some s ∈ parts → s.Valid) :
    StringToPath (pathText parts) =
        .ok { Origin := "openconfig", Elem := (parts.filterMap id).map PathSegment.elem } ∧
      ((parts.filterMap id).map PathSegment.elem).length = (parts.filterMap id).length ∧
      StringToPath "" = .ok { Origin := "openconfig", Elem := [] } ∧
      StringToPath "/" = .ok { Origin := "openconfig", Elem := [] } := by
  refine ⟨?_, by simp, by decide, by decide⟩
  have hloop := stringToPathElems_parts parts h
  have htrim : trimLeadingSlash (pathText parts).toList =
      ['/'].intercalate (parts.map segmentText) := by
    simp [pathText, trimLeadingSlash]
  unfold StringToPath
  simp only [htrim]
  cases parts with
  | nil => rfl
  | cons p ps =>
    have hsplit : (['/'].intercalate ((p :: ps).map segmentText)).splitOn '/' =
        (p :: ps).map segmentText := by
      apply List.splitOn_intercalate
      · intro l hl
        obtain ⟨q, hq, rfl⟩ := List.mem_map.mp hl
        exact segmentText_no_slash q (fun s hs => h s (hs ▸ hq))
      · simp
    by_cases hnil : ['/'].intercalate ((p :: ps).map segmentText) = []
    · rw [hnil] at hsplit
      rw [← hsplit] at hloop
      have h0 : stringToPathElems (([] : List Char).splitOn '/') = .ok [] := by decide
      rw [h0] at hloop
      simp only [hnil, if_true]
      have := Except.ok.inj hloop
      rw [← this]
    · simp only [hnil, if_false, hsplit, hloop]

theorem StringToPath_segments_witness :
    (∀ s, some s ∈ examplePathParts → s.Valid) ∧
      pathText examplePathParts = "/interfaces/interface[name=ae0]//config" ∧
      StringToPath "/interfaces/interface[name=ae0]//config" =
        .ok { Origin := "openconfig",
              Elem := [⟨"interfaces", []⟩, ⟨"interface", [("name", "ae0")]⟩, ⟨"config", []⟩] } := by
  have hv : ∀ s, some s ∈ examplePathParts → s.Valid := by
    intro s hs
    simp only [examplePathParts, List.mem_cons, Option.some.injEq, List.mem_singleton,
      List.not_mem_nil, or_false, reduceCtorEq, false_or] at hs
    rcases hs with rfl | rfl | rfl
    · exact ⟨by decide, by decide, fun key value h => by cases h⟩
    · refine ⟨by decide, by decide, fun key value h => ?_⟩
      simp only [Option.some.injEq, Prod.mk.injEq] at h
      obtain ⟨rfl, rfl⟩ := h
      exact ⟨by decide, by decide, by decide, by decide, by decide⟩
    · exact ⟨by decide, by decide, fun key value h => by cases h⟩
  have ht : pathText examplePathParts = "/interfaces/interface[name=ae0]//config" := by decide
  refine ⟨hv, ht, ?_⟩
  have h := (StringToPath_segments examplePathParts hv).1
  rw [ht] at h
  exact h.trans (by decide)

/-! ## `Resolve`: the input layers are not written to -/

theorem Heap.Extends.refl (h : Heap) : Heap.Extends h h :=
  ⟨List.prefix_refl _, List.prefix_refl _⟩

theorem Heap.Extends.newStrings {h0 h : Heap} (he : Heap.Extends h0 h)
    (m : GoMap String String) : Heap.Extends h0 (h.newStrings m).1 :=
  ⟨he.1.trans (List.prefix_append _ _), he.2⟩

theorem Heap.Extends.newSlices {h0 h : Heap} (he : Heap.Extends h0 h)
    (m : GoMap String (List String)) : Heap.Extends h0 (h.newSlices m).1 :=
  ⟨he.1, he.2.trans (List.prefix_append _ _)⟩

theorem isPrefix_set_of_le {α : Type} (l0 l : List α) (a : Nat) (x : α) (hp : l0 <+: l)
    (ha : l0.length ≤ a) : l0 <+: l.set a x := by
  obtain ⟨t, rfl⟩ := hp
  rw [List.set_append_right a x ha]
  exact List.prefix_append _ _

theorem Heap.Extends.setString {h0 h : Heap} (he : Heap.Extends h0 h) (a : Nat)
    (ha : h0.stringMaps.length ≤ a) (k v : String) : Heap.Extends h0 (h.setString a k v) :=
  ⟨isPrefix_set_of_le _ _ a _ he.1 ha, he.2⟩

theorem Heap.Extends.setSlice {h0 h : Heap} (he : Heap.Extends h0 h) (a : Nat)
    (ha : h0.sliceMaps.length ≤ a) (k : String) (v : List String) :
    Heap.Extends h0 (h.setSlice a k v) :=
  ⟨he.1, isPrefix_set_of_le _ _ a _ he.2 ha⟩

theorem foldl_setString_extends (h0 : Heap) (a : Nat) (ha : h0.stringMaps.length ≤ a)
    (l : GoMap String String) :
    ∀ h, Heap.Extends h0 h →
      Heap.Extends h0 (l.foldl (fun h kv => h.setString a kv.1 kv.2) h) := by
  induction l with
  | nil => intro h he; exact he
  | cons e l ih => intro h he; exact ih _ (he.setString a ha e.1 e.2)

theorem foldl_setSlice_extends (h0 : Heap) (a : Nat) (ha : h0.sliceMaps.length ≤ a)
    (l : GoMap String (List String)) :
    ∀ h, Heap.Extends h0 h →
      Heap.Extends h0 (l.foldl (fun h kv => h.setSlice a kv.1 kv.2) h) := by
  induction l with
  | nil => intro h he; exact he
  | cons e l ih => intro h he; exact ih _ (he.setSlice a ha e.1 e.2)

theorem Heap.Extends.mergeStrings {h0 h : Heap} (he : Heap.Extends h0 h) (dest : Nat)
    (hd : h0.stringMaps.length ≤ dest) (source : MapRef) :
    Heap.Extends h0 (mergeStringMapsAt h dest source) :=
  foldl_setString_extends h0 dest hd _ h he

theorem Heap.Extends.mergeSlices {h0 h : Heap} (he : Heap.Extends h0 h) (dest : Nat)
    (hd : h0.sliceMaps.length ≤ dest) (source : MapRef) :
    Heap.Extends h0 (mergeStringSliceMapsAt h dest source) :=
  foldl_setSlice_extends h0 dest hd _ h he

/-- An object of the first heap reads the same in a heap that extends it. -/
theorem Heap.Extends.strings {h0 h : Heap} (he : Heap.Extends h0 h) (r : MapRef)
    (hr : ∀ a, r = some a → a < h0.stringMaps.length) : h.strings r = h0.strings r := by
  cases r with
  | none => rfl
  | some a =>
    obtain ⟨t, ht⟩ := he.1
    simp only [Heap.strings, ← ht]
    exact List.getD_append _ _ _ _ (hr a rfl)

theorem Heap.Extends.slices {h0 h : Heap} (he : Heap.Extends h0 h) (r : MapRef)
    (hr : ∀ a, r = some a → a < h0.sliceMaps.length) : h.slices r = h0.slices r := by
  cases r with
  | none => rfl
  | some a =>
    obtain ⟨t, ht⟩ := he.2
    simp only [Heap.slices, ← ht]
    exact List.getD_append _ _ _ _ (hr a rfl)

theorem set_getD_self {α : Type} (l : List α) (a : Nat) (d : α) : l.set a (l.getD a d) = l := by
  induction l generalizing a with
  | nil => rfl
  | cons x l ih =>
    cases a with
    | zero => rfl
    | succ a =>
      simp only [List.set_cons_succ, List.getD_cons_succ]
      rw [ih]

theorem getD_set_self {α : Type} (l : List α) (a : Nat) (x d : α) (h : a < l.length) :
    (l.set a x).getD a d = x := by
  simp [List.getD_eq_getElem?_getD, List.getElem?_set_self h]

/-- The writes of a merge, taken together: the object at `dest` gets the merged entries. -/
theorem foldl_setString_eq (a : Nat) (l : GoMap String String) :
    ∀ h : Heap, l.foldl (fun h kv => h.setString a kv.1 kv.2) h =
      { stringMaps :=
          h.stringMaps.set a (l.foldl (fun d kv => mapSet d kv.1 kv.2) (h.stringMaps.getD a [])),
        sliceMaps := h.sliceMaps } := by
  induction l with
  | nil => intro h; simp only [List.foldl_nil, set_getD_self]
  | cons e l ih =>
    intro h
    rw [List.foldl_cons, ih]
    by_cases ha : a < h.stringMaps.length
    · simp only [Heap.setString, getD_set_self _ _ _ _ ha, List.set_set, List.foldl_cons]
    · have hset : ∀ x, h.stringMaps.set a x = h.stringMaps := fun x =>
        List.set_eq_of_length_le (by omega)
      simp only [Heap.setString, hset]

theorem foldl_setSlice_eq (a : Nat) (l : GoMap String (List String)) :
    ∀ h : Heap, l.foldl (fun h kv => h.setSlice a kv.1 kv.2) h =
      { stringMaps := h.stringMaps,
        sliceMaps :=
          h.sliceMaps.set a (l.foldl (fun d kv => mapSet d kv.1 kv.2) (h.sliceMaps.getD a [])) } := by
  induction l with
  | nil => intro h; simp only [List.foldl_nil, set_getD_self]
  | cons e l ih =>
    intro h
    rw [List.foldl_cons, ih]
    by_cases ha : a < h.sliceMaps.length
    · simp only [Heap.setSlice, getD_set_self _ _ _ _ ha, List.set_set, List.foldl_cons]
    · have hset : ∀ x, h.sliceMaps.set a x = h.sliceMaps := fun x =>
        List.set_eq_of_length_le (by omega)
      simp only [Heap.setSlice, hset]

theorem mergeStringMapsAt_eq (h : Heap) (dest : Nat) (source : MapRef) :
    mergeStringMapsAt h dest source =
      { stringMaps :=
          h.stringMaps.set dest (mergeStringMaps (h.strings (some dest)) (h.strings source)),
        sliceMaps := h.sliceMaps } :=
  foldl_setString_eq dest _ h

theorem mergeStringSliceMapsAt_eq (h : Heap) (dest : Nat) (source : MapRef) :
    mergeStringSliceMapsAt h dest source =
      { stringMaps := h.stringMaps,
        sliceMaps :=
          h.sliceMaps.set dest
            (mergeStringSliceMaps (h.slices (some dest)) (h.slices source)) } :=
  foldl_setSlice_eq dest _ h

theorem mergeStringMapsAt_sliceMaps (h : Heap) (dest : Nat) (source : MapRef) :
    (mergeStringMapsAt h dest source).sliceMaps = h.sliceMaps := by
  rw [mergeStringMapsAt_eq]

theorem mergeStringMapsAt_length (h : Heap) (dest : Nat) (source : MapRef) :
    (mergeStringMapsAt h dest source).stringMaps.length = h.stringMaps.length := by
  rw [mergeStringMapsAt_eq]
  simp

theorem mergeStringSliceMapsAt_stringMaps (h : Heap) (dest : Nat) (source : MapRef) :
    (mergeStringSliceMapsAt h dest source).stringMaps = h.stringMaps := by
  rw [mergeStringSliceMapsAt_eq]

theorem mergeStringSliceMapsAt_length (h : Heap) (dest : Nat) (source : MapRef) :
    (mergeStringSliceMapsAt h dest source).sliceMaps.length = h.sliceMaps.length := by
  rw [mergeStringSliceMapsAt_eq]
  simp

/-- Step 1 of `Resolve` leaves every object of the heap as it was, and the two maps it
returns are new objects. -/
theorem mergeLayersOnHeap_frame (toUpper : String → String) (h : Heap) (refs : LayerRefs)
    (gi : GlobalIntent) (deviceName : String) :
    Heap.Extends h (mergeLayersOnHeap toUpper h refs gi deviceName).1 ∧
      ∀ merged, (mergeLayersOnHeap toUpper h refs gi deviceName).2 = .ok merged →
        merged.resolvedAliases = h.stringMaps.length ∧
        merged.resolvedPrefixLists = h.sliceMaps.length ∧
        merged.resolvedAliases < (mergeLayersOnHeap toUpper h refs gi deviceName).1.stringMaps.length ∧
        merged.resolvedPrefixLists <
          (mergeLayersOnHeap toUpper h refs gi deviceName).1.sliceMaps.length := by
  cases hprof : mapGet gi.DeviceProfiles deviceName with
  | none =>
    simp only [mergeLayersOnHeap, hprof]
    exact ⟨Heap.Extends.refl h, fun merged hm => by simp at hm⟩
  | some deviceProfile =>
    have e2 : Heap.Extends h
        (mergeStringMapsAt (h.newStrings []).1 (h.newStrings []).2 refs.globalAliases) :=
      ((Heap.Extends.refl h).newStrings []).mergeStrings _ (le_refl _) _
    have hP : ((mergeStringMapsAt (h.newStrings []).1 (h.newStrings []).2
        refs.globalAliases).newSlices []).2 = h.sliceMaps.length := by
      simp only [Heap.newSlices, mergeStringMapsAt_sliceMaps, Heap.newStrings]
    have e4 := (e2.newSlices []).mergeSlices _ (le_of_eq hP.symm) refs.globalPrefixLists
    cases hreg : mapGet gi.NetworkIntent.Regions deviceProfile.Region with
    | none =>
      simp only [mergeLayersOnHeap, hprof, hreg]
      exact ⟨e4, fun merged hm => by simp at hm⟩
    | some regionData =>
      have e6 := ((e4.newStrings (regionAliases toUpper regionData)).mergeStrings
        (h.newStrings []).2 (le_refl _)
        (some ((mergeStringSliceMapsAt
          ((mergeStringMapsAt (h.newStrings []).1 (h.newStrings []).2
            refs.globalAliases).newSlices []).1
          ((mergeStringMapsAt (h.newStrings []).1 (h.newStrings []).2
            refs.globalAliases).newSlices []).2
          refs.globalPrefixLists).newStrings (regionAliases toUpper regionData)).2))
      have e7 := e6.mergeStrings (h.newStrings []).2 (le_refl _)
        (refs.regionAliases deviceProfile.Region)
      have e8 := e7.mergeSlices _ (le_of_eq hP.symm)
        (refs.regionPrefixLists deviceProfile.Region)
      have e9 := e8.mergeStrings (h.newStrings []).2 (le_refl _) (refs.deviceAliases deviceName)
      have e10 := e9.mergeSlices _ (le_of_eq hP.symm) (refs.devicePrefixLists deviceName)
      simp only [mergeLayersOnHeap, hprof, hreg]
      refine ⟨e10, fun merged hm => ?_⟩
      simp only [Except.ok.injEq] at hm
      subst hm
      refine ⟨rfl, hP, ?_, ?_⟩
      · simp only [mergeStringSliceMapsAt_stringMaps, mergeStringMapsAt_length, Heap.newStrings,
          Heap.newSlices, List.length_append, List.length_singleton]
        omega
      · simp only [mergeStringSliceMapsAt_length, mergeStringMapsAt_sliceMaps, Heap.newStrings,
          Heap.newSlices, List.length_append, List.length_singleton]
        omega

theorem strings_append (S T : List (GoMap String String)) (L L' : List (GoMap String (List String)))
    (r : MapRef) (hr : (⟨S, L⟩ : Heap).HasStrings r) :
    (⟨S ++ T, L'⟩ : Heap).strings r = (⟨S, L⟩ : Heap).strings r := by
  cases r with
  | none => rfl
  | some a => exact List.getD_append _ _ _ _ (hr a rfl)

theorem slices_append (S S' : List (GoMap String String)) (L T : List (GoMap String (List String)))
    (r : MapRef) (hr : (⟨S, L⟩ : Heap).HasSlices r) :
    (⟨S', L ++ T⟩ : Heap).slices r = (⟨S, L⟩ : Heap).slices r := by
  cases r with
  | none => rfl
  | some a => exact List.getD_append _ _ _ _ (hr a rfl)

/-- A merge into the object at address `S.length`. -/
theorem mergeStringMapsAt_at (S T : List (GoMap String String)) (m : GoMap String String)
    (L : List (GoMap String (List String))) (source : MapRef) :
    mergeStringMapsAt ⟨S ++ m :: T, L⟩ S.length source =
      ⟨S ++ mergeStringMaps m ((⟨S ++ m :: T, L⟩ : Heap).strings source) :: T, L⟩ := by
  rw [mergeStringMapsAt_eq]
  have hget : (⟨S ++ m :: T, L⟩ : Heap).strings (some S.length) = m := by
    simp only [Heap.strings]
    rw [List.getD_append_right _ _ _ _ (le_refl _)]
    simp
  rw [hget]
  simp

theorem mergeStringSliceMapsAt_at (S : List (GoMap String String))
    (L T : List (GoMap String (List String))) (m : GoMap String (List String))
    (source : MapRef) :
    mergeStringSliceMapsAt ⟨S, L ++ m :: T⟩ L.length source =
      ⟨S, L ++ mergeStringSliceMaps m ((⟨S, L ++ m :: T⟩ : Heap).slices source) :: T⟩ := by
  rw [mergeStringSliceMapsAt_eq]
  have hget : (⟨S, L ++ m :: T⟩ : Heap).slices (some L.length) = m := by
    simp only [Heap.slices]
    rw [List.getD_append_right _ _ _ _ (le_refl _)]
    simp
  rw [hget]
  simp

theorem strings_at_succ (S T : List (GoMap String String)) (m x : GoMap String String)
    (L : List (GoMap String (List String))) :
    (⟨S ++ m :: x :: T, L⟩ : Heap).strings (some (S.length + 1)) = x := by
  simp only [Heap.strings]
  rw [List.getD_append_right _ _ _ _ (by omega)]
  simp

/-- Step 1 of `Resolve` on a heap that holds the layer maps: it adds three objects to the
heap, the merged alias map, the region's synthesized aliases and the merged prefix lists,
and changes nothing else. -/
theorem mergeLayersOnHeap_eq (toUpper : String → String) (h : Heap) (refs : LayerRefs)
    (gi : GlobalIntent) (deviceName : String) (deviceProfile : DeviceProfile)
    (regionData : Region) (hd : refs.Describes h gi)
    (hprof : mapGet gi.DeviceProfiles deviceName = some deviceProfile)
    (hreg : mapGet gi.NetworkIntent.Regions deviceProfile.Region = some regionData) :
    mergeLayersOnHeap toUpper h refs gi deviceName =
      (⟨h.stringMaps ++
          [mergeStringMaps (mergeStringMaps (mergeStringMaps
              (mergeStringMaps [] gi.NetworkIntent.GenericAlias)
              (regionAliases toUpper regionData)) regionData.GenericAlias)
              deviceProfile.GenericAlias,
            regionAliases toUpper regionData],
          h.sliceMaps ++
            [mergeStringSliceMaps (mergeStringSliceMaps
              (mergeStringSliceMaps [] gi.NetworkIntent.PrefixLists) regionData.PrefixLists)
              deviceProfile.PrefixLists]⟩,
        .ok ⟨deviceProfile, regionData, h.stringMaps.length, h.sliceMaps.length⟩) := by
  obtain ⟨S, L⟩ := h
  obtain ⟨⟨hG1, hG2⟩, ⟨hP1, hP2⟩, hR, hD⟩ := hd
  obtain ⟨⟨hRA1, hRA2⟩, ⟨hRP1, hRP2⟩⟩ := hR _ _ hreg
  obtain ⟨⟨hDA1, hDA2⟩, ⟨hDP1, hDP2⟩⟩ := hD _ _ hprof
  have hG : ∀ T L', (⟨S ++ T, L'⟩ : Heap).strings refs.globalAliases =
      gi.NetworkIntent.GenericAlias := fun T L' => (strings_append S T L L' _ hG1).trans hG2
  have hRA : ∀ T L', (⟨S ++ T, L'⟩ : Heap).strings (refs.regionAliases deviceProfile.Region) =
      regionData.GenericAlias := fun T L' => (strings_append S T L L' _ hRA1).trans hRA2
  have hDA : ∀ T L', (⟨S ++ T, L'⟩ : Heap).strings (refs.deviceAliases deviceName) =
      deviceProfile.GenericAlias := fun T L' => (strings_append S T L L' _ hDA1).trans hDA2
  have hP : ∀ S' T, (⟨S', L ++ T⟩ : Heap).slices refs.globalPrefixLists =
      gi.NetworkIntent.PrefixLists := fun S' T => (slices_append S S' L T _ hP1).trans hP2
  have hRP : ∀ S' T, (⟨S', L ++ T⟩ : Heap).slices (refs.regionPrefixLists deviceProfile.Region) =
      regionData.PrefixLists := fun S' T => (slices_append S S' L T _ hRP1).trans hRP2
  have hDP : ∀ S' T, (⟨S', L ++ T⟩ : Heap).slices (refs.devicePrefixLists deviceName) =
      deviceProfile.PrefixLists := fun S' T => (slices_append S S' L T _ hDP1).trans hDP2
  simp only [mergeLayersOnHeap, hprof, hreg, Heap.newStrings, Heap.newSlices,
    mergeStringMapsAt_at, mergeStringSliceMapsAt_at, hG, hP, List.append_assoc,
    List.singleton_append, List.length_append, List.length_singleton, strings_at_succ,
    hRA, hRP, hDA, hDP]

theorem strings_at (S T : List (GoMap String String)) (m : GoMap String String)
    (L : List (GoMap String (List String))) :
    (⟨S ++ m :: T, L⟩ : Heap).strings (some S.length) = m := by
  simp only [Heap.strings]
  rw [List.getD_append_right _ _ _ _ (le_refl _)]
  simp

theorem slices_at (S : List (GoMap String String)) (L T : List (GoMap String (List String)))
    (m : GoMap String (List String)) :
    (⟨S, L ++ m :: T⟩ : Heap).slices (some L.length) = m := by
  simp only [Heap.slices]
  rw [List.getD_append_right _ _ _ _ (le_refl _)]
  simp

/-- On a heap that holds the layer maps of the documents, `Resolve` run on the heap has the
outcome of `Resolve` run on the entries. -/
theorem ResolveOnHeap_refines (toUpper : String → String)
    (ord : GoMap String String → GoMap String String) (depth : Nat) (h : Heap)
    (refs : LayerRefs) (gi : GlobalIntent) (deviceName : String) (hd : refs.Describes h gi) :
    (ResolveOnHeap toUpper ord depth h refs gi deviceName).2.map
        (fun r => r.map ResolvedOnHeap.intent) =
      Resolve toUpper ord depth gi deviceName := by
  cases hprof : mapGet gi.DeviceProfiles deviceName with
  | none =>
    simp only [ResolveOnHeap, mergeLayersOnHeap, Resolve, hprof]
    rfl
  | some deviceProfile =>
    cases hreg : mapGet gi.NetworkIntent.Regions deviceProfile.Region with
    | none =>
      simp only [ResolveOnHeap, mergeLayersOnHeap, Resolve, hprof, hreg]
      rfl
    | some regionData =>
      obtain ⟨S, L⟩ := h
      simp only [ResolveOnHeap,
        mergeLayersOnHeap_eq toUpper ⟨S, L⟩ refs gi deviceName deviceProfile regionData hd hprof
          hreg,
        Resolve, hprof, hreg, Heap.newStrings, List.append_assoc, List.cons_append,
        List.nil_append, strings_at, slices_at, newResolver]
      cases resolveMap
        (mergeStringMaps (mergeStringMaps (mergeStringMaps
          (mergeStringMaps [] gi.NetworkIntent.GenericAlias)
          (regionAliases toUpper regionData)) regionData.GenericAlias)
          deviceProfile.GenericAlias) depth gi.NetworkIntent.Communities with
      | none => rfl
      | some resolvedCommunities =>
        cases resolveVPNs
          (mergeStringMaps (mergeStringMaps (mergeStringMaps
            (mergeStringMaps [] gi.NetworkIntent.GenericAlias)
            (regionAliases toUpper regionData)) regionData.GenericAlias)
            deviceProfile.GenericAlias) depth gi.NetworkIntent.VPNs with
        | none => rfl
        | some resolvedVPNs => rfl

/-- C22.  `Resolve` never writes to its input layers.  Run on any heap of map objects, with
any map values for the `generic_alias` and prefix-list fields of the global, region and
device documents, it leaves every object that was on the heap where it was and with the
entries it had, whether the call succeeds, fails or exceeds the resolution depth: each
input map reads after the call as before.  On success the merged namespace and the merged
prefix lists are new objects, at addresses that the heap did not have before the call. -/
theorem Resolve_frame (toUpper : String → String)
    (ord : GoMap String String → GoMap String String) (depth : Nat) (h : Heap)
    (refs : LayerRefs) (gi : GlobalIntent) (deviceName : String) :
    Heap.Extends h (ResolveOnHeap toUpper ord depth h refs gi deviceName).1 ∧
      (∀ r, h.HasStrings r →
        (ResolveOnHeap toUpper ord depth h refs gi deviceName).1.strings r = h.strings r) ∧
      (∀ r, h.HasSlices r →
        (ResolveOnHeap toUpper ord depth h refs gi deviceName).1.slices r = h.slices r) ∧
      ∀ res, (ResolveOnHeap toUpper ord depth h refs gi deviceName).2 = some (.ok res) →
        res.GenericAlias = h.stringMaps.length ∧ res.PrefixLists = h.sliceMaps.length ∧
        res.GenericAlias <
          (ResolveOnHeap toUpper ord depth h refs gi deviceName).1.stringMaps.length ∧
        res.PrefixLists <
          (ResolveOnHeap toUpper ord depth h refs gi deviceName).1.sliceMaps.length ∧
        res.intent.GenericAlias =
          (ResolveOnHeap toUpper ord depth h refs gi deviceName).1.strings
            (some res.GenericAlias) ∧
        res.intent.PrefixLists =
          (ResolveOnHeap toUpper ord depth h refs gi deviceName).1.slices
            (some res.PrefixLists) := by
  have hframe := mergeLayersOnHeap_frame toUpper h refs gi deviceName
  have key : Heap.Extends h (ResolveOnHeap toUpper ord depth h refs gi deviceName).1 ∧
      ∀ res, (ResolveOnHeap toUpper ord depth h refs gi deviceName).2 = some (.ok res) →
        res.GenericAlias = h.stringMaps.length ∧ res.PrefixLists = h.sliceMaps.length ∧
        res.GenericAlias <
          (ResolveOnHeap toUpper ord depth h refs gi deviceName).1.stringMaps.length ∧
        res.PrefixLists <
          (ResolveOnHeap toUpper ord depth h refs gi deviceName).1.sliceMaps.length ∧
        res.intent.GenericAlias =
          (ResolveOnHeap toUpper ord depth h refs gi deviceName).1.strings
            (some res.GenericAlias) ∧
        res.intent.PrefixLists =
          (ResolveOnHeap toUpper ord depth h refs gi deviceName).1.slices
            (some res.PrefixLists) := by
    unfold ResolveOnHeap
    cases hm : mergeLayersOnHeap toUpper h refs gi deviceName with
    | mk h1 r =>
      rw [hm] at hframe
      obtain ⟨he, hfresh⟩ := hframe
      cases r with
      | error msg => exact ⟨he, fun res hres => by simp at hres⟩
      | ok merged =>
        obtain ⟨hA, hP, hA', hP'⟩ := hfresh merged rfl
        simp only at hA' hP'
        simp only
        cases hc : resolveMap
          (newResolver ord (h1.strings (some merged.resolvedAliases))
            gi.NetworkIntent.ReverseExclude).aliases depth gi.NetworkIntent.Communities with
        | none => exact ⟨he.newStrings _, fun res hres => by simp at hres⟩
        | some resolvedCommunities =>
          cases hv : resolveVPNs
            (newResolver ord (h1.strings (some merged.resolvedAliases))
              gi.NetworkIntent.ReverseExclude).aliases depth gi.NetworkIntent.VPNs with
          | none => exact ⟨he.newStrings _, fun res hres => by simp at hres⟩
          | some resolvedVPNs =>
            refine ⟨(he.newStrings _).newStrings _, fun res hres => ?_⟩
            simp only [Option.some.injEq, Except.ok.injEq] at hres
            subst hres
            refine ⟨hA, hP, ?_, ?_, rfl, rfl⟩
            · simp only [Heap.newStrings, List.length_append, List.length_singleton]
              omega
            · simpa only [Heap.newStrings] using hP'
  exact ⟨key.1, fun r hr => key.1.strings r hr, fun r hr => key.1.slices r hr, key.2⟩

theorem Resolve_frame_witness :
    exampleHeap.HasStrings exampleRefs.globalAliases ∧
      (ResolveOnHeap asciiUpper id 2 exampleHeap exampleRefs
          (exampleIntent exampleL1 exampleL2 exampleL3) "pe1").1.stringMaps.take 3 =
        [exampleL1, exampleL2, exampleL3] ∧
      (ResolveOnHeap asciiUpper id 2 exampleHeap exampleRefs
          (exampleIntent exampleL1 exampleL2 exampleL3) "pe1").2.map
          (fun r => r.map (fun res => (res.GenericAlias, res.PrefixLists, res.intent.GenericAlias))) =
        some (.ok (3, 0, [("x", "g"), ("y", "r"), ("z", "d"), ("pe-asname", "east-as"),
          ("pe-asnum", "64512"), ("PE-ASNAME", "EAST-AS")])) ∧
      (ResolveOnHeap asciiUpper id 2 exampleHeap exampleRefs
          (exampleIntent exampleL1 exampleL2 exampleL3) "pe9").1 = exampleHeap ∧
      (ResolveOnHeap asciiUpper id 2 exampleHeap exampleRefs
          (exampleIntent exampleL1 exampleL2 exampleL3) "pe1").1.strings
          exampleRefs.globalAliases = exampleL1 := by
  have hs : exampleHeap.HasStrings exampleRefs.globalAliases := by
    intro a ha
    simp only [exampleRefs, Option.some.injEq] at ha
    subst ha
    decide
  exact ⟨hs, by decide, by decide, by decide,
    (Resolve_frame asciiUpper id 2 exampleHeap exampleRefs
      (exampleIntent exampleL1 exampleL2 exampleL3) "pe1").2.1 exampleRefs.globalAliases hs⟩

/-! ## `ConfigBridgeInterface`: the trunk VLANs on the wire -/

theorem StringToPath_pathText (parts : List (Option PathSegment))
    (h : ∀ s, some s ∈ parts → s.Valid) :
    StringToPath (pathText parts) =
      .ok { Origin := "openconfig", Elem := (parts.filterMap id).map PathSegment.elem } := by
  have hloop := stringToPathElems_parts parts h
  have htrim : trimLeadingSlash (pathText parts).toList =
      ['/'].intercalate (parts.map segmentText) := by
    simp [pathText, trimLeadingSlash]
  unfold StringToPath
  simp only [htrim]
  cases parts with
  | nil => rfl
  | cons p ps =>
    have hsplit : (['/'].intercalate ((p :: ps).map segmentText)).splitOn '/' =
        (p :: ps).map segmentText := by
      apply List.splitOn_intercalate
      · intro l hl
        obtain ⟨q, hq, rfl⟩ := List.mem_map.mp hl
        exact segmentText_no_slash q (fun s hs => h s (hs ▸ hq))
      · simp
    by_cases hnil : ['/'].intercalate ((p :: ps).map segmentText) = []
    · rw [hnil] at hsplit
      rw [← hsplit] at hloop
      have h0 : stringToPathElems (([] : List Char).splitOn '/') = .ok [] := by decide
      rw [h0] at hloop
      simp only [hnil, if_true]
      have := Except.ok.inj hloop
      rw [← this]
    · simp only [hnil, if_false, hsplit, hloop]

theorem switchedVlanPath_eq (port : Port) :
    switchedVlanPath port = pathText (switchedVlanParts port.IfName) := by
  apply String.ext
  simp [switchedVlanPath, pathText, switchedVlanParts, segmentText, PathSegment.text,
    List.intercalate, List.intersperse]

/-- For an interface name that is not empty and has no `/` and no single quote, the
switched-VLAN path string is parsed into its four elements, the second with the key
`name`. -/
theorem switchedVlanPath_parsed (port : Port) (hne : port.IfName.toList ≠ [])
    (hs : '/' ∉ port.IfName.toList) (hq : quote ∉ port.IfName.toList) :
    StringToPath ("/interfaces/interface[name=" ++ port.IfName ++ "]/ethernet/switched-vlan") =
      .ok { Origin := "openconfig",
            Elem := [⟨"interfaces", []⟩, ⟨"interface", [("name", port.IfName)]⟩,
                     ⟨"ethernet", []⟩, ⟨"switched-vlan", []⟩] } := by
  have hv : ∀ s, some s ∈ switchedVlanParts port.IfName → s.Valid := by
    intro s hs'
    simp only [switchedVlanParts, List.mem_cons, Option.some.injEq, List.mem_singleton,
      List.not_mem_nil, or_false] at hs'
    rcases hs' with rfl | rfl | rfl | rfl
    · exact ⟨by decide, by decide, fun key value h => by cases h⟩
    · refine ⟨?_, ?_, fun key value h => ?_⟩
      · show "interface".toList ≠ []
        decide
      · show ∀ c ∈ "interface".toList, isPathChar c = true
        decide
      simp only [Option.some.injEq, Prod.mk.injEq] at h
      obtain ⟨rfl, rfl⟩ := h
      exact ⟨by decide, by decide, hne, hs, hq⟩
    · exact ⟨by decide, by decide, fun key value h => by cases h⟩
    · exact ⟨by decide, by decide, fun key value h => by cases h⟩
  have h := StringToPath_pathText (switchedVlanParts port.IfName) hv
  rw [← switchedVlanPath_eq] at h
  exact h

theorem gnmiSet_accepted (d : Device) (log : List SetCall) (pathStr : String)
    (op : Operation) (s : Payload) (path : Path) (hp : StringToPath pathStr = .ok path)
    (hs : emitJSON s = .ok ()) (hc : d.gnmiClient log ⟨pathStr, op, s, some path⟩ = none) :
    d.gnmiSet log pathStr op s = (.ok (), log ++ [⟨pathStr, op, s, some path⟩]) := by
  unfold Device.gnmiSet
  simp only [hp, hs, ite_self, hc]

theorem gnmiSet_refused (d : Device) (log : List SetCall) (pathStr : String)
    (op : Operation) (s : Payload) (path : Path) (msg : String)
    (hp : StringToPath pathStr = .ok path) (hs : emitJSON s = .ok ())
    (hc : d.gnmiClient log ⟨pathStr, op, s, some path⟩ = some msg) :
    d.gnmiSet log pathStr op s =
      (.error (.error ("gNMI Set failed for path " ++ pathStr ++ " (op: " ++ op.name ++ "): "
        ++ msg)), log ++ [⟨pathStr, op, s, some path⟩]) := by
  unfold Device.gnmiSet
  simp only [hp, hs, ite_self, hc]

/-- For a port whose name is not empty and has no `/` and no single quote, and an action
other than `delete`, `ConfigBridgeInterface` in trunk mode makes exactly one `gnmiSet`
call, the replace of the trunk VLANs on the switched-VLAN path of the interface, and
returns what the device answers to it. -/
theorem ConfigBridgeInterface_trunk_plain_name (d : Device) (port : Port) (action : String)
    (vlans : List String) (h : ∀ v ∈ vlans, ∃ n, IsVlanNumeral v n) (ha : action ≠ "delete")
    (hne : port.IfName.toList ≠ []) (hs : '/' ∉ port.IfName.toList)
    (hq : quote ∉ port.IfName.toList) :
    (d.ConfigBridgeInterface port action "trunk" vlans).2 =
        [trunkReplace port.IfName (vlans.map vlanValue)] ∧
      (d.gnmiClient [] (trunkReplace port.IfName (vlans.map vlanValue)) = none →
        (d.ConfigBridgeInterface port action "trunk" vlans).1 = .ok ()) ∧
      (∀ msg, d.gnmiClient [] (trunkReplace port.IfName (vlans.map vlanValue)) = some msg →
        (d.ConfigBridgeInterface port action "trunk" vlans).1 =
          .error (.error ("gNMI Set failed for path "
            ++ ("/interfaces/interface[name=" ++ port.IfName ++ "]/ethernet/switched-vlan")
            ++ " (op: " ++ "REPLACE" ++ "): " ++ msg))) := by
  have hb := (buildSwitchedVlanConfig_trunk_payload vlans h).1
  have hp := switchedVlanPath_parsed port hne hs hq
  have hcfg : d.ConfigBridgeInterface port action "trunk" vlans =
      d.gnmiSet [] ("/interfaces/interface[name=" ++ port.IfName ++ "]/ethernet/switched-vlan")
        .REPLACE (.bridgeInterface port.IfName
          { InterfaceMode := .TRUNK, AccessVlan := none, TrunkVlans := vlans.map vlanValue }) := by
    unfold Device.ConfigBridgeInterface
    simp only [ha, if_false, hb]
    rfl
  rw [hcfg]
  refine ⟨?_, fun hc => ?_, fun msg hc => ?_⟩
  · cases hc : d.gnmiClient [] (trunkReplace port.IfName (vlans.map vlanValue)) with
    | none => rw [gnmiSet_accepted d [] _ .REPLACE
      (.bridgeInterface port.IfName ⟨.TRUNK, none, vlans.map vlanValue⟩) _ hp rfl hc]; rfl
    | some msg => rw [gnmiSet_refused d [] _ .REPLACE
      (.bridgeInterface port.IfName ⟨.TRUNK, none, vlans.map vlanValue⟩) _ msg hp rfl hc]; rfl
  · rw [gnmiSet_accepted d [] _ .REPLACE
      (.bridgeInterface port.IfName ⟨.TRUNK, none, vlans.map vlanValue⟩) _ hp rfl hc]
  · rw [gnmiSet_refused d [] _ .REPLACE
      (.bridgeInterface port.IfName ⟨.TRUNK, none, vlans.map vlanValue⟩) _ msg hp rfl hc]
    rfl

/-- C12 (the code at the failing input).  For the port `et-0/0/0` and the trunk VLANs 100,
200 and 300 (a device that accepts every request), `ConfigBridgeInterface` compiles the
payload with exactly these trunk VLANs and makes one `gnmiSet` call, but the request goes to
the six elements `interfaces`, `interface`, `0`, `0`, `ethernet`, `switched-vlan`, none with
a key: that is not the switched-VLAN path of the interface `et-0/0/0`, which is the path of
`ae0` below with the key `name = et-0/0/0`. -/
theorem ConfigBridgeInterface_trunk_slash_name :
    Device.ConfigBridgeInterface (acceptingDevice (intentWith [] [])) ⟨"et-0/0/0"⟩ "add" "trunk"
        ["100", "200", "300"] =
      (.ok (),
        [⟨"/interfaces/interface[name=et-0/0/0]/ethernet/switched-vlan", .REPLACE,
          .bridgeInterface "et-0/0/0"
            { InterfaceMode := .TRUNK, AccessVlan := none, TrunkVlans := [100, 200, 300] },
          some ⟨"openconfig", [⟨"interfaces", []⟩, ⟨"interface", []⟩, ⟨"0", []⟩, ⟨"0", []⟩,
            ⟨"ethernet", []⟩, ⟨"switched-vlan", []⟩]⟩⟩]) ∧
    Device.ConfigBridgeInterface (acceptingDevice (intentWith [] [])) ⟨"ae0"⟩ "add" "trunk"
        ["100", "200", "300"] =
      (.ok (),
        [⟨"/interfaces/interface[name=ae0]/ethernet/switched-vlan", .REPLACE,
          .bridgeInterface "ae0"
            { InterfaceMode := .TRUNK, AccessVlan := none, TrunkVlans := [100, 200, 300] },
          some ⟨"openconfig", [⟨"interfaces", []⟩, ⟨"interface", [("name", "ae0")]⟩,
            ⟨"ethernet", []⟩, ⟨"switched-vlan", []⟩]⟩⟩]) := by
  decide

/-! ## `buildSwitchedVlanConfig`: the first offending VLAN -/

/-- The trunk loop fails at the first string that `strconv.Atoi` rejects, and names it. -/
theorem trunkVlanLoop_first_error (pre : List String) (w : String) (post : List String) :
    ∀ (acc : List Nat), (∀ u ∈ pre, isGoInt u.toList = true) → isGoInt w.toList = false →
      trunkVlanLoop (pre ++ w :: post) acc =
        .error (.error ("invalid VLAN ID for trunk mode: " ++ w)) := by
  induction pre with
  | nil =>
    intro acc _ hw
    simp only [List.nil_append, trunkVlanLoop, strconvAtoi_none_of_not_int _ hw]
  | cons u pre ih =>
    intro acc hpre hw
    have hu : (strconvAtoi u.toList).isSome = true := by
      rw [strconvAtoi_isSome]; exact hpre u (List.mem_cons_self _ _)
    obtain ⟨z, hz⟩ := Option.isSome_iff_exists.mp hu
    simp only [List.cons_append, trunkVlanLoop, hz]
    exact ih _ (fun x hx => hpre x (List.mem_cons_of_mem _ hx)) hw

/-- A list with a string that `strconv.Atoi` rejects splits at the first such string. -/
theorem first_not_int (vlans : List String) (h : ∃ w ∈ vlans, isGoInt w.toList = false) :
    ∃ pre w post, vlans = pre ++ w :: post ∧ (∀ u ∈ pre, isGoInt u.toList = true) ∧
      isGoInt w.toList = false := by
  induction vlans with
  | nil => obtain ⟨w, hw, _⟩ := h; simp at hw
  | cons v rest ih =>
    cases hv : isGoInt v.toList with
    | false => exact ⟨[], v, rest, rfl, fun u hu => by simp at hu, hv⟩
    | true =>
      obtain ⟨w, hw, hwb⟩ := h
      have hw' : w ∈ rest := by
        rcases List.mem_cons.mp hw with rfl | h'
        · rw [hv] at hwb; exact absurd hwb (by simp)
        · exact h'
      obtain ⟨pre, x, post, hsplit, hpre, hx⟩ := ih ⟨w, hw', hwb⟩
      refine ⟨v :: pre, x, post, by rw [hsplit]; rfl, fun u hu => ?_, hx⟩
      rcases List.mem_cons.mp hu with rfl | h'
      · exact hv
      · exact hpre u h'

/-- C13 (amended).  In trunk mode, and in access mode with exactly one VLAN, every VLAN ID
is parsed by `strconv.Atoi`, that is as a signed integer.  `buildSwitchedVlanConfig` fails
if and only if some VLAN string is not an optionally signed (`+` or `-`) decimal integer
that fits a Go `int`, and returns a payload otherwise; the failure is the invalid-VLAN-ID
error that names the first offending string: the list is `pre ++ w :: post` with every
string of `pre` accepted and `w` rejected, and the error names `w`.  In access mode with
another number of VLANs the error is the cardinality error, whatever the strings are. -/
theorem buildSwitchedVlanConfig_invalid_vlan (vlans : List String) (v : String) :
    ((∃ w ∈ vlans, isGoInt w.toList = false) →
        ∃ pre w post, vlans = pre ++ w :: post ∧ (∀ u ∈ pre, isGoInt u.toList = true) ∧
          isGoInt w.toList = false ∧
          buildSwitchedVlanConfig "trunk" vlans =
            .error (.error ("invalid VLAN ID for trunk mode: " ++ w))) ∧
      ((∀ w ∈ vlans, isGoInt w.toList = true) →
        ∃ cfg, buildSwitchedVlanConfig "trunk" vlans = .ok cfg) ∧
      (isGoInt v.toList = false →
        buildSwitchedVlanConfig "access" [v] =
          .error (.error ("invalid VLAN ID for access mode: " ++ v))) ∧
      (isGoInt v.toList = true → ∃ cfg, buildSwitchedVlanConfig "access" [v] = .ok cfg) ∧
      ((∃ e, buildSwitchedVlanConfig "trunk" vlans = .error e) ↔
        ∃ w ∈ vlans, isGoInt w.toList = false) ∧
      ((∃ e, buildSwitchedVlanConfig "access" [v] = .error e) ↔ isGoInt v.toList = false) ∧
      (vlans.length ≠ 1 →
        buildSwitchedVlanConfig "access" vlans =
          .error (.error ("access mode requires exactly one VLAN, got "
            ++ toString vlans.length))) := by
  have hne : ¬ ("trunk" = "access") := by decide
  have htrunkBad : (∃ w ∈ vlans, isGoInt w.toList = false) →
      ∃ pre w post, vlans = pre ++ w :: post ∧ (∀ u ∈ pre, isGoInt u.toList = true) ∧
        isGoInt w.toList = false ∧
        buildSwitchedVlanConfig "trunk" vlans =
          .error (.error ("invalid VLAN ID for trunk mode: " ++ w)) := by
    intro h
    obtain ⟨pre, w, post, hsplit, hpre, hw⟩ := first_not_int vlans h
    refine ⟨pre, w, post, hsplit, hpre, hw, ?_⟩
    unfold buildSwitchedVlanConfig
    simp only [hne, if_false, if_true, hsplit, trunkVlanLoop_first_error pre w post [] hpre hw]
  have htrunkOk : (∀ w ∈ vlans, isGoInt w.toList = true) →
      ∃ cfg, buildSwitchedVlanConfig "trunk" vlans = .ok cfg := by
    intro h
    obtain ⟨out, hout⟩ := trunkVlanLoop_accepts vlans [] h
    refine ⟨{ InterfaceMode := .TRUNK, AccessVlan := none, TrunkVlans := out }, ?_⟩
    unfold buildSwitchedVlanConfig
    simp only [hne, if_false, if_true, hout]
  have haccBad : isGoInt v.toList = false →
      buildSwitchedVlanConfig "access" [v] =
        .error (.error ("invalid VLAN ID for access mode: " ++ v)) :=
    fun h => buildSwitchedVlanConfig_bad_access v h
  have haccOk : isGoInt v.toList = true → ∃ cfg, buildSwitchedVlanConfig "access" [v] = .ok cfg := by
    intro h
    have hv : (strconvAtoi v.toList).isSome = true := by rw [strconvAtoi_isSome]; exact h
    obtain ⟨z, hz⟩ := Option.isSome_iff_exists.mp hv
    refine ⟨{ InterfaceMode := .ACCESS, AccessVlan := some (uint16 z), TrunkVlans := [] }, ?_⟩
    unfold buildSwitchedVlanConfig
    simp only [if_true, hz]
  refine ⟨htrunkBad, htrunkOk, haccBad, haccOk, ⟨?_, ?_⟩, ⟨?_, ?_⟩,
    buildSwitchedVlanConfig_bad_count vlans⟩
  · rintro ⟨e, he⟩
    by_contra hno
    have hall : ∀ w ∈ vlans, isGoInt w.toList = true := by
      intro w hw
      cases hb : isGoInt w.toList with
      | true => rfl
      | false => exact absurd ⟨w, hw, hb⟩ hno
    obtain ⟨cfg, hcfg⟩ := htrunkOk hall
    rw [hcfg] at he
    exact absurd he (by simp)
  · intro h
    obtain ⟨_, w, _, _, _, _, hres⟩ := htrunkBad h
    exact ⟨_, hres⟩
  · rintro ⟨e, he⟩
    cases hb : isGoInt v.toList with
    | false => rfl
    | true =>
      obtain ⟨cfg, hcfg⟩ := haccOk hb
      rw [hcfg] at he
      exact absurd he (by simp)
  · intro h
    exact ⟨_, haccBad h⟩

theorem buildSwitchedVlanConfig_invalid_vlan_witness :
    (∃ w ∈ ["100", "abc", ""], isGoInt w.toList = false) ∧
      isGoInt "".toList = false ∧ isGoInt "1x".toList = false ∧ isGoInt "-5".toList = true ∧
      buildSwitchedVlanConfig "trunk" ["100", "abc", ""] =
        .error (.error "invalid VLAN ID for trunk mode: abc") ∧
      (∃ pre w post, ["100", "abc", ""] = pre ++ w :: post ∧
        (∀ u ∈ pre, isGoInt u.toList = true) ∧ isGoInt w.toList = false ∧
        buildSwitchedVlanConfig "trunk" ["100", "abc", ""] =
          .error (.error ("invalid VLAN ID for trunk mode: " ++ w))) ∧
      buildSwitchedVlanConfig "access" [""] =
        .error (.error ("invalid VLAN ID for access mode: " ++ "")) :=
  ⟨⟨"abc", by decide, by decide⟩, by decide, by decide, by decide, by decide,
    (buildSwitchedVlanConfig_invalid_vlan ["100", "abc", ""] "").1 ⟨"abc", by decide, by decide⟩,
    (buildSwitchedVlanConfig_invalid_vlan ["100", "abc", ""] "").2.2.1 (by decide)⟩

/-! ## `buildSubinterfaceIPConfig`: numbers outside the range of `int` -/

/-- C15 (counterexample).  The address `10.0.0.1/9223372036854775808` splits on `/` into
exactly two parts and the part after the `/` is a number, the decimal numeral of `2^63`, yet
`buildSubinterfaceIPConfig` fails with the invalid-prefix-length error: `strconv.Atoi`
rejects a number that does not fit a Go `int`. -/
theorem buildSubinterfaceIPConfig_rejects_large_number :
    "10.0.0.1/9223372036854775808".toList.count '/' = 1 ∧
      decimalValue (afterSlash "10.0.0.1/9223372036854775808".toList) =
        some 9223372036854775808 ∧
      buildSubinterfaceIPConfig "ae0" 100 "10.0.0.1/9223372036854775808" =
        .error (.error "invalid prefix length: 9223372036854775808") := by
  decide

end Newtron
